import Mathlib

/-!
# GPU program parameter buffers (CmGpuProgramParams.cpp)

A shallow embedding of `CamelotEngine::GpuNamedConstants` and
`CamelotEngine::GpuProgramParameters`, and of
`BansheeEngine::TextSprite::getAlignmentOffsets` (BsTextSprite.cpp), followed
by theorems about them.

Conventions of the embedding:

* `size_t` values (sizes, counts, physical and logical indices) are natural
  numbers.  The sum `physicalIndex + count` in the bounds assertion of a raw
  read or write takes its operands from the caller and is formed modulo 2^64,
  as the code forms it.  Every other sum is an index into, or a size of, an
  in-memory buffer, and 64-bit wrap-around is not modelled there.
* The float element type is a parameter `F` with a zero (`0.0f`); the code
  only stores, copies and zero-fills floats on the paths embedded here.
* A `std::map` is its sequence of (key, value) pairs in iteration order.
* A shared pointer is modelled by its pointee (`none` is `nullptr`); the
  mutex of a table is not modelled, calls are sequential.  Where sharing itself
  is the subject (assignment), the members are given with the addresses the
  pointers hold (`GpuProgramParametersPtrs`).
* A call ends in an `Outcome`: it returns, throws, fails an assertion, or
  runs into undefined behaviour.
* `UINT32` values of the text sprite code are natural numbers reduced modulo
  2^32 by every operation; `INT32` values are integers, and the conversions
  between the two are the two's complement ones.
-/

namespace CamelotEngine

/-! ## Outcomes of a call -/

/-- How a member function call on a state `σ` with result type `α` ends. -/
inductive Outcome (σ α : Type) where
  /-- Normal return, with the state after the call and the returned value. -/
  | returned (state : σ) (value : α)
  /-- The call left by `CM_EXCEPT(InvalidParametersException, ...)`; the state
  is the one at the throw. -/
  | threw (state : σ)
  /-- An `assert` failed; the state is the one at the assertion. -/
  | assertFailed (state : σ)
  /-- The call executed an operation without defined behaviour (use of an
  iterator that was never assigned, an iterator moved past the end, a read
  past the end of the source array). -/
  | undefined
  deriving DecidableEq, Repr

/-! ## `std::map` -/

namespace StdMap

variable {K V : Type}

/-- The `map.find(k)` lookup: the value stored under `k`, if any. -/
def find [DecidableEq K] (k : K) : List (K × V) → Option V
  | [] => none
  | (k', v) :: rest => if k' = k then some v else find k rest

/-- Places `(k, v)` in front of the first entry whose key is greater in the
key order `lt` of the map. -/
def orderedInsert (lt : K → K → Bool) (k : K) (v : V) : List (K × V) → List (K × V)
  | [] => [(k, v)]
  | (k', v') :: rest =>
      if lt k k' then (k, v) :: (k', v') :: rest
      else (k', v') :: orderedInsert lt k v rest

/-- The `map.insert(value_type(k, v))` call: a key that is already present
keeps its value, otherwise the pair is added at its place in key order. -/
def insert [DecidableEq K] (lt : K → K → Bool) (k : K) (v : V) (m : List (K × V)) :
    List (K × V) :=
  match find k m with
  | some _ => m
  | none => orderedInsert lt k v m

/-- Assignment through an iterator or pointer to the entry of key `k`:
`it->second = f (it->second)`. -/
def modify [DecidableEq K] (k : K) (f : V → V) : List (K × V) → List (K × V)
  | [] => []
  | (k', v) :: rest =>
      if k' = k then (k', f v) :: rest else (k', v) :: modify k f rest

/-- A loop `for (i = m.begin(); i != m.end(); ++i) i->second = f (i->second)`. -/
def forEach (f : V → V) (m : List (K × V)) : List (K × V) :=
  m.map (fun kv => (kv.1, f kv.2))

end StdMap

/-! ## Data model -/

/-- Modelled from the spec: `GpuLogicalIndexUse` is declared in
CmGpuProgramParams.h, which is not among the sources; the fields are the ones
the constructor call `GpuLogicalIndexUse(currPhys, requestedSize, variability)`
and the member accesses of the code use (spec: physical index, current
reserved size, variability bitmask). -/
structure GpuLogicalIndexUse where
  physicalIndex : Nat
  currentSize : Nat
  variability : Nat
  deriving DecidableEq, Repr

/-- Modelled from the spec: `GpuLogicalBufferStruct` (the Logical Index Table)
is declared in the missing header; it owns the mapping keyed by logical index
and the cached total buffer size. -/
structure GpuLogicalBufferStruct where
  map : List (Nat × GpuLogicalIndexUse)
  bufferSize : Nat
  deriving DecidableEq, Repr

/-- Modelled from the spec: the type tag of a constant definition, Float or
Int; `isFloat()` of the missing header tells them apart. -/
inductive GpuConstantType where
  | float
  | int
  deriving DecidableEq, Repr

/-- Modelled from the spec: `GpuConstantDefinition` is declared in the missing
header; these are the fields the code reads and writes (spec: physical index,
element size, array size, type tag). -/
structure GpuConstantDefinition where
  constType : GpuConstantType
  physicalIndex : Nat
  elementSize : Nat
  arraySize : Nat
  deriving DecidableEq, Repr

/-- The `isFloat()` query on a definition. -/
def GpuConstantDefinition.isFloat (d : GpuConstantDefinition) : Bool :=
  decide (d.constType = GpuConstantType.float)

/-- Key order of `std::map<size_t, ...>`. -/
def sizeLess (a b : Nat) : Bool := decide (a < b)

/-- Key order of `std::map<String, ...>`: lexicographic on the characters. -/
def stringLess (a b : String) : Bool := decide (a.toList < b.toList)

/-- Modelled from the spec: `GpuNamedConstants` (the Named Constant Registry)
is declared in the missing header; the code uses its three sizes and its map
from names to definitions. -/
structure GpuNamedConstants where
  floatBufferSize : Nat
  intBufferSize : Nat
  samplerCount : Nat
  map : List (String × GpuConstantDefinition)
  deriving DecidableEq, Repr

/-- Modelled from the spec: `TextureRef` is a handle to a texture resource
declared outside the sources; `none` is the null handle `TextureRef()`. -/
abbrev TextureRef := Option Nat

/-- Modelled from the spec: `SamplerState` is a settings value declared outside
the sources; the code only copies it, so a code number stands for it. -/
abbrev SamplerState := Nat

/-- Modelled from the spec: `GpuTextureEntry`, the optional (texture,
sampler-state) pair of a binding slot, declared in the missing header. -/
structure GpuTextureEntry where
  texture : TextureRef
  samplerState : SamplerState
  deriving DecidableEq, Repr

/-- The members of `GpuProgramParameters`.  `F` is the float element type. -/
structure GpuProgramParameters (F : Type) where
  mFloatConstants : List F
  mIntConstants : List Int
  mTextures : List (Option GpuTextureEntry)
  mFloatLogicalToPhysical : Option GpuLogicalBufferStruct
  mIntLogicalToPhysical : Option GpuLogicalBufferStruct
  mSamplerLogicalToPhysical : Option GpuLogicalBufferStruct
  mNamedConstants : Option GpuNamedConstants
  mCombinedVariability : Nat
  mTransposeMatrices : Bool
  mIgnoreMissingParams : Bool
  mActivePassIterationIndex : Nat
  deriving DecidableEq, Repr

/-- Modelled from the spec: `Matrix4` (CmMatrix4.h is not among the sources) is
a 4x4 array `m[4][4]` of floats stored row by row. -/
structure Matrix4 (F : Type) where
  m : Fin 4 → Fin 4 → F

/-- Modelled from the spec: `Matrix4::transpose()` of the missing header swaps
rows and columns. -/
def Matrix4.transpose {F : Type} (a : Matrix4 F) : Matrix4 F :=
  ⟨fun i j => a.m j i⟩

/-- The 16 floats that the pointer `m[0]` addresses: the rows of `m[4][4]` one
after the other. -/
def Matrix4.row0 {F : Type} (a : Matrix4 F) : List F :=
  List.ofFn (fun (k : Fin 16) =>
    a.m ⟨k.val / 4, by omega⟩ ⟨k.val % 4, by omega⟩)

/-! ## `GpuNamedConstants` -/

/-- The name `paramName + "[" + toString(i) + "]"` of array element `i`. -/
def arrayEntryName (paramName : String) (i : Nat) : String :=
  paramName ++ "[" ++ toString i ++ "]"

/-- Loop variables of the `for` loop of
`generateConstantDefinitionArrayEntries`: the registry map and `arrayDef`. -/
structure ArrayEntriesLoop where
  map : List (String × GpuConstantDefinition)
  arrayDef : GpuConstantDefinition

/-- One iteration of that loop, for index `i`: insert under the element name,
then advance the location. -/
def arrayEntriesStep (paramName : String) (st : ArrayEntriesLoop) (i : Nat) :
    ArrayEntriesLoop :=
  { map := StdMap.insert stringLess (arrayEntryName paramName i) st.arrayDef st.map
    arrayDef := { st.arrayDef with
      physicalIndex := st.arrayDef.physicalIndex + st.arrayDef.elementSize } }

/-- Embedding of `GpuNamedConstants::generateConstantDefinitionArrayEntries`;
the static flag `msGenerateAllConstantDefinitionArrayEntries` is the first
argument. -/
def GpuNamedConstants.generateConstantDefinitionArrayEntries
    (msGenerateAllConstantDefinitionArrayEntries : Bool)
    (self : GpuNamedConstants) (paramName : String) (baseDef : GpuConstantDefinition) :
    GpuNamedConstants :=
  let arrayDef : GpuConstantDefinition := { baseDef with arraySize := 1 }
  let maxArrayIndex : Nat :=
    if baseDef.arraySize ≤ 16 || msGenerateAllConstantDefinitionArrayEntries
    then baseDef.arraySize else 1
  let loop := (List.range maxArrayIndex).foldl (arrayEntriesStep paramName)
    ⟨self.map, arrayDef⟩
  { self with map := loop.map }

/-! ## `GpuProgramParameters`: raw reads and writes -/

section Params

variable {F : Type} [Zero F]

/-- Embedding of `_writeRawConstants(size_t, const float*, size_t)`; `val` is
the array behind the source pointer.  The assertion compares the `size_t` sum
`physicalIndex + count`, which wraps around at 2^64; when it passes although the
range `physicalIndex .. physicalIndex + count` does not lie inside the store,
`memcpy` writes outside the store, which is undefined. -/
def GpuProgramParameters._writeRawConstants (self : GpuProgramParameters F)
    (physicalIndex : Nat) (val : List F) (count : Nat) :
    Outcome (GpuProgramParameters F) Unit :=
  if (physicalIndex + count) % 2 ^ 64 ≤ self.mFloatConstants.length then
    if physicalIndex + count ≤ self.mFloatConstants.length then
      if count ≤ val.length then
        Outcome.returned
          { self with mFloatConstants :=
              self.mFloatConstants.take physicalIndex ++ val.take count ++
                self.mFloatConstants.drop (physicalIndex + count) } ()
      else Outcome.undefined
    else Outcome.undefined
  else Outcome.assertFailed self

/-- Embedding of `_readRawConstants(size_t, size_t, float*)`; the returned list
is what the call copies to `dest`.  The sum in the assertion wraps around at
2^64; when the assertion passes although the range does not lie inside the
store, `memcpy` reads outside the store, which is undefined. -/
def GpuProgramParameters._readRawConstants (self : GpuProgramParameters F)
    (physicalIndex count : Nat) : Outcome (GpuProgramParameters F) (List F) :=
  if (physicalIndex + count) % 2 ^ 64 ≤ self.mFloatConstants.length then
    if physicalIndex + count ≤ self.mFloatConstants.length then
      Outcome.returned self ((self.mFloatConstants.drop physicalIndex).take count)
    else Outcome.undefined
  else Outcome.assertFailed self

/-- Embedding of `_writeRawConstant(size_t, float)`. -/
def GpuProgramParameters._writeRawConstant_float (self : GpuProgramParameters F)
    (physicalIndex : Nat) (val : F) : Outcome (GpuProgramParameters F) Unit :=
  self._writeRawConstants physicalIndex [val] 1

/-- Embedding of `_writeRawConstant(size_t, const Matrix4&, size_t)`. -/
def GpuProgramParameters._writeRawConstant_Matrix4 (self : GpuProgramParameters F)
    (physicalIndex : Nat) (m : Matrix4 F) (elementCount : Nat) :
    Outcome (GpuProgramParameters F) Unit :=
  if self.mTransposeMatrices then
    let t := m.transpose
    self._writeRawConstants physicalIndex t.row0
      (if elementCount > 16 then 16 else elementCount)
  else
    self._writeRawConstants physicalIndex m.row0
      (if elementCount > 16 then 16 else elementCount)

/-! ## `GpuProgramParameters`: named constants -/

/-- Embedding of `_findNamedConstantDefinition`; the returned option is the
pointer to the definition (`none` is the null pointer). -/
def GpuProgramParameters._findNamedConstantDefinition (self : GpuProgramParameters F)
    (name : String) (throwExceptionIfNotFound : Bool) :
    Outcome (GpuProgramParameters F) (Option GpuConstantDefinition) :=
  match self.mNamedConstants with
  | none =>
      if throwExceptionIfNotFound then Outcome.threw self
      else Outcome.returned self none
  | some namedConstants =>
      match StdMap.find name namedConstants.map with
      | none =>
          if throwExceptionIfNotFound then Outcome.threw self
          else Outcome.returned self none
      | some d => Outcome.returned self (some d)

/-- Embedding of `setNamedConstant(const String&, float)`. -/
def GpuProgramParameters.setNamedConstant_float (self : GpuProgramParameters F)
    (name : String) (val : F) : Outcome (GpuProgramParameters F) Unit :=
  match self._findNamedConstantDefinition name (!self.mIgnoreMissingParams) with
  | Outcome.returned st (some d) => st._writeRawConstant_float d.physicalIndex val
  | Outcome.returned st none => Outcome.returned st ()
  | Outcome.threw st => Outcome.threw st
  | Outcome.assertFailed st => Outcome.assertFailed st
  | Outcome.undefined => Outcome.undefined

/-! ## `GpuProgramParameters`: logical index resolution -/

/-- Loop variables of the mapping loop of the first-use branch: the table map,
`currPhys`, and `insertedIterator` (the key of the entry it points to, `none`
while it has not been assigned). -/
structure LogicalInsertLoop where
  map : List (Nat × GpuLogicalIndexUse)
  currPhys : Nat
  insertedIterator : Option Nat

/-- One iteration of the mapping loop, for `logicalNum`. -/
def logicalInsertStep (logicalIndex requestedSize variability : Nat)
    (st : LogicalInsertLoop) (logicalNum : Nat) : LogicalInsertLoop :=
  { map := StdMap.insert sizeLess (logicalIndex + logicalNum)
      ⟨st.currPhys, requestedSize, variability⟩ st.map
    currPhys := st.currPhys + 4
    insertedIterator :=
      if logicalNum = 0 then some (logicalIndex + logicalNum) else st.insertedIterator }

/-- The loop "shift all physical positions after this one" over a table map. -/
def shiftLogicalIndexes (physicalIndex insertCount : Nat)
    (m : List (Nat × GpuLogicalIndexUse)) : List (Nat × GpuLogicalIndexUse) :=
  StdMap.forEach (fun u =>
    if u.physicalIndex > physicalIndex
    then { u with physicalIndex := u.physicalIndex + insertCount } else u) m

/-- The loop over the named constant definitions in the growing branch of the
float side, followed by the update of `floatBufferSize`. -/
def shiftFloatDefinitions (physicalIndex insertCount : Nat)
    (nc : GpuNamedConstants) : GpuNamedConstants :=
  { nc with
    map := StdMap.forEach (fun d =>
      if d.isFloat && d.physicalIndex > physicalIndex
      then { d with physicalIndex := d.physicalIndex + insertCount } else d) nc.map
    floatBufferSize := nc.floatBufferSize + insertCount }

/-- Embedding of `_getFloatConstantLogicalIndexUse`.  The returned option is
the pointer result: `none` is the null pointer, `some u` is a pointer to the
table entry of `logicalIndex`, given by the entry's contents at the return.
An iterator is the key of the entry it points to; `insertedIterator` is `none`
until the mapping loop assigns it, and using it then is undefined.  Inserting
at `begin() + physicalIndex` is undefined past the end of the store. -/
def GpuProgramParameters._getFloatConstantLogicalIndexUse
    (self : GpuProgramParameters F) (logicalIndex requestedSize variability : Nat) :
    Outcome (GpuProgramParameters F) (Option GpuLogicalIndexUse) :=
  match self.mFloatLogicalToPhysical with
  | none => Outcome.returned self none
  | some table =>
    match StdMap.find logicalIndex table.map with
    | none =>
      if requestedSize ≠ 0 then
        let physicalIndex := self.mFloatConstants.length
        -- Expand at buffer end
        let floats := self.mFloatConstants ++ List.replicate requestedSize (0 : F)
        let bufferSize := floats.length
        -- Set up a mapping for all items in the count
        let count := requestedSize / 4
        let loop := (List.range count).foldl
          (logicalInsertStep logicalIndex requestedSize variability)
          ⟨table.map, physicalIndex, none⟩
        match loop.insertedIterator with
        | none => Outcome.undefined
        | some key =>
          -- indexUse = &(insertedIterator->second); indexUse->variability = variability
          let map := StdMap.modify key (fun u => { u with variability := variability }) loop.map
          match StdMap.find key map with
          | none => Outcome.undefined -- the iterator would not point to an entry
          | some indexUse =>
            Outcome.returned
              { self with
                mFloatConstants := floats
                mFloatLogicalToPhysical := some { map := map, bufferSize := bufferSize } }
              (some indexUse)
      else
        -- no match & ignore
        Outcome.returned self none
    | some logi =>
      let physicalIndex := logi.physicalIndex
      if logi.currentSize < requestedSize then
        let insertCount := requestedSize - logi.currentSize
        if physicalIndex ≤ self.mFloatConstants.length then
          let floats := self.mFloatConstants.take physicalIndex ++
            List.replicate insertCount (0 : F) ++ self.mFloatConstants.drop physicalIndex
          let shifted := shiftLogicalIndexes physicalIndex insertCount table.map
          let bufferSize := table.bufferSize + insertCount
          let namedConstants := self.mNamedConstants.map
            (shiftFloatDefinitions physicalIndex insertCount)
          let map := StdMap.modify logicalIndex
            (fun u => { u with currentSize := u.currentSize + insertCount,
                               variability := variability }) shifted
          match StdMap.find logicalIndex map with
          | none => Outcome.undefined
          | some indexUse =>
            Outcome.returned
              { self with
                mFloatConstants := floats
                mFloatLogicalToPhysical := some { map := map, bufferSize := bufferSize }
                mNamedConstants := namedConstants }
              (some indexUse)
        else Outcome.undefined
      else
        let map := StdMap.modify logicalIndex
          (fun u => { u with variability := variability }) table.map
        match StdMap.find logicalIndex map with
        | none => Outcome.undefined
        | some indexUse =>
          Outcome.returned
            { self with
              mFloatLogicalToPhysical := some { table with map := map } }
            (some indexUse)

/-- Embedding of `_getFloatConstantPhysicalIndex`. -/
def GpuProgramParameters._getFloatConstantPhysicalIndex
    (self : GpuProgramParameters F) (logicalIndex requestedSize variability : Nat) :
    Outcome (GpuProgramParameters F) Nat :=
  match self._getFloatConstantLogicalIndexUse logicalIndex requestedSize variability with
  | Outcome.returned st (some indexUse) => Outcome.returned st indexUse.physicalIndex
  | Outcome.returned st none => Outcome.returned st 0
  | Outcome.threw st => Outcome.threw st
  | Outcome.assertFailed st => Outcome.assertFailed st
  | Outcome.undefined => Outcome.undefined

end Params

/-! ## `GpuProgramParameters`: construction and further raw writes -/

/-- The value `std::numeric_limits<size_t>::max()`. -/
def SIZE_MAX : Nat := 2 ^ 64 - 1

/-- Embedding of the default constructor `GpuProgramParameters()`: containers
start empty and shared pointers null.  `GPV_GLOBAL` is a constant of the
missing header and is passed in. -/
def GpuProgramParameters.construct {F : Type} (GPV_GLOBAL : Nat) : GpuProgramParameters F :=
  { mFloatConstants := []
    mIntConstants := []
    mTextures := []
    mFloatLogicalToPhysical := none
    mIntLogicalToPhysical := none
    mSamplerLogicalToPhysical := none
    mNamedConstants := none
    mCombinedVariability := GPV_GLOBAL
    mTransposeMatrices := false
    mIgnoreMissingParams := false
    mActivePassIterationIndex := SIZE_MAX }

/-- One iteration of the copy loop of the double overload of
`_writeRawConstants`: `mFloatConstants[physicalIndex+i] = static_cast<float>(val[i])`.
The accumulator is the float store, or `none` once `val` was read past its end.
`narrow` is the conversion `static_cast<float>`. -/
def writeDoubleStep {F D : Type} (narrow : D → F) (physicalIndex : Nat) (val : List D)
    (acc : Option (List F)) (i : Nat) : Option (List F) :=
  match acc, val[i]? with
  | some floats, some x => some (floats.set (physicalIndex + i) (narrow x))
  | _, _ => none

/-- Embedding of `_writeRawConstants(size_t, const double*, size_t)`; `D` is the
type of doubles and `narrow` the conversion `static_cast<float>`.  The sum in
the assertion wraps around at 2^64; when the assertion passes although the
range does not lie inside the store, the loop indexes the store past its end,
which is undefined. -/
def GpuProgramParameters._writeRawConstants_double {F D : Type} (narrow : D → F)
    (self : GpuProgramParameters F) (physicalIndex : Nat) (val : List D) (count : Nat) :
    Outcome (GpuProgramParameters F) Unit :=
  if (physicalIndex + count) % 2 ^ 64 ≤ self.mFloatConstants.length then
    if physicalIndex + count ≤ self.mFloatConstants.length then
      match (List.range count).foldl (writeDoubleStep narrow physicalIndex val)
          (some self.mFloatConstants) with
      | some floats => Outcome.returned { self with mFloatConstants := floats } ()
      | none => Outcome.undefined
    else Outcome.undefined
  else Outcome.assertFailed self

/-- Embedding of `_writeRawConstants(size_t, const int*, size_t)`, with the
assertion and the write as in the float overload. -/
def GpuProgramParameters._writeRawConstants_int {F : Type} (self : GpuProgramParameters F)
    (physicalIndex : Nat) (val : List Int) (count : Nat) :
    Outcome (GpuProgramParameters F) Unit :=
  if (physicalIndex + count) % 2 ^ 64 ≤ self.mIntConstants.length then
    if physicalIndex + count ≤ self.mIntConstants.length then
      if count ≤ val.length then
        Outcome.returned
          { self with mIntConstants :=
              self.mIntConstants.take physicalIndex ++ val.take count ++
                self.mIntConstants.drop (physicalIndex + count) } ()
      else Outcome.undefined
    else Outcome.undefined
  else Outcome.assertFailed self

/-- Embedding of `_readRawConstants(size_t, size_t, int*)`, with the assertion
and the read as in the float overload. -/
def GpuProgramParameters._readRawConstants_int {F : Type} (self : GpuProgramParameters F)
    (physicalIndex count : Nat) : Outcome (GpuProgramParameters F) (List Int) :=
  if (physicalIndex + count) % 2 ^ 64 ≤ self.mIntConstants.length then
    if physicalIndex + count ≤ self.mIntConstants.length then
      Outcome.returned self ((self.mIntConstants.drop physicalIndex).take count)
    else Outcome.undefined
  else Outcome.assertFailed self

/-- Embedding of `_writeRawConstant(size_t, int)`. -/
def GpuProgramParameters._writeRawConstant_int {F : Type} (self : GpuProgramParameters F)
    (physicalIndex : Nat) (val : Int) : Outcome (GpuProgramParameters F) Unit :=
  self._writeRawConstants_int physicalIndex [val] 1

/-- Modelled from the spec: `Vector4` (CmVector4.h is not among the sources),
four floats `x, y, z, w` stored one after the other. -/
structure Vector4 (F : Type) where
  x : F
  y : F
  z : F
  w : F

/-- The floats behind `vec.ptr()`. -/
def Vector4.ptr {F : Type} (v : Vector4 F) : List F := [v.x, v.y, v.z, v.w]

/-- Modelled from the spec: `Vector3` (CmVector3.h is not among the sources),
three floats `x, y, z` stored one after the other. -/
structure Vector3 (F : Type) where
  x : F
  y : F
  z : F

/-- The floats behind `vec.ptr()`. -/
def Vector3.ptr {F : Type} (v : Vector3 F) : List F := [v.x, v.y, v.z]

/-- Modelled from the spec: `Vector2` (CmVector2.h is not among the sources),
two floats `x, y` stored one after the other. -/
structure Vector2 (F : Type) where
  x : F
  y : F

/-- The floats behind `vec.ptr()`. -/
def Vector2.ptr {F : Type} (v : Vector2 F) : List F := [v.x, v.y]

/-- Modelled from the spec: `Color`, declared outside the sources, four floats
`r, g, b, a` stored one after the other. -/
structure Color (F : Type) where
  r : F
  g : F
  b : F
  a : F

/-- The floats behind `colour.ptr()`. -/
def Color.ptr {F : Type} (c : Color F) : List F := [c.r, c.g, c.b, c.a]

/-- Modelled from the spec: `Matrix3` (CmMatrix3.h is not among the sources) is
a 3x3 array `m[3][3]` of floats stored row by row. -/
structure Matrix3 (F : Type) where
  m : Fin 3 → Fin 3 → F

/-- Modelled from the spec: `Matrix3::Transpose()` of the missing header swaps
rows and columns. -/
def Matrix3.Transpose {F : Type} (a : Matrix3 F) : Matrix3 F :=
  ⟨fun i j => a.m j i⟩

/-- The 9 floats that the pointer `m[0]` addresses: the rows of `m[3][3]` one
after the other. -/
def Matrix3.row0 {F : Type} (a : Matrix3 F) : List F :=
  List.ofFn (fun (k : Fin 9) =>
    a.m ⟨k.val / 3, by omega⟩ ⟨k.val % 3, by omega⟩)

/-- Embedding of `_writeRawConstant(size_t, const Vector4&, size_t)`. -/
def GpuProgramParameters._writeRawConstant_Vector4 {F : Type} (self : GpuProgramParameters F)
    (physicalIndex : Nat) (vec : Vector4 F) (count : Nat) :
    Outcome (GpuProgramParameters F) Unit :=
  self._writeRawConstants physicalIndex vec.ptr (min count 4)

/-- Embedding of `_writeRawConstant(size_t, const Vector3&)`. -/
def GpuProgramParameters._writeRawConstant_Vector3 {F : Type} (self : GpuProgramParameters F)
    (physicalIndex : Nat) (vec : Vector3 F) : Outcome (GpuProgramParameters F) Unit :=
  self._writeRawConstants physicalIndex vec.ptr 3

/-- Embedding of `_writeRawConstant(size_t, const Vector2&)`. -/
def GpuProgramParameters._writeRawConstant_Vector2 {F : Type} (self : GpuProgramParameters F)
    (physicalIndex : Nat) (vec : Vector2 F) : Outcome (GpuProgramParameters F) Unit :=
  self._writeRawConstants physicalIndex vec.ptr 2

/-- Embedding of `_writeRawConstant(size_t, const Color&, size_t)`. -/
def GpuProgramParameters._writeRawConstant_Color {F : Type} (self : GpuProgramParameters F)
    (physicalIndex : Nat) (colour : Color F) (count : Nat) :
    Outcome (GpuProgramParameters F) Unit :=
  self._writeRawConstants physicalIndex colour.ptr (min count 4)

/-- Embedding of `_writeRawConstant(size_t, const Matrix3&, size_t)`. -/
def GpuProgramParameters._writeRawConstant_Matrix3 {F : Type} (self : GpuProgramParameters F)
    (physicalIndex : Nat) (m : Matrix3 F) (elementCount : Nat) :
    Outcome (GpuProgramParameters F) Unit :=
  if self.mTransposeMatrices then
    let t := m.Transpose
    self._writeRawConstants physicalIndex t.row0
      (if elementCount > 9 then 9 else elementCount)
  else
    self._writeRawConstants physicalIndex m.row0
      (if elementCount > 9 then 9 else elementCount)

/-- The loop of the transposing branch of
`_writeRawConstant(size_t, const Matrix4*, size_t)`, with `n` iterations left
and `i` the loop counter: write the transpose of `pMatrix[i]`, advance
`physicalIndex` by 16.  Reading `pMatrix` past its end is undefined. -/
def writeTransposedMatrices {F : Type} (pMatrix : List (Matrix4 F)) :
    Nat → Nat → GpuProgramParameters F → Nat → Outcome (GpuProgramParameters F) Unit
  | 0, _, self, _ => Outcome.returned self ()
  | n + 1, i, self, physicalIndex =>
    match pMatrix[i]? with
    | none => Outcome.undefined
    | some m =>
      match self._writeRawConstants physicalIndex m.transpose.row0 16 with
      | Outcome.returned st _ => writeTransposedMatrices pMatrix n (i + 1) st (physicalIndex + 16)
      | Outcome.threw st => Outcome.threw st
      | Outcome.assertFailed st => Outcome.assertFailed st
      | Outcome.undefined => Outcome.undefined

/-- Embedding of `_writeRawConstant(size_t, const Matrix4*, size_t)`; the floats
behind `pMatrix[0][0]` are the rows of the matrices of the array, one matrix
after the other. -/
def GpuProgramParameters._writeRawConstant_Matrix4Array {F : Type}
    (self : GpuProgramParameters F) (physicalIndex : Nat) (pMatrix : List (Matrix4 F))
    (numEntries : Nat) : Outcome (GpuProgramParameters F) Unit :=
  if self.mTransposeMatrices then
    writeTransposedMatrices pMatrix numEntries 0 self physicalIndex
  else
    self._writeRawConstants physicalIndex (pMatrix.flatMap Matrix4.row0) (16 * numEntries)

/-! ## `GpuProgramParameters`: the named-constant interface -/

/-- Embedding of `getConstantDefinitionIterator`: the iterator `map.begin()` is
given by the sequence of entries it runs over. -/
def GpuProgramParameters.getConstantDefinitionIterator {F : Type}
    (self : GpuProgramParameters F) :
    Outcome (GpuProgramParameters F) (List (String × GpuConstantDefinition)) :=
  match self.mNamedConstants with
  | none => Outcome.threw self
  | some namedConstants => Outcome.returned self namedConstants.map

/-- Embedding of `getConstantDefinitions`. -/
def GpuProgramParameters.getConstantDefinitions {F : Type}
    (self : GpuProgramParameters F) : Outcome (GpuProgramParameters F) GpuNamedConstants :=
  match self.mNamedConstants with
  | none => Outcome.threw self
  | some namedConstants => Outcome.returned self namedConstants

/-- Embedding of `getConstantDefinition`. -/
def GpuProgramParameters.getConstantDefinition {F : Type}
    (self : GpuProgramParameters F) (name : String) :
    Outcome (GpuProgramParameters F) GpuConstantDefinition :=
  match self.mNamedConstants with
  | none => Outcome.threw self
  | some _ =>
    -- locate, and throw exception if not found
    match self._findNamedConstantDefinition name true with
    | Outcome.returned st (some d) => Outcome.returned st d
    | Outcome.returned _ none => Outcome.undefined -- `*def` of a null pointer
    | Outcome.threw st => Outcome.threw st
    | Outcome.assertFailed st => Outcome.assertFailed st
    | Outcome.undefined => Outcome.undefined

/-- Embedding of `hasNamedConstant`.  The call passes no second argument to
`_findNamedConstantDefinition`; the default of `throwExceptionIfNotFound` is
declared in the missing header and is passed in as `defaultThrow`. -/
def GpuProgramParameters.hasNamedConstant {F : Type} (defaultThrow : Bool)
    (self : GpuProgramParameters F) (name : String) :
    Outcome (GpuProgramParameters F) Bool :=
  match self._findNamedConstantDefinition name defaultThrow with
  | Outcome.returned st d => Outcome.returned st d.isSome
  | Outcome.threw st => Outcome.threw st
  | Outcome.assertFailed st => Outcome.assertFailed st
  | Outcome.undefined => Outcome.undefined

/-- Embedding of `getTexture`; indexing `mTextures` past its end is undefined. -/
def GpuProgramParameters.getTexture {F : Type} (self : GpuProgramParameters F)
    (pos : Nat) : Outcome (GpuProgramParameters F) TextureRef :=
  match self.mTextures[pos]? with
  | none => Outcome.undefined
  | some none => Outcome.returned self none
  | some (some entry) => Outcome.returned self entry.texture

/-- Embedding of `getSamplerState`; `EMPTY` is the constant `SamplerState::EMPTY`
of the missing header. -/
def GpuProgramParameters.getSamplerState {F : Type} (EMPTY : SamplerState)
    (self : GpuProgramParameters F) (pos : Nat) :
    Outcome (GpuProgramParameters F) SamplerState :=
  match self.mTextures[pos]? with
  | none => Outcome.undefined
  | some none => Outcome.returned self EMPTY
  | some (some entry) => Outcome.returned self entry.samplerState

/-- The lines shared by every `setNamedConstant` overload: "look up, and throw
an exception if we're not ignoring missing", then `if (def)` run the body. -/
def GpuProgramParameters.withNamedConstant {F : Type} (self : GpuProgramParameters F)
    (name : String)
    (body : GpuProgramParameters F → GpuConstantDefinition →
      Outcome (GpuProgramParameters F) Unit) :
    Outcome (GpuProgramParameters F) Unit :=
  match self._findNamedConstantDefinition name (!self.mIgnoreMissingParams) with
  | Outcome.returned st (some d) => body st d
  | Outcome.returned st none => Outcome.returned st ()
  | Outcome.threw st => Outcome.threw st
  | Outcome.assertFailed st => Outcome.assertFailed st
  | Outcome.undefined => Outcome.undefined

/-- The body of the texture and sampler-state overloads: create the entry of
slot `physicalIndex` if the slot is null, then assign through it.  `newEntry`
is the value of `GpuTextureEntry()`, whose constructor is in the missing header.
Indexing `mTextures` past its end is undefined. -/
def GpuProgramParameters.assignTextureEntry {F : Type} (newEntry : GpuTextureEntry)
    (self : GpuProgramParameters F) (physicalIndex : Nat)
    (assign : GpuTextureEntry → GpuTextureEntry) :
    Outcome (GpuProgramParameters F) Unit :=
  match self.mTextures[physicalIndex]? with
  | none => Outcome.undefined
  | some none =>
    Outcome.returned
      { self with mTextures := self.mTextures.set physicalIndex (some (assign newEntry)) } ()
  | some (some entry) =>
    Outcome.returned
      { self with mTextures := self.mTextures.set physicalIndex (some (assign entry)) } ()

/-- Embedding of `setNamedConstant(const String&, TextureRef)`. -/
def GpuProgramParameters.setNamedConstant_texture {F : Type} (newEntry : GpuTextureEntry)
    (self : GpuProgramParameters F) (name : String) (val : TextureRef) :
    Outcome (GpuProgramParameters F) Unit :=
  self.withNamedConstant name (fun st d =>
    st.assignTextureEntry newEntry d.physicalIndex (fun e => { e with texture := val }))

/-- Embedding of `setNamedConstant(const String&, const SamplerState&)`. -/
def GpuProgramParameters.setNamedConstant_samplerState {F : Type}
    (newEntry : GpuTextureEntry)
    (self : GpuProgramParameters F) (name : String) (val : SamplerState) :
    Outcome (GpuProgramParameters F) Unit :=
  self.withNamedConstant name (fun st d =>
    st.assignTextureEntry newEntry d.physicalIndex (fun e => { e with samplerState := val }))

/-- Embedding of `setNamedConstant(const String&, int)`. -/
def GpuProgramParameters.setNamedConstant_int {F : Type}
    (self : GpuProgramParameters F) (name : String) (val : Int) :
    Outcome (GpuProgramParameters F) Unit :=
  self.withNamedConstant name (fun st d => st._writeRawConstant_int d.physicalIndex val)

/-- Embedding of `setNamedConstant(const String&, const Vector4&)`. -/
def GpuProgramParameters.setNamedConstant_Vector4 {F : Type}
    (self : GpuProgramParameters F) (name : String) (vec : Vector4 F) :
    Outcome (GpuProgramParameters F) Unit :=
  self.withNamedConstant name (fun st d =>
    st._writeRawConstant_Vector4 d.physicalIndex vec d.elementSize)

/-- Embedding of `setNamedConstant(const String&, const Vector3&)`. -/
def GpuProgramParameters.setNamedConstant_Vector3 {F : Type}
    (self : GpuProgramParameters F) (name : String) (vec : Vector3 F) :
    Outcome (GpuProgramParameters F) Unit :=
  self.withNamedConstant name (fun st d => st._writeRawConstant_Vector3 d.physicalIndex vec)

/-- Embedding of `setNamedConstant(const String&, const Vector2&)`. -/
def GpuProgramParameters.setNamedConstant_Vector2 {F : Type}
    (self : GpuProgramParameters F) (name : String) (vec : Vector2 F) :
    Outcome (GpuProgramParameters F) Unit :=
  self.withNamedConstant name (fun st d => st._writeRawConstant_Vector2 d.physicalIndex vec)

/-- Embedding of `setNamedConstant(const String&, const Matrix4&)`. -/
def GpuProgramParameters.setNamedConstant_Matrix4 {F : Type}
    (self : GpuProgramParameters F) (name : String) (m : Matrix4 F) :
    Outcome (GpuProgramParameters F) Unit :=
  self.withNamedConstant name (fun st d =>
    st._writeRawConstant_Matrix4 d.physicalIndex m d.elementSize)

/-- Embedding of `setNamedConstant(const String&, const Matrix4*, size_t)`. -/
def GpuProgramParameters.setNamedConstant_Matrix4Array {F : Type}
    (self : GpuProgramParameters F) (name : String) (m : List (Matrix4 F))
    (numEntries : Nat) : Outcome (GpuProgramParameters F) Unit :=
  self.withNamedConstant name (fun st d =>
    st._writeRawConstant_Matrix4Array d.physicalIndex m numEntries)

/-- Embedding of `setNamedConstant(const String&, const Matrix3&)`. -/
def GpuProgramParameters.setNamedConstant_Matrix3 {F : Type}
    (self : GpuProgramParameters F) (name : String) (m : Matrix3 F) :
    Outcome (GpuProgramParameters F) Unit :=
  self.withNamedConstant name (fun st d =>
    st._writeRawConstant_Matrix3 d.physicalIndex m d.elementSize)

/-- Embedding of `setNamedConstant(const String&, const float*, size_t, size_t)`. -/
def GpuProgramParameters.setNamedConstant_floats {F : Type}
    (self : GpuProgramParameters F) (name : String) (val : List F) (count multiple : Nat) :
    Outcome (GpuProgramParameters F) Unit :=
  let rawCount := count * multiple
  self.withNamedConstant name (fun st d => st._writeRawConstants d.physicalIndex val rawCount)

/-- Embedding of `setNamedConstant(const String&, const double*, size_t, size_t)`. -/
def GpuProgramParameters.setNamedConstant_doubles {F D : Type} (narrow : D → F)
    (self : GpuProgramParameters F) (name : String) (val : List D) (count multiple : Nat) :
    Outcome (GpuProgramParameters F) Unit :=
  let rawCount := count * multiple
  self.withNamedConstant name (fun st d =>
    st._writeRawConstants_double narrow d.physicalIndex val rawCount)

/-- Embedding of `setNamedConstant(const String&, const Color&)`. -/
def GpuProgramParameters.setNamedConstant_Color {F : Type}
    (self : GpuProgramParameters F) (name : String) (colour : Color F) :
    Outcome (GpuProgramParameters F) Unit :=
  self.withNamedConstant name (fun st d =>
    st._writeRawConstant_Color d.physicalIndex colour d.elementSize)

/-- Embedding of `setNamedConstant(const String&, const int*, size_t, size_t)`. -/
def GpuProgramParameters.setNamedConstant_ints {F : Type}
    (self : GpuProgramParameters F) (name : String) (val : List Int) (count multiple : Nat) :
    Outcome (GpuProgramParameters F) Unit :=
  let rawCount := count * multiple
  self.withNamedConstant name (fun st d =>
    st._writeRawConstants_int d.physicalIndex val rawCount)

/-- The arguments after `name` of a `setNamedConstant` call, one constructor for
each overload. -/
inductive NamedConstantValue (F D : Type) where
  | texture (val : TextureRef)
  | samplerState (val : SamplerState)
  | float (val : F)
  | int (val : Int)
  | vector4 (vec : Vector4 F)
  | vector3 (vec : Vector3 F)
  | vector2 (vec : Vector2 F)
  | matrix4 (m : Matrix4 F)
  | matrix4Array (m : List (Matrix4 F)) (numEntries : Nat)
  | matrix3 (m : Matrix3 F)
  | floats (val : List F) (count multiple : Nat)
  | doubles (val : List D) (count multiple : Nat)
  | color (colour : Color F)
  | ints (val : List Int) (count multiple : Nat)

/-- Overload resolution of `setNamedConstant(name, ...)`: the overload is
chosen by the type of the arguments. -/
def GpuProgramParameters.setNamedConstant {F D : Type} (newEntry : GpuTextureEntry)
    (narrow : D → F) (self : GpuProgramParameters F) (name : String) :
    NamedConstantValue F D → Outcome (GpuProgramParameters F) Unit
  | NamedConstantValue.texture val => self.setNamedConstant_texture newEntry name val
  | NamedConstantValue.samplerState val => self.setNamedConstant_samplerState newEntry name val
  | NamedConstantValue.float val => self.setNamedConstant_float name val
  | NamedConstantValue.int val => self.setNamedConstant_int name val
  | NamedConstantValue.vector4 vec => self.setNamedConstant_Vector4 name vec
  | NamedConstantValue.vector3 vec => self.setNamedConstant_Vector3 name vec
  | NamedConstantValue.vector2 vec => self.setNamedConstant_Vector2 name vec
  | NamedConstantValue.matrix4 m => self.setNamedConstant_Matrix4 name m
  | NamedConstantValue.matrix4Array m numEntries =>
      self.setNamedConstant_Matrix4Array name m numEntries
  | NamedConstantValue.matrix3 m => self.setNamedConstant_Matrix3 name m
  | NamedConstantValue.floats val count multiple =>
      self.setNamedConstant_floats name val count multiple
  | NamedConstantValue.doubles val count multiple =>
      self.setNamedConstant_doubles narrow name val count multiple
  | NamedConstantValue.color colour => self.setNamedConstant_Color name colour
  | NamedConstantValue.ints val count multiple =>
      self.setNamedConstant_ints name val count multiple

/-! ## `GpuProgramParameters`: logically indexed writes, the int side, copies -/

/-- Embedding of `setConstant(size_t, const float*, size_t)`; `GPV_GLOBAL` is a
constant of the missing header and is passed in. -/
def GpuProgramParameters.setConstant {F : Type} [Zero F] (GPV_GLOBAL : Nat)
    (self : GpuProgramParameters F) (index : Nat) (val : List F) (count : Nat) :
    Outcome (GpuProgramParameters F) Unit :=
  -- Raw buffer size is 4x count
  let rawCount := count * 4
  if self.mFloatLogicalToPhysical.isSome then
    match self._getFloatConstantPhysicalIndex index rawCount GPV_GLOBAL with
    | Outcome.returned st physicalIndex => st._writeRawConstants physicalIndex val rawCount
    | Outcome.threw st => Outcome.threw st
    | Outcome.assertFailed st => Outcome.assertFailed st
    | Outcome.undefined => Outcome.undefined
  else Outcome.assertFailed self

/-- A sequence of `setConstant(index, val, count)` calls on one parameter
object, each call given as `(index, val, count)`; the sequence ends at the
first call that does not return. -/
def GpuProgramParameters.setConstantSequence {F : Type} [Zero F] (GPV_GLOBAL : Nat) :
    GpuProgramParameters F → List (Nat × List F × Nat) →
      Outcome (GpuProgramParameters F) Unit
  | self, [] => Outcome.returned self ()
  | self, (index, val, count) :: rest =>
    match self.setConstant GPV_GLOBAL index val count with
    | Outcome.returned st _ => setConstantSequence GPV_GLOBAL st rest
    | Outcome.threw st => Outcome.threw st
    | Outcome.assertFailed st => Outcome.assertFailed st
    | Outcome.undefined => Outcome.undefined

/-- The loop over the named constant definitions in the growing branch of the
int side, followed by the update of `intBufferSize`. -/
def shiftIntDefinitions (physicalIndex insertCount : Nat)
    (nc : GpuNamedConstants) : GpuNamedConstants :=
  { nc with
    map := StdMap.forEach (fun d =>
      if !d.isFloat && d.physicalIndex > physicalIndex
      then { d with physicalIndex := d.physicalIndex + insertCount } else d) nc.map
    intBufferSize := nc.intBufferSize + insertCount }

/-- Embedding of `_getIntConstantLogicalIndexUse`, with the conventions of the
float version.  Its mapping loop assigns `insertedIterator` before it advances
`currPhys`, which gives the same loop state as `logicalInsertStep`. -/
def GpuProgramParameters._getIntConstantLogicalIndexUse {F : Type}
    (self : GpuProgramParameters F) (logicalIndex requestedSize variability : Nat) :
    Outcome (GpuProgramParameters F) (Option GpuLogicalIndexUse) :=
  match self.mIntLogicalToPhysical with
  | none => Outcome.threw self
  | some table =>
    match StdMap.find logicalIndex table.map with
    | none =>
      if requestedSize ≠ 0 then
        let physicalIndex := self.mIntConstants.length
        -- Expand at buffer end
        let ints := self.mIntConstants ++ List.replicate requestedSize (0 : Int)
        let bufferSize := ints.length
        -- Set up a mapping for all items in the count
        let count := requestedSize / 4
        let loop := (List.range count).foldl
          (logicalInsertStep logicalIndex requestedSize variability)
          ⟨table.map, physicalIndex, none⟩
        match loop.insertedIterator with
        | none => Outcome.undefined
        | some key =>
          let map := StdMap.modify key (fun u => { u with variability := variability }) loop.map
          match StdMap.find key map with
          | none => Outcome.undefined -- the iterator would not point to an entry
          | some indexUse =>
            Outcome.returned
              { self with
                mIntConstants := ints
                mIntLogicalToPhysical := some { map := map, bufferSize := bufferSize } }
              (some indexUse)
      else
        -- no match
        Outcome.returned self none
    | some logi =>
      let physicalIndex := logi.physicalIndex
      if logi.currentSize < requestedSize then
        let insertCount := requestedSize - logi.currentSize
        if physicalIndex ≤ self.mIntConstants.length then
          let ints := self.mIntConstants.take physicalIndex ++
            List.replicate insertCount (0 : Int) ++ self.mIntConstants.drop physicalIndex
          let shifted := shiftLogicalIndexes physicalIndex insertCount table.map
          let bufferSize := table.bufferSize + insertCount
          let namedConstants := self.mNamedConstants.map
            (shiftIntDefinitions physicalIndex insertCount)
          let map := StdMap.modify logicalIndex
            (fun u => { u with currentSize := u.currentSize + insertCount,
                               variability := variability }) shifted
          match StdMap.find logicalIndex map with
          | none => Outcome.undefined -- the iterator would not point to an entry
          | some indexUse =>
            Outcome.returned
              { self with
                mIntConstants := ints
                mIntLogicalToPhysical := some { map := map, bufferSize := bufferSize }
                mNamedConstants := namedConstants }
              (some indexUse)
        else Outcome.undefined
      else
        let map := StdMap.modify logicalIndex
          (fun u => { u with variability := variability }) table.map
        match StdMap.find logicalIndex map with
        | none => Outcome.undefined -- the iterator would not point to an entry
        | some indexUse =>
          Outcome.returned
            { self with
              mIntLogicalToPhysical := some { table with map := map } }
            (some indexUse)

/-- Embedding of `_getIntConstantPhysicalIndex`. -/
def GpuProgramParameters._getIntConstantPhysicalIndex {F : Type}
    (self : GpuProgramParameters F) (logicalIndex requestedSize variability : Nat) :
    Outcome (GpuProgramParameters F) Nat :=
  match self._getIntConstantLogicalIndexUse logicalIndex requestedSize variability with
  | Outcome.returned st (some indexUse) => Outcome.returned st indexUse.physicalIndex
  | Outcome.returned st none => Outcome.returned st 0
  | Outcome.threw st => Outcome.threw st
  | Outcome.assertFailed st => Outcome.assertFailed st
  | Outcome.undefined => Outcome.undefined

/-- Embedding of `getFloatLogicalIndexForPhysicalIndex`: the loop over the
table map in key order returns the logical index of the first entry whose
physical index is the given one, and `std::numeric_limits<size_t>::max()` when
the loop ends without one.  The table pointer is dereferenced without a check. -/
def GpuProgramParameters.getFloatLogicalIndexForPhysicalIndex {F : Type}
    (self : GpuProgramParameters F) (physicalIndex : Nat) :
    Outcome (GpuProgramParameters F) Nat :=
  match self.mFloatLogicalToPhysical with
  | none => Outcome.undefined
  | some table =>
    match table.map.find? (fun i => decide (i.2.physicalIndex = physicalIndex)) with
    | some i => Outcome.returned self i.1
    | none => Outcome.returned self SIZE_MAX

/-- Embedding of `copyConstantsFrom`; the accessors `getFloatConstantList` and
`getIntConstantList` of the missing header return the two stores. -/
def GpuProgramParameters.copyConstantsFrom {F : Type}
    (self source : GpuProgramParameters F) : GpuProgramParameters F :=
  { self with
    mFloatConstants := source.mFloatConstants
    mIntConstants := source.mIntConstants
    mCombinedVariability := source.mCombinedVariability }

/-- Embedding of `incPassIterationNumber`; `++` on a float adds one.  Indexing
the float store past its end is undefined. -/
def GpuProgramParameters.incPassIterationNumber {F : Type} [Add F] [One F]
    (self : GpuProgramParameters F) : Outcome (GpuProgramParameters F) Unit :=
  if self.mActivePassIterationIndex ≠ SIZE_MAX then
    -- This is a physical index
    match self.mFloatConstants[self.mActivePassIterationIndex]? with
    | none => Outcome.undefined
    | some x =>
      Outcome.returned
        { self with mFloatConstants :=
            self.mFloatConstants.set self.mActivePassIterationIndex (x + 1) } ()
  else Outcome.returned self ()

/-! ## `GpuProgramParameters`: assignment and buffer set-up -/

/-- Embedding of `operator=`: the two stores, the three table pointers, the
registry pointer and the four scalar members are assigned from `oth`;
`mTextures` is not assigned.  Shared pointers are given by their pointees here;
`GpuProgramParametersPtrs.assign` is the same operator with the pointers given
by the addresses they hold. -/
def GpuProgramParameters.assign {F : Type} (self oth : GpuProgramParameters F) :
    GpuProgramParameters F :=
  { self with
    mFloatConstants := oth.mFloatConstants
    mIntConstants := oth.mIntConstants
    mFloatLogicalToPhysical := oth.mFloatLogicalToPhysical
    mIntLogicalToPhysical := oth.mIntLogicalToPhysical
    mSamplerLogicalToPhysical := oth.mSamplerLogicalToPhysical
    mNamedConstants := oth.mNamedConstants
    mCombinedVariability := oth.mCombinedVariability
    mTransposeMatrices := oth.mTransposeMatrices
    mIgnoreMissingParams := oth.mIgnoreMissingParams
    mActivePassIterationIndex := oth.mActivePassIterationIndex }

/-- The members of `GpuProgramParameters` with every shared pointer given by the
address of the object it points to (`none` is `nullptr`).  Two pointers refer to
the same object exactly when they hold the same address.  The two stores are
members by value. -/
structure GpuProgramParametersPtrs (F : Type) where
  mFloatConstants : List F
  mIntConstants : List Int
  mTextures : List (Option Nat)
  mFloatLogicalToPhysical : Option Nat
  mIntLogicalToPhysical : Option Nat
  mSamplerLogicalToPhysical : Option Nat
  mNamedConstants : Option Nat
  mCombinedVariability : Nat
  mTransposeMatrices : Bool
  mIgnoreMissingParams : Bool
  mActivePassIterationIndex : Nat
  deriving DecidableEq, Repr

/-- Embedding of `operator=` on the address-level members: assigning a vector
copies its elements, assigning a shared pointer copies the address. -/
def GpuProgramParametersPtrs.assign {F : Type} (self oth : GpuProgramParametersPtrs F) :
    GpuProgramParametersPtrs F :=
  { self with
    mFloatConstants := oth.mFloatConstants
    mIntConstants := oth.mIntConstants
    mFloatLogicalToPhysical := oth.mFloatLogicalToPhysical
    mIntLogicalToPhysical := oth.mIntLogicalToPhysical
    mSamplerLogicalToPhysical := oth.mSamplerLogicalToPhysical
    mNamedConstants := oth.mNamedConstants
    mCombinedVariability := oth.mCombinedVariability
    mTransposeMatrices := oth.mTransposeMatrices
    mIgnoreMissingParams := oth.mIgnoreMissingParams
    mActivePassIterationIndex := oth.mActivePassIterationIndex }

/-- The shared objects of a program state: the tables, registries and texture
entries found at each address. -/
structure SharedObjects where
  tables : Nat → Option GpuLogicalBufferStruct
  registries : Nat → Option GpuNamedConstants
  textureEntries : Nat → Option GpuTextureEntry

/-- The parameter object that the address-level members denote in a program
state: every pointer is replaced by the object at its address. -/
def GpuProgramParametersPtrs.view {F : Type} (heap : SharedObjects)
    (self : GpuProgramParametersPtrs F) : GpuProgramParameters F :=
  { mFloatConstants := self.mFloatConstants
    mIntConstants := self.mIntConstants
    mTextures := self.mTextures.map (fun a => a.bind heap.textureEntries)
    mFloatLogicalToPhysical := self.mFloatLogicalToPhysical.bind heap.tables
    mIntLogicalToPhysical := self.mIntLogicalToPhysical.bind heap.tables
    mSamplerLogicalToPhysical := self.mSamplerLogicalToPhysical.bind heap.tables
    mNamedConstants := self.mNamedConstants.bind heap.registries
    mCombinedVariability := self.mCombinedVariability
    mTransposeMatrices := self.mTransposeMatrices
    mIgnoreMissingParams := self.mIgnoreMissingParams
    mActivePassIterationIndex := self.mActivePassIterationIndex }

/-- The statement `if (size > v.size()) v.insert(v.end(), size - v.size(), fill)`
that extends a local buffer. -/
def extendBuffer {α : Type} (v : List α) (size : Nat) (fill : α) : List α :=
  if size > v.length then v ++ List.replicate (size - v.length) fill else v

/-- Embedding of `_setNamedConstants`; the argument is the pointee of the
registry pointer, and reading the sizes through a null pointer is undefined. -/
def GpuProgramParameters._setNamedConstants {F : Type} [Zero F]
    (self : GpuProgramParameters F) (namedConstants : Option GpuNamedConstants) :
    Outcome (GpuProgramParameters F) Unit :=
  match namedConstants with
  | none => Outcome.undefined
  | some nc =>
    -- Size and reset buffer (fill with zero to make comparison later ok)
    Outcome.returned
      { self with
        mNamedConstants := some nc
        mFloatConstants := extendBuffer self.mFloatConstants nc.floatBufferSize 0
        mIntConstants := extendBuffer self.mIntConstants nc.intBufferSize 0
        mTextures := extendBuffer self.mTextures nc.samplerCount none } ()

/-- The statement `if ((indexMap != nullptr) && indexMap->bufferSize > v.size())
v.insert(v.end(), indexMap->bufferSize - v.size(), fill)`. -/
def extendBufferFor {α : Type} (v : List α) (indexMap : Option GpuLogicalBufferStruct)
    (fill : α) : List α :=
  match indexMap with
  | none => v
  | some table => extendBuffer v table.bufferSize fill

/-- Embedding of `_setLogicalIndexes`. -/
def GpuProgramParameters._setLogicalIndexes {F : Type} [Zero F]
    (self : GpuProgramParameters F)
    (floatIndexMap intIndexMap samplerIndexMap : Option GpuLogicalBufferStruct) :
    GpuProgramParameters F :=
  { self with
    mFloatLogicalToPhysical := floatIndexMap
    mIntLogicalToPhysical := intIndexMap
    mSamplerLogicalToPhysical := samplerIndexMap
    mFloatConstants := extendBufferFor self.mFloatConstants floatIndexMap 0
    mIntConstants := extendBufferFor self.mIntConstants intIndexMap 0
    mTextures := extendBufferFor self.mTextures samplerIndexMap none }

/-! ## Properties named in the claims -/

/-- A write that modifies exactly the `k` elements starting at `p`: the buffer
keeps its length, elements `p .. p+k-1` are the first `k` source values, and
every other element is as before. -/
def WritesExactly {α : Type} (before after : List α) (p k : Nat) (src : List α) : Prop :=
  after.length = before.length ∧
  (∀ i, i < k → after[p + i]? = src[i]?) ∧
  (∀ j, (j < p ∨ p + k ≤ j) → after[j]? = before[j]?)

/-- Any two distinct mapped logical indices occupy disjoint physical ranges
`[physicalIndex, physicalIndex + currentSize)`. -/
def RangesDisjoint (m : List (Nat × GpuLogicalIndexUse)) : Prop :=
  ∀ k₁ k₂ u₁ u₂, k₁ ≠ k₂ → StdMap.find k₁ m = some u₁ → StdMap.find k₂ m = some u₂ →
    u₁.physicalIndex + u₁.currentSize ≤ u₂.physicalIndex ∨
    u₂.physicalIndex + u₂.currentSize ≤ u₁.physicalIndex

/-- A sequence of float resolve calls made through one parameter object, each
call given as `(logicalIndex, requestedSize, variability)`; the sequence ends at
the first call that does not return. -/
def GpuProgramParameters.resolveSequence {F : Type} [Zero F] :
    GpuProgramParameters F → List (Nat × Nat × Nat) →
      Outcome (GpuProgramParameters F) Unit
  | self, [] => Outcome.returned self ()
  | self, (logicalIndex, requestedSize, variability) :: rest =>
    match self._getFloatConstantLogicalIndexUse logicalIndex requestedSize variability with
    | Outcome.returned st _ => resolveSequence st rest
    | Outcome.threw st => Outcome.threw st
    | Outcome.assertFailed st => Outcome.assertFailed st
    | Outcome.undefined => Outcome.undefined

/-- Every mapped entry of the table map `m` has its physical index inside a
store of `len` elements. -/
def PhysicalIndicesInside (m : List (Nat × GpuLogicalIndexUse)) (len : Nat) : Prop :=
  ∀ k u, StdMap.find k m = some u → u.physicalIndex < len

/-- Distinct mapped logical indices of the table map `m` have distinct physical
indices. -/
def PhysicalIndicesDistinct (m : List (Nat × GpuLogicalIndexUse)) : Prop :=
  ∀ k₁ k₂ u₁ u₂, k₁ ≠ k₂ → StdMap.find k₁ m = some u₁ → StdMap.find k₂ m = some u₂ →
    u₁.physicalIndex ≠ u₂.physicalIndex

/-- The float table of a parameter object is present, holds each logical index
once (as a `std::map` does), and its physical indices are inside the float
store and pairwise distinct. -/
def FloatTableWellFormed {F : Type} (st : GpuProgramParameters F) : Prop :=
  ∃ t, st.mFloatLogicalToPhysical = some t ∧
    (t.map.map Prod.fst).Nodup ∧
    PhysicalIndicesInside t.map st.mFloatConstants.length ∧
    PhysicalIndicesDistinct t.map

/-- Every mapped entry of the table map `m` has its register
`[physicalIndex, physicalIndex + 4)` inside a store of `len` elements. -/
def RegistersInside (m : List (Nat × GpuLogicalIndexUse)) (len : Nat) : Prop :=
  ∀ k u, StdMap.find k m = some u → u.physicalIndex + 4 ≤ len

/-- Any two distinct mapped logical indices of the table map `m` occupy
disjoint registers `[physicalIndex, physicalIndex + 4)`. -/
def RegistersDisjoint (m : List (Nat × GpuLogicalIndexUse)) : Prop :=
  ∀ k₁ k₂ u₁ u₂, k₁ ≠ k₂ → StdMap.find k₁ m = some u₁ → StdMap.find k₂ m = some u₂ →
    u₁.physicalIndex + 4 ≤ u₂.physicalIndex ∨ u₂.physicalIndex + 4 ≤ u₁.physicalIndex

/-! ## Concrete states used in examples -/

/-- A parameter object over integer-valued floats with an empty float store and
an empty float Logical Index Table, and no registry. -/
def exampleEmpty : GpuProgramParameters Int :=
  { mFloatConstants := []
    mIntConstants := []
    mTextures := []
    mFloatLogicalToPhysical := some ⟨[], 0⟩
    mIntLogicalToPhysical := none
    mSamplerLogicalToPhysical := none
    mNamedConstants := none
    mCombinedVariability := 0
    mTransposeMatrices := false
    mIgnoreMissingParams := false
    mActivePassIterationIndex := 0 }

/-- The claim that a first use of `logicalIndex` maps the run of
`requestedSize / 4` logical indices starting at it: when the run is unmapped
beforehand, the call returns, the run is mapped in steps of 4 from the old store
length, and every other logical index keeps its mapping. -/
def FirstUseMapsRun {F : Type} [Zero F] (st : GpuProgramParameters F)
    (logicalIndex requestedSize variability : Nat) : Prop :=
  ∀ t, st.mFloatLogicalToPhysical = some t →
    StdMap.find logicalIndex t.map = none →
    (∀ k, k < requestedSize / 4 → StdMap.find (logicalIndex + k) t.map = none) →
    ∃ st' r t',
      st._getFloatConstantLogicalIndexUse logicalIndex requestedSize variability =
        Outcome.returned st' r ∧
      st'.mFloatLogicalToPhysical = some t' ∧
      (∀ k, k < requestedSize / 4 →
        StdMap.find (logicalIndex + k) t'.map =
          some ⟨st.mFloatConstants.length + 4 * k, requestedSize, variability⟩) ∧
      (∀ key, (key < logicalIndex ∨ logicalIndex + requestedSize / 4 ≤ key) →
        StdMap.find key t'.map = StdMap.find key t.map)

/-- Value of a string of decimal digits, most significant first, continuing
from the value `acc` of the digits read so far. -/
def decimalValue (cs : List Char) (acc : Nat) : Nat :=
  cs.foldl (fun a c => a * 10 + (c.toNat - 48)) acc

/-- The claim that a call of `generateConstantDefinitionArrayEntries` adds
exactly the `k` per-index entries `paramName[0] .. paramName[k-1]`: the map has
`k` more entries, each of those names is present, and every other name looks up
as before. -/
def AddsArrayEntries (old new : GpuNamedConstants) (paramName : String) (k : Nat) : Prop :=
  new.map.length = old.map.length + k ∧
  (∀ i, i < k → (StdMap.find (arrayEntryName paramName i) new.map).isSome = true) ∧
  (∀ name, (∀ i, i < k → name ≠ arrayEntryName paramName i) →
    StdMap.find name new.map = StdMap.find name old.map)

/-- A registry without entries. -/
def exampleRegistry : GpuNamedConstants :=
  { floatBufferSize := 80, intBufferSize := 0, samplerCount := 0, map := [] }

/-- A float array definition of 20 elements of size 4. -/
def exampleArray20 : GpuConstantDefinition :=
  { constType := GpuConstantType.float, physicalIndex := 0, elementSize := 4, arraySize := 20 }

/-- A float definition whose array size is 0. -/
def exampleArray0 : GpuConstantDefinition :=
  { constType := GpuConstantType.float, physicalIndex := 0, elementSize := 4, arraySize := 0 }

/-- The table of `exampleMapped`: logical 2 at physical 0 and logical 3 at
physical 4, four elements each. -/
def exampleTable : GpuLogicalBufferStruct :=
  { map := [(2, ⟨0, 4, 1⟩), (3, ⟨4, 4, 1⟩)], bufferSize := 8 }

/-- The registry of `exampleMapped`: a float constant at physical index 4 and
an int constant at physical index 1. -/
def exampleNamed : GpuNamedConstants :=
  { floatBufferSize := 8, intBufferSize := 2, samplerCount := 0
    map := [("a", ⟨GpuConstantType.float, 4, 4, 1⟩), ("b", ⟨GpuConstantType.int, 1, 1, 1⟩)] }

/-- A parameter object with eight stored floats, two mapped logical indices, a
registry, and the ignore-missing flag set. -/
def exampleMapped : GpuProgramParameters Int :=
  { mFloatConstants := [10, 11, 12, 13, 20, 21, 22, 23]
    mIntConstants := [7, 8]
    mTextures := []
    mFloatLogicalToPhysical := some exampleTable
    mIntLogicalToPhysical := none
    mSamplerLogicalToPhysical := none
    mNamedConstants := some exampleNamed
    mCombinedVariability := 0
    mTransposeMatrices := false
    mIgnoreMissingParams := true
    mActivePassIterationIndex := 0 }

/-- A parameter object with twenty stored floats and the transpose flag set. -/
def exampleTransposing : GpuProgramParameters Int :=
  { exampleEmpty with
    mFloatConstants := List.replicate 20 0
    mTransposeMatrices := true }

/-- The matrix whose element in row `i`, column `j` is `4 * i + j`. -/
def exampleMatrix : Matrix4 Int :=
  ⟨fun i j => 4 * (i.val : Int) + (j.val : Int)⟩

/-- Two `setConstant` calls, each writing two float4 registers, at logical
indices 0 and 1. -/
def exampleSequence : List (Nat × List Int × Nat) :=
  [(0, [1, 2, 3, 4, 5, 6, 7, 8], 2), (1, [11, 12, 13, 14, 15, 16, 17, 18], 2)]

/-- The parameter object `exampleEmpty` after the first call of
`exampleSequence`. -/
def exampleAfterFirstCall : GpuProgramParameters Int :=
  { exampleEmpty with
    mFloatConstants := [1, 2, 3, 4, 5, 6, 7, 8]
    mFloatLogicalToPhysical := some ⟨[(0, ⟨0, 8, 1⟩), (1, ⟨4, 8, 1⟩)], 8⟩ }

/-- A freshly constructed parameter object: no table, no registry. -/
def exampleFresh : GpuProgramParameters Int := GpuProgramParameters.construct 1

/-- A freshly constructed parameter object with the ignore-missing flag set. -/
def exampleFreshIgnoring : GpuProgramParameters Int :=
  { exampleFresh with mIgnoreMissingParams := true }

/-- A conversion from naturals, standing for doubles, to integer-valued floats. -/
def exampleNarrow (x : Nat) : Int := (x : Int)

/-- A registry that maps the name "tex" to slot 1. -/
def exampleTextureNames : GpuNamedConstants :=
  { floatBufferSize := 0, intBufferSize := 0, samplerCount := 3
    map := [("tex", ⟨GpuConstantType.int, 1, 1, 1⟩)] }

/-- A parameter object with three binding slots, of which slot 1 holds texture 5
with sampler state 9. -/
def exampleTextured : GpuProgramParameters Int :=
  { exampleEmpty with
    mTextures := [none, some ⟨some 5, 9⟩, none]
    mNamedConstants := some exampleTextureNames }

/-- A parameter object whose pass iteration counter is float element 1. -/
def exampleCounting : GpuProgramParameters Int :=
  { exampleEmpty with
    mFloatConstants := [10, 11, 12]
    mActivePassIterationIndex := 1 }

/-- Rows written for a 4x4 matrix, by the transpose flag. -/
def matrix4Source {F : Type} (transposed : Bool) (m : Matrix4 F) : List F :=
  if transposed then m.transpose.row0 else m.row0

/-- Rows written for a 3x3 matrix, by the transpose flag. -/
def matrix3Source {F : Type} (transposed : Bool) (m : Matrix3 F) : List F :=
  if transposed then m.Transpose.row0 else m.row0

/-- A float resolve call returns and keeps the cached buffer size of the float
table equal to the length of the float store: when they are equal before the
call, the call returns and they are equal after it. -/
def FloatSizeTracked {F : Type} [Zero F] (st : GpuProgramParameters F)
    (logicalIndex requestedSize variability : Nat) : Prop :=
  ∀ t, st.mFloatLogicalToPhysical = some t → st.mFloatConstants.length = t.bufferSize →
    ∃ st' r t',
      st._getFloatConstantLogicalIndexUse logicalIndex requestedSize variability =
        Outcome.returned st' r ∧
      st'.mFloatLogicalToPhysical = some t' ∧
      st'.mFloatConstants.length = t'.bufferSize

/-- The property `FloatSizeTracked` for the int store and the int table. -/
def IntSizeTracked {F : Type} (st : GpuProgramParameters F)
    (logicalIndex requestedSize variability : Nat) : Prop :=
  ∀ t, st.mIntLogicalToPhysical = some t → st.mIntConstants.length = t.bufferSize →
    ∃ st' r t',
      st._getIntConstantLogicalIndexUse logicalIndex requestedSize variability =
        Outcome.returned st' r ∧
      st'.mIntLogicalToPhysical = some t' ∧
      st'.mIntConstants.length = t'.bufferSize

/-- The parameter object `exampleEmpty` after resolving logical index 5 with
requestedSize 16 and variability 1. -/
def exampleAfterResolve : GpuProgramParameters Int :=
  { exampleEmpty with
    mFloatConstants := List.replicate 16 0
    mFloatLogicalToPhysical := some
      ⟨[(5, ⟨0, 16, 1⟩), (6, ⟨4, 16, 1⟩), (7, ⟨8, 16, 1⟩), (8, ⟨12, 16, 1⟩)], 16⟩ }

/-- The int table of `exampleIntMapped`: logical 0 at physical 0 and logical 1
at physical 4, four elements each. -/
def exampleIntTable : GpuLogicalBufferStruct :=
  { map := [(0, ⟨0, 4, 1⟩), (1, ⟨4, 4, 1⟩)], bufferSize := 8 }

/-- The parameter object `exampleMapped` with eight stored ints and an int table. -/
def exampleIntMapped : GpuProgramParameters Int :=
  { exampleMapped with
    mIntConstants := [1, 2, 3, 4, 5, 6, 7, 8]
    mIntLogicalToPhysical := some exampleIntTable }

/-- A parameter object after the float resolve calls `(0, 4, 1)` and `(1, 4, 1)`
on `exampleEmpty`. -/
def exampleSource : GpuProgramParameters Int :=
  { exampleEmpty with
    mFloatConstants := List.replicate 8 0
    mFloatLogicalToPhysical := some ⟨[(0, ⟨0, 4, 1⟩), (1, ⟨4, 4, 1⟩)], 8⟩ }

/-- The parameter object `exampleSource` after it has grown logical index 0 to
12 elements. -/
def exampleSourceGrown : GpuProgramParameters Int :=
  { exampleEmpty with
    mFloatConstants := List.replicate 16 0
    mFloatLogicalToPhysical := some ⟨[(0, ⟨0, 12, 1⟩), (1, ⟨12, 4, 1⟩)], 16⟩ }

/-- A parameter object that was assigned from `exampleSource` (`operator=`
copies the 8 floats and shares the table) before `exampleSource` grew logical
index 0: its own store still holds 8 floats, and the table it shares is the one
of `exampleSourceGrown`. -/
def exampleCopy : GpuProgramParameters Int :=
  { (exampleFresh.assign exampleSource) with
    mFloatLogicalToPhysical := exampleSourceGrown.mFloatLogicalToPhysical }

/-- The parameter object `exampleEmpty` after the float resolve calls
`(5, 16, 1)`, `(7, 4, 2)`, `(5, 24, 1)` and `(9, 0, 3)`. -/
def exampleAfterGrowth : GpuProgramParameters Int :=
  { exampleEmpty with
    mFloatConstants := List.replicate 24 0
    mFloatLogicalToPhysical := some
      ⟨[(5, ⟨0, 24, 1⟩), (6, ⟨12, 16, 1⟩), (7, ⟨16, 16, 2⟩), (8, ⟨20, 16, 1⟩)], 24⟩ }

end CamelotEngine

namespace BansheeEngine

/-! ## `TextSprite`: alignment offsets (BsTextSprite.cpp) -/

/-- The conversion of an `int` value to `UINT32`: reduction modulo 2^32. -/
def toUINT32 (x : Int) : Nat := (x % 2 ^ 32).toNat

/-- The conversion `(INT32)x` of a `UINT32` value: the two's complement
reading of its 32 bits. -/
def toINT32 (x : Nat) : Int :=
  if x % 2 ^ 32 < 2 ^ 31 then ((x % 2 ^ 32 : Nat) : Int) else ((x % 2 ^ 32 : Nat) : Int) - 2 ^ 32

/-- The `UINT32` sum `a + b`. -/
def addUINT32 (a b : Nat) : Nat := (a + b) % 2 ^ 32

/-- The `UINT32` difference `a - b`, which wraps around below zero. -/
def subUINT32 (a b : Nat) : Nat := (a % 2 ^ 32 + (2 ^ 32 - b % 2 ^ 32)) % 2 ^ 32

/-- The enumeration `TextHorzAlign` of a header outside the sources, with the
constants the function switches on. -/
inductive TextHorzAlign where
  | THA_Left
  | THA_Center
  | THA_Right
  deriving DecidableEq, Repr

/-- The enumeration `TextVertAlign` of a header outside the sources, with the
constants the function switches on. -/
inductive TextVertAlign where
  | TVA_Top
  | TVA_Center
  | TVA_Bottom
  deriving DecidableEq, Repr

/-- A line of `TextDataBase` (`TextDataBase::TextLine`, declared in a header
outside the sources), given by the values its accessors `getWidth()` and
`getYOffset()` return, taken as `UINT32` values. -/
structure TextLine where
  getWidth : Nat
  getYOffset : Nat
  deriving DecidableEq, Repr

/-- The type `Vector2I` of a header outside the sources: two `INT32`
components, set by the constructor `Vector2I(x, y)`. -/
structure Vector2I where
  x : Int
  y : Int
  deriving DecidableEq, Repr

/-- Loop variables of the second loop of `getAlignmentOffsets`: `curY` and the
elements of `output` written so far. -/
structure AlignmentLoop where
  curY : Nat
  output : List Vector2I

/-- One iteration of the second loop of `getAlignmentOffsets`: `std::max(0,
(INT32)(...))` is a maximum of two `int` values, its result is converted to the
`UINT32` variable `horzOffset`, and the two `UINT32` arguments of the
`Vector2I` constructor are converted to `INT32`. -/
def alignmentStep (width vertOffset : Nat) (horzAlign : TextHorzAlign)
    (st : AlignmentLoop) (line : TextLine) : AlignmentLoop :=
  let horzOffset : Nat :=
    match horzAlign with
    | TextHorzAlign.THA_Left => 0
    | TextHorzAlign.THA_Right =>
      toUINT32 (max 0 (toINT32 (subUINT32 width line.getWidth)))
    | TextHorzAlign.THA_Center =>
      toUINT32 ((max 0 (toINT32 (subUINT32 width line.getWidth))).tdiv 2)
  { output := st.output ++ [⟨toINT32 horzOffset, toINT32 (addUINT32 vertOffset st.curY)⟩]
    curY := addUINT32 st.curY line.getYOffset }

/-- Embedding of `TextSprite::getAlignmentOffsets`.  The text data is the list
of its `getNumLines()` lines; the result is the array `output`, one element per
line.  `std::max(0U, height - curHeight)` is a maximum of two unsigned values,
of which the second has wrapped around when `curHeight` exceeds `height`. -/
def TextSprite.getAlignmentOffsets (textData : List TextLine) (width height : Nat)
    (horzAlign : TextHorzAlign) (vertAlign : TextVertAlign) : List Vector2I :=
  let curHeight : Nat := textData.foldl (fun cur line => addUINT32 cur line.getYOffset) 0
  -- Calc vertical alignment offset
  let vertDiff : Nat := max 0 (subUINT32 height curHeight)
  let vertOffset : Nat :=
    match vertAlign with
    | TextVertAlign.TVA_Top => 0
    | TextVertAlign.TVA_Bottom => toUINT32 (max 0 (toINT32 vertDiff))
    | TextVertAlign.TVA_Center => toUINT32 ((max 0 (toINT32 vertDiff)).tdiv 2)
  -- Calc horizontal alignment offset
  (textData.foldl (alignmentStep width vertOffset horzAlign) ⟨0, []⟩).output

/-- The vertical offset named in the claim: 0 for top alignment, the room left
under the text for bottom alignment, half of it for centre alignment. -/
def verticalOffset (height total : Nat) (vertAlign : TextVertAlign) : Int :=
  match vertAlign with
  | TextVertAlign.TVA_Top => 0
  | TextVertAlign.TVA_Bottom => max 0 ((height : Int) - (total : Int))
  | TextVertAlign.TVA_Center => max 0 ((height : Int) - (total : Int)) / 2

/-- The horizontal offset named in the claim: 0 for left alignment, the room
left beside the line for right alignment, half of it for centre alignment. -/
def horizontalOffset (width lineWidth : Nat) (horzAlign : TextHorzAlign) : Int :=
  match horzAlign with
  | TextHorzAlign.THA_Left => 0
  | TextHorzAlign.THA_Right => max 0 ((width : Int) - (lineWidth : Int))
  | TextHorzAlign.THA_Center => max 0 ((width : Int) - (lineWidth : Int)) / 2

/-- Sum of the y-advances of a list of lines. -/
def totalYOffset (lines : List TextLine) : Nat := (lines.map TextLine.getYOffset).sum

/-- A text of two lines, 30 and 120 wide, advancing 10 and 12. -/
def exampleText : List TextLine := [⟨30, 10⟩, ⟨120, 12⟩]

/-- A text of two lines that each advance 2^30 + 1. -/
def exampleTallText : List TextLine := [⟨0, 1073741825⟩, ⟨0, 1073741825⟩]

/-- A text of four lines that each advance 2^30. -/
def exampleWrappedText : List TextLine :=
  [⟨0, 1073741824⟩, ⟨0, 1073741824⟩, ⟨0, 1073741824⟩, ⟨0, 1073741824⟩]

end BansheeEngine

namespace CamelotEngine

/-! ## Lemmas about `std::map` -/

namespace StdMap
variable {K V : Type} [DecidableEq K]

/-- Lookup after an ordered insertion of a key that was absent. -/
theorem find_orderedInsert (lt : K → K → Bool) (k k' : K) (v : V) (m : List (K × V))
    (h : find k m = none) :
    find k' (orderedInsert lt k v m) = if k = k' then some v else find k' m := by
  induction m with
  | nil => simp [orderedInsert, find]
  | cons kv rest ih =>
    obtain ⟨k₁, v₁⟩ := kv
    have hk : ¬ k₁ = k := by
      intro e
      simp [find, e] at h
    have hrest : find k rest = none := by
      simpa [find, hk] using h
    by_cases hlt : lt k k₁ = true
    · simp [orderedInsert, hlt, find]
    · by_cases e : k₁ = k'
      · subst e
        have : ¬ k = k₁ := fun e' => hk e'.symm
        simp [orderedInsert, hlt, find, this]
      · simp [orderedInsert, hlt, find, e, ih hrest]

/-- Inserting under a key that is present changes nothing. -/
theorem insert_of_mapped (lt : K → K → Bool) (k : K) (v x : V) (m : List (K × V))
    (h : find k m = some x) : insert lt k v m = m := by
  simp [insert, h]

/-- Lookup after `insert`: present keys keep their value, the new key gets `v`. -/
theorem find_insert (lt : K → K → Bool) (k k' : K) (v : V) (m : List (K × V)) :
    find k' (insert lt k v m) =
      match find k' m with
      | some x => some x
      | none => if k = k' then some v else none := by
  unfold insert
  cases h : find k m with
  | some x =>
    simp only
    cases h' : find k' m with
    | some y => rfl
    | none =>
      have : ¬ k = k' := by
        intro e; rw [e] at h; rw [h] at h'; cases h'
      simp [this]
  | none =>
    simp only
    rw [find_orderedInsert lt k k' v m h]
    by_cases e : k = k'
    · subst e; simp [h]
    · simp only [e, if_false]
      cases find k' m <;> rfl

/-- Inserting an absent key adds one entry. -/
theorem length_insert (lt : K → K → Bool) (k : K) (v : V) (m : List (K × V))
    (h : find k m = none) : (insert lt k v m).length = m.length + 1 := by
  have : ∀ m : List (K × V), (orderedInsert lt k v m).length = m.length + 1 := by
    intro m
    induction m with
    | nil => rfl
    | cons kv rest ih =>
      obtain ⟨k₁, v₁⟩ := kv
      by_cases hlt : lt k k₁ = true
      · simp [orderedInsert, hlt]
      · simp [orderedInsert, hlt, ih]
  simp [insert, h, this]

/-- Lookup after an assignment through the entry of key `k`. -/
theorem find_modify (k k' : K) (f : V → V) (m : List (K × V)) :
    find k' (modify k f m) = if k = k' then (find k m).map f else find k' m := by
  induction m with
  | nil => simp [modify, find]
  | cons kv rest ih =>
    obtain ⟨k₁, v₁⟩ := kv
    by_cases e : k₁ = k
    · subst e
      by_cases e' : k₁ = k'
      · simp [modify, find, e']
      · simp [modify, find, e']
    · by_cases e' : k₁ = k'
      · subst e'
        have : ¬ k = k₁ := fun e'' => e e''.symm
        simp [modify, find, e, this]
      · simp [modify, find, e, e', ih]

/-- An assignment that stores the value already there changes nothing. -/
theorem modify_of_fixed (k : K) (f : V → V) (m : List (K × V))
    (h : ∀ x, find k m = some x → f x = x) : modify k f m = m := by
  induction m with
  | nil => rfl
  | cons kv rest ih =>
    obtain ⟨k₁, v₁⟩ := kv
    by_cases e : k₁ = k
    · have := h v₁ (by simp [find, e])
      simp [modify, e, this]
    · have hr : ∀ x, find k rest = some x → f x = x := by
        intro x hx; exact h x (by simpa [find, e] using hx)
      simp [modify, e, ih hr]

/-- An assignment through an entry keeps the number of entries. -/
theorem length_modify (k : K) (f : V → V) (m : List (K × V)) :
    (modify k f m).length = m.length := by
  induction m with
  | nil => rfl
  | cons kv rest ih =>
    obtain ⟨k₁, v₁⟩ := kv
    by_cases e : k₁ = k <;> simp [modify, e, ih]

/-- Lookup after a loop over all entries. -/
theorem find_forEach (k : K) (f : V → V) (m : List (K × V)) :
    find k (forEach f m) = (find k m).map f := by
  induction m with
  | nil => rfl
  | cons kv rest ih =>
    obtain ⟨k₁, v₁⟩ := kv
    by_cases e : k₁ = k
    · simp [forEach, find, e]
    · simpa [forEach, find, e] using ih

end StdMap

/-! ## Lemmas about logical index resolution -/

open StdMap

/-- State of the mapping loop of the first-use branch after `n` iterations:
`currPhys`, `insertedIterator`, and the lookup of every key. -/
theorem logicalInsertLoop_spec (L s v base : Nat) (m : List (Nat × GpuLogicalIndexUse)) (n : Nat) :
    let loop := (List.range n).foldl (logicalInsertStep L s v) ⟨m, base, none⟩
    loop.currPhys = base + 4 * n ∧
    loop.insertedIterator = (if n = 0 then none else some L) ∧
    ∀ key, find key loop.map =
      match find key m with
      | some x => some x
      | none => if L ≤ key ∧ key < L + n then some ⟨base + 4 * (key - L), s, v⟩ else none := by
  induction n with
  | zero =>
    refine ⟨rfl, rfl, ?_⟩
    intro key
    simp only [List.range_zero, List.foldl_nil]
    cases find key m with
    | some x => rfl
    | none =>
      have : ¬ (L ≤ key ∧ key < L) := by omega
      simp [this]
  | succ n ih =>
    simp only [List.range_succ, List.foldl_append, List.foldl_cons, List.foldl_nil]
    obtain ⟨h1, h2, h3⟩ := ih
    refine ⟨?_, ?_, ?_⟩
    · simp only [logicalInsertStep, h1]; omega
    · simp only [logicalInsertStep, h2]
      by_cases hn : n = 0
      · simp [hn]
      · simp [hn]
    · intro key
      simp only [logicalInsertStep]
      rw [find_insert, h3 key, h1]
      cases hm : find key m with
      | some x => rfl
      | none =>
        simp only
        by_cases hr : L ≤ key ∧ key < L + n
        · have hr' : L ≤ key ∧ key < L + (n + 1) := ⟨hr.1, by omega⟩
          simp [hr, hr']
        · by_cases hk : L + n = key
          · have hr' : L ≤ key ∧ key < L + (n + 1) := by omega
            have : key - L = n := by omega
            simp [hr, hr', hk, this]
          · have hr' : ¬ (L ≤ key ∧ key < L + (n + 1)) := by omega
            simp [hr, hr', hk]

/-- First use with requestedSize 1, 2 or 3: the mapping loop does not run and the
call uses the unassigned `insertedIterator`. -/
theorem firstUse_small {F : Type} [Zero F] (st : GpuProgramParameters F) (t : GpuLogicalBufferStruct)
    (L s v : Nat) (ht : st.mFloatLogicalToPhysical = some t)
    (hL : find L t.map = none) (h0 : 0 < s) (h4 : s < 4) :
    st._getFloatConstantLogicalIndexUse L s v = Outcome.undefined := by
  have hs : s ≠ 0 := by omega
  have hc : s / 4 = 0 := by omega
  simp [GpuProgramParameters._getFloatConstantLogicalIndexUse, ht, hL, hs, hc]

/-- First use with requestedSize at least 4: the call returns the entry at the
old store length, after appending the zeros and running the mapping loop. -/
theorem firstUse_returned {F : Type} [Zero F] (st : GpuProgramParameters F) (t : GpuLogicalBufferStruct)
    (L s v : Nat) (ht : st.mFloatLogicalToPhysical = some t)
    (hL : find L t.map = none) (h4 : 4 ≤ s) :
    st._getFloatConstantLogicalIndexUse L s v =
      Outcome.returned
        { st with
          mFloatConstants := st.mFloatConstants ++ List.replicate s (0 : F)
          mFloatLogicalToPhysical := some
            { map := ((List.range (s / 4)).foldl (logicalInsertStep L s v)
                ⟨t.map, st.mFloatConstants.length, none⟩).map
              bufferSize := st.mFloatConstants.length + s } }
        (some ⟨st.mFloatConstants.length, s, v⟩) := by
  have hs : s ≠ 0 := by omega
  have hc : s / 4 ≠ 0 := by omega
  obtain ⟨-, h2, h3⟩ := logicalInsertLoop_spec L s v st.mFloatConstants.length t.map (s / 4)
  have hfind := h3 L
  rw [hL] at hfind
  have hr : L ≤ L ∧ L < L + s / 4 := by omega
  simp only [hr, if_true, and_self, Nat.sub_self, Nat.mul_zero, Nat.add_zero] at hfind
  simp only [hc, if_false] at h2
  have hmod : modify L (fun u : GpuLogicalIndexUse => { u with variability := v })
      ((List.range (s / 4)).foldl (logicalInsertStep L s v)
        ⟨t.map, st.mFloatConstants.length, none⟩).map =
      ((List.range (s / 4)).foldl (logicalInsertStep L s v)
        ⟨t.map, st.mFloatConstants.length, none⟩).map := by
    apply modify_of_fixed
    intro x hx
    rw [hfind] at hx
    cases hx
    rfl
  simp only [GpuProgramParameters._getFloatConstantLogicalIndexUse, ht, hL, hs, ne_eq,
    not_false_eq_true, if_true, h2, hmod, hfind, List.length_append, List.length_replicate]


/-- Re-resolution within the recorded size: only the variability is written. -/
theorem reuse_returned {F : Type} [Zero F] (st : GpuProgramParameters F) (t : GpuLogicalBufferStruct)
    (u : GpuLogicalIndexUse) (L r v : Nat) (ht : st.mFloatLogicalToPhysical = some t)
    (hL : find L t.map = some u) (hle : r ≤ u.currentSize) :
    st._getFloatConstantLogicalIndexUse L r v =
      Outcome.returned
        { st with
          mFloatLogicalToPhysical := some
            { t with map := modify L (fun u => { u with variability := v }) t.map } }
        (some { u with variability := v }) := by
  have hlt : ¬ u.currentSize < r := by omega
  have hf : find L (modify L (fun u : GpuLogicalIndexUse => { u with variability := v }) t.map)
      = some { u with variability := v } := by
    rw [find_modify, hL]; simp
  simp only [GpuProgramParameters._getFloatConstantLogicalIndexUse, ht, hL, hlt, if_false, hf]

/-- Re-resolution beyond the recorded size, for an entry inside the store. -/
theorem regrow_returned {F : Type} [Zero F] (st : GpuProgramParameters F) (t : GpuLogicalBufferStruct)
    (u : GpuLogicalIndexUse) (L r v : Nat) (ht : st.mFloatLogicalToPhysical = some t)
    (hL : find L t.map = some u) (hlt : u.currentSize < r)
    (hp : u.physicalIndex ≤ st.mFloatConstants.length) :
    st._getFloatConstantLogicalIndexUse L r v =
      Outcome.returned
        { st with
          mFloatConstants := st.mFloatConstants.take u.physicalIndex ++
            List.replicate (r - u.currentSize) (0 : F) ++
            st.mFloatConstants.drop u.physicalIndex
          mFloatLogicalToPhysical := some
            { map := modify L
                (fun w => { w with currentSize := w.currentSize + (r - u.currentSize),
                                   variability := v })
                (shiftLogicalIndexes u.physicalIndex (r - u.currentSize) t.map)
              bufferSize := t.bufferSize + (r - u.currentSize) }
          mNamedConstants := st.mNamedConstants.map
            (shiftFloatDefinitions u.physicalIndex (r - u.currentSize)) }
        (some ⟨u.physicalIndex, r, v⟩) := by
  have hf : find L (modify L
      (fun w : GpuLogicalIndexUse =>
        { w with currentSize := w.currentSize + (r - u.currentSize), variability := v })
      (shiftLogicalIndexes u.physicalIndex (r - u.currentSize) t.map))
      = some ⟨u.physicalIndex, r, v⟩ := by
    rw [find_modify, shiftLogicalIndexes, find_forEach, hL]
    have : u.currentSize + (r - u.currentSize) = r := by omega
    simp [this]
  simp only [GpuProgramParameters._getFloatConstantLogicalIndexUse, ht, hL, hlt, if_true, hp, hf]

/-! ## Lemmas about array entry names -/

/-- The character of a decimal digit has the digit as its value. -/
theorem digitChar_value (k : Nat) (hk : k < 10) : (Nat.digitChar k).toNat - 48 = k := by
  interval_cases k <;> rfl

/-- Reading back the digits that `Nat.toDigitsCore` writes gives the number. -/
theorem decimalValue_toDigitsCore (fuel : Nat) :
    ∀ n ds, n < fuel →
      decimalValue (Nat.toDigitsCore 10 fuel n ds) 0 = decimalValue ds n := by
  induction fuel with
  | zero => intro n ds h; omega
  | succ fuel ih =>
    intro n ds h
    simp only [Nat.toDigitsCore]
    by_cases h0 : n / 10 = 0
    · simp only [h0, if_true]
      have hn : n < 10 := by omega
      simp [decimalValue, Nat.mod_eq_of_lt hn, digitChar_value n hn]
    · simp only [h0, if_false]
      rw [ih (n / 10) _ (by omega)]
      simp only [decimalValue, List.foldl_cons,
        digitChar_value (n % 10) (Nat.mod_lt _ (by decide))]
      congr 1
      omega

/-- Distinct numbers have distinct decimal strings. -/
theorem toString_nat_injective (a b : Nat) (h : toString a = toString b) : a = b := by
  have h' : (Nat.toDigits 10 a).asString = (Nat.toDigits 10 b).asString := h
  have h'' : Nat.toDigits 10 a = Nat.toDigits 10 b := by
    have := congrArg String.data h'
    simpa using this
  have ha := decimalValue_toDigitsCore (a + 1) a [] (by omega)
  have hb := decimalValue_toDigitsCore (b + 1) b [] (by omega)
  unfold Nat.toDigits at h''
  rw [h''] at ha
  rw [ha] at hb
  simpa [decimalValue] using hb

/-- Distinct indices give distinct element names. -/
theorem arrayEntryName_injective (p : String) (i j : Nat)
    (h : arrayEntryName p i = arrayEntryName p j) : i = j := by
  unfold arrayEntryName at h
  have h1 := congrArg String.data h
  simp only [String.data_append, List.append_assoc, List.append_cancel_left_eq,
    List.append_cancel_right_eq] at h1
  exact toString_nat_injective i j (String.ext h1)


/-- State of the loop of `generateConstantDefinitionArrayEntries` after `n`
iterations: `arrayDef`, the lookups, and the number of entries. -/
theorem arrayEntriesLoop_spec (p : String) (m : List (String × GpuConstantDefinition))
    (d : GpuConstantDefinition) (n : Nat) :
    ((List.range n).foldl (arrayEntriesStep p) ⟨m, d⟩).arrayDef =
        { d with physicalIndex := d.physicalIndex + n * d.elementSize } ∧
    (∀ name x, find name m = some x →
      find name ((List.range n).foldl (arrayEntriesStep p) ⟨m, d⟩).map = some x) ∧
    (∀ name, (∀ i, i < n → name ≠ arrayEntryName p i) →
      find name ((List.range n).foldl (arrayEntriesStep p) ⟨m, d⟩).map = find name m) ∧
    (∀ i, i < n → find (arrayEntryName p i) m = none →
      find (arrayEntryName p i) ((List.range n).foldl (arrayEntriesStep p) ⟨m, d⟩).map =
        some { d with physicalIndex := d.physicalIndex + i * d.elementSize }) ∧
    ((∀ i, i < n → find (arrayEntryName p i) m = none) →
      ((List.range n).foldl (arrayEntriesStep p) ⟨m, d⟩).map.length = m.length + n) := by
  induction n with
  | zero =>
    refine ⟨by simp, ?_, ?_, ?_, ?_⟩
    · intro name x h; simpa using h
    · intro name _; simp
    · intro i hi; omega
    · intro _; simp
  | succ n ih =>
    obtain ⟨h1, h2, h3, h4, h5⟩ := ih
    simp only [List.range_succ, List.foldl_append, List.foldl_cons, List.foldl_nil]
    have hne : ∀ i, i < n → arrayEntryName p n ≠ arrayEntryName p i := by
      intro i hi e
      have := arrayEntryName_injective p n i e
      omega
    refine ⟨?_, ?_, ?_, ?_, ?_⟩
    · simp only [arrayEntriesStep, h1]
      congr 1
      simp only [Nat.add_mul, Nat.one_mul]
      omega
    · intro name x h
      simp only [arrayEntriesStep]
      rw [find_insert, h2 name x h]
    · intro name hname
      simp only [arrayEntriesStep]
      rw [find_insert, h3 name (fun i hi => hname i (by omega))]
      have : ¬ arrayEntryName p n = name := fun e => hname n (by omega) e.symm
      cases find name m with
      | some x => rfl
      | none => simp [this]
    · intro i hi hfree
      simp only [arrayEntriesStep]
      rw [find_insert]
      by_cases hin : i < n
      · rw [h4 i hin hfree]
      · have hi' : i = n := by omega
        subst hi'
        rw [h3 _ hne, hfree, h1]
        simp
    · intro hfree
      simp only [arrayEntriesStep]
      rw [length_insert, h5 (fun i hi => hfree i (by omega))]
      · rfl
      · rw [h3 _ hne]
        exact hfree n (by omega)

/-- Effect of `generateConstantDefinitionArrayEntries` in terms of its loop
bound `k`, when the `k` element names are not yet in the registry. -/
theorem generate_spec (flag : Bool) (old : GpuNamedConstants) (p : String)
    (baseDef : GpuConstantDefinition) (k : Nat)
    (hk : (if baseDef.arraySize ≤ 16 || flag then baseDef.arraySize else 1) = k)
    (hfree : ∀ i, i < k → find (arrayEntryName p i) old.map = none) :
    (GpuNamedConstants.generateConstantDefinitionArrayEntries flag old p baseDef).map.length
      = old.map.length + k ∧
    (∀ i, i < k →
      find (arrayEntryName p i)
        (GpuNamedConstants.generateConstantDefinitionArrayEntries flag old p baseDef).map =
        some { baseDef with arraySize := 1,
                            physicalIndex := baseDef.physicalIndex + i * baseDef.elementSize }) ∧
    (∀ name, (∀ i, i < k → name ≠ arrayEntryName p i) →
      find name (GpuNamedConstants.generateConstantDefinitionArrayEntries flag old p baseDef).map
        = find name old.map) := by
  obtain ⟨-, -, h3, h4, h5⟩ :=
    arrayEntriesLoop_spec p old.map { baseDef with arraySize := 1 } k
  simp only [GpuNamedConstants.generateConstantDefinitionArrayEntries, hk]
  exact ⟨h5 hfree, fun i hi => h4 i hi (hfree i hi), h3⟩


/-! ## Lemmas about raw reads and writes -/

/-- The pointer `m[0]` addresses 16 floats. -/
theorem Matrix4.row0_length {F : Type} (a : Matrix4 F) : a.row0.length = 16 := by
  simp [Matrix4.row0]

/-- Float `4 * i + j` behind `m[0]` is `m[i][j]`. -/
theorem Matrix4.row0_getElem {F : Type} (a : Matrix4 F) (i j : Fin 4) :
    a.row0[4 * i.val + j.val]? = some (a.m i j) := by
  have h : 4 * i.val + j.val < a.row0.length := by
    rw [Matrix4.row0_length]; omega
  rw [List.getElem?_eq_getElem h]
  simp only [Matrix4.row0, List.getElem_ofFn]
  congr 2
  · apply Fin.ext; simp only; omega
  · apply Fin.ext; simp only; omega

/-- Reading back the range that was overwritten gives the written values. -/
theorem splice_read {F : Type} (xs val : List F) (p : Nat) (hp : p + val.length ≤ xs.length) :
    ((xs.take p ++ val ++ xs.drop (p + val.length)).drop p).take val.length = val := by
  have h1 : (xs.take p).length = p := by
    rw [List.length_take]; omega
  rw [List.append_assoc, List.drop_left' h1, List.take_left' rfl]

/-- Overwriting a range inside a list keeps its length. -/
theorem splice_length {F : Type} (xs val : List F) (p : Nat) (hp : p + val.length ≤ xs.length) :
    (xs.take p ++ val ++ xs.drop (p + val.length)).length = xs.length := by
  simp only [List.length_append, List.length_take, List.length_drop]
  omega

/-- A `size_t` sum that lies inside a store passes the bounds assertion, wrapped
around or not. -/
theorem wrapped_le (a b : Nat) (h : a ≤ b) : a % 2 ^ 64 ≤ b :=
  le_trans (Nat.mod_le _ _) h

/-- A raw write inside the store followed by a raw read of the same range. -/
theorem write_then_read {F : Type} (st : GpuProgramParameters F) (p : Nat) (val : List F) (n : Nat)
    (hp : p + n ≤ st.mFloatConstants.length) (hn : n = val.length) :
    ∃ st', st._writeRawConstants p val n = Outcome.returned st' () ∧
      st'._readRawConstants p n = Outcome.returned st' val := by
  subst hn
  refine ⟨{ st with mFloatConstants := st.mFloatConstants.take p ++ val ++
      st.mFloatConstants.drop (p + val.length) }, ?_, ?_⟩
  · simp only [GpuProgramParameters._writeRawConstants, wrapped_le _ _ hp, hp, if_true,
      le_refl, List.take_length]
  · have h2 := splice_length st.mFloatConstants val p hp
    have h3 := splice_read st.mFloatConstants val p hp
    simp only [GpuProgramParameters._readRawConstants, h2, wrapped_le _ _ hp, hp, if_true, h3]


/-! ## Lemmas about the double overload and overwritten ranges -/

/-- State of the copy loop of the double overload after `n` iterations. -/
theorem writeDouble_fold {F D : Type} (narrow : D → F) (p : Nat) (val : List D)
    (fl : List F) (n : Nat) (hn : n ≤ val.length) (hp : p + n ≤ fl.length) :
    ∃ fl', (List.range n).foldl (writeDoubleStep narrow p val) (some fl) = some fl' ∧
      fl'.length = fl.length ∧
      ∀ j, fl'[j]? =
        if p ≤ j ∧ j < p + n then (val[j - p]?).map narrow else fl[j]? := by
  induction n with
  | zero =>
    refine ⟨fl, rfl, rfl, ?_⟩
    intro j
    have : ¬ (p ≤ j ∧ j < p) := by omega
    simp [this]
  | succ n ih =>
    obtain ⟨fl', h1, h2, h3⟩ := ih (by omega) (by omega)
    have hv : n < val.length := by omega
    refine ⟨fl'.set (p + n) (narrow val[n]), ?_, by simp [h2], ?_⟩
    · simp only [List.range_succ, List.foldl_append, List.foldl_cons, List.foldl_nil, h1,
        writeDoubleStep, List.getElem?_eq_getElem hv]
    · intro j
      by_cases hj : p + n = j
      · subst hj
        have h4 : p + n < fl'.length := by omega
        have h5 : p ≤ p + n ∧ p + n < p + (n + 1) := by omega
        simp [h4, h5, List.getElem?_eq_getElem hv]
      · rw [List.getElem?_set_ne hj, h3 j]
        by_cases hr : p ≤ j ∧ j < p + n
        · have hr' : p ≤ j ∧ j < p + (n + 1) := by omega
          simp [hr, hr']
        · have hr' : ¬ (p ≤ j ∧ j < p + (n + 1)) := by omega
          simp [hr, hr']

/-- The double overload of the raw write inside the store: the result store is
given element by element. -/
theorem writeDouble_returned {F D : Type} (narrow : D → F) (st : GpuProgramParameters F)
    (p : Nat) (val : List D) (n : Nat) (hn : n ≤ val.length)
    (hp : p + n ≤ st.mFloatConstants.length) :
    ∃ fl', st._writeRawConstants_double narrow p val n =
        Outcome.returned { st with mFloatConstants := fl' } () ∧
      fl'.length = st.mFloatConstants.length ∧
      ∀ j, fl'[j]? =
        if p ≤ j ∧ j < p + n then (val[j - p]?).map narrow else st.mFloatConstants[j]? := by
  obtain ⟨fl', h1, h2, h3⟩ := writeDouble_fold narrow p val st.mFloatConstants n hn hp
  refine ⟨fl', ?_, h2, h3⟩
  simp only [GpuProgramParameters._writeRawConstants_double, wrapped_le _ _ hp, hp, if_true, h1]

/-- Elements of a list in which the range starting at `p` was overwritten by
`val`. -/
theorem splice_lookup {F : Type} (xs val : List F) (p : Nat)
    (hp : p + val.length ≤ xs.length) (j : Nat) :
    (xs.take p ++ val ++ xs.drop (p + val.length))[j]? =
      if p ≤ j ∧ j < p + val.length then val[j - p]? else xs[j]? := by
  have h1 : (xs.take p).length = p := by
    rw [List.length_take]; omega
  by_cases hj : j < p
  · have hr : ¬ (p ≤ j ∧ j < p + val.length) := by omega
    rw [List.append_assoc, List.getElem?_append_left (by omega)]
    simp [hr, List.getElem?_take, hj]
  · rw [List.append_assoc, List.getElem?_append_right (by omega), h1]
    by_cases hj2 : j < p + val.length
    · have hr : p ≤ j ∧ j < p + val.length := by omega
      rw [List.getElem?_append_left (by omega)]
      simp [hr]
    · have hr : ¬ (p ≤ j ∧ j < p + val.length) := by omega
      rw [List.getElem?_append_right (by omega), List.getElem?_drop]
      simp only [hr, if_false]
      congr 1
      omega

/-! ## Lemmas about the named-constant interface -/

/-- Lookup of a name that the registry maps. -/
theorem findNamed_of_mapped {F : Type} (st : GpuProgramParameters F) (nc : GpuNamedConstants)
    (name : String) (d : GpuConstantDefinition) (b : Bool)
    (hnc : st.mNamedConstants = some nc) (hd : find name nc.map = some d) :
    st._findNamedConstantDefinition name b = Outcome.returned st (some d) := by
  simp [GpuProgramParameters._findNamedConstantDefinition, hnc, hd]

/-- A `setNamedConstant` overload on a name that the registry maps runs its body
on the definition. -/
theorem withNamedConstant_of_mapped {F : Type} (st : GpuProgramParameters F)
    (nc : GpuNamedConstants) (name : String) (d : GpuConstantDefinition)
    (body : GpuProgramParameters F → GpuConstantDefinition →
      Outcome (GpuProgramParameters F) Unit)
    (hnc : st.mNamedConstants = some nc) (hd : find name nc.map = some d) :
    st.withNamedConstant name body = body st d := by
  simp only [GpuProgramParameters.withNamedConstant, findNamed_of_mapped st nc name d _ hnc hd]

/-- A `setNamedConstant` overload on an object without registry throws or
returns at once, by the ignore-missing flag. -/
theorem withNamedConstant_of_no_registry {F : Type} (st : GpuProgramParameters F)
    (name : String)
    (body : GpuProgramParameters F → GpuConstantDefinition →
      Outcome (GpuProgramParameters F) Unit)
    (hnc : st.mNamedConstants = none) :
    st.withNamedConstant name body =
      if st.mIgnoreMissingParams then Outcome.returned st () else Outcome.threw st := by
  cases hflag : st.mIgnoreMissingParams <;>
    simp [GpuProgramParameters.withNamedConstant,
      GpuProgramParameters._findNamedConstantDefinition, hnc, hflag]

/-- Assignment through the entry of a slot inside the binding array: the slot
holds the old entry (or, for a null slot, a new entry) with `assign` applied,
and nothing else changes. -/
theorem assignTextureEntry_returned {F : Type} (newEntry : GpuTextureEntry)
    (st : GpuProgramParameters F) (p : Nat) (assign : GpuTextureEntry → GpuTextureEntry)
    (hp : p < st.mTextures.length) :
    st.assignTextureEntry newEntry p assign =
      Outcome.returned
        { st with mTextures := (st.mTextures.set p
            (some (assign ((Option.join st.mTextures[p]?).getD newEntry)))) } () := by
  have h := List.getElem?_eq_getElem hp
  unfold GpuProgramParameters.assignTextureEntry
  rw [h]
  cases st.mTextures[p] <;> simp [h]

/-! ## Lemmas about the int side and the remaining branches -/

/-- Int side, first use with requestedSize 1, 2 or 3: the mapping loop does not
run and the call uses the unassigned `insertedIterator`. -/
theorem intFirstUse_small {F : Type} (st : GpuProgramParameters F)
    (t : GpuLogicalBufferStruct) (L s v : Nat) (ht : st.mIntLogicalToPhysical = some t)
    (hL : find L t.map = none) (h0 : 0 < s) (h4 : s < 4) :
    st._getIntConstantLogicalIndexUse L s v = Outcome.undefined := by
  have hs : s ≠ 0 := by omega
  have hc : s / 4 = 0 := by omega
  simp [GpuProgramParameters._getIntConstantLogicalIndexUse, ht, hL, hs, hc]

/-- Int side, first use with requestedSize at least 4. -/
theorem intFirstUse_returned {F : Type} (st : GpuProgramParameters F)
    (t : GpuLogicalBufferStruct) (L s v : Nat) (ht : st.mIntLogicalToPhysical = some t)
    (hL : find L t.map = none) (h4 : 4 ≤ s) :
    st._getIntConstantLogicalIndexUse L s v =
      Outcome.returned
        { st with
          mIntConstants := st.mIntConstants ++ List.replicate s (0 : Int)
          mIntLogicalToPhysical := some
            { map := ((List.range (s / 4)).foldl (logicalInsertStep L s v)
                ⟨t.map, st.mIntConstants.length, none⟩).map
              bufferSize := st.mIntConstants.length + s } }
        (some ⟨st.mIntConstants.length, s, v⟩) := by
  have hs : s ≠ 0 := by omega
  have hc : s / 4 ≠ 0 := by omega
  obtain ⟨-, h2, h3⟩ := logicalInsertLoop_spec L s v st.mIntConstants.length t.map (s / 4)
  have hfind := h3 L
  rw [hL] at hfind
  have hr : L ≤ L ∧ L < L + s / 4 := by omega
  simp only [hr, if_true, and_self, Nat.sub_self, Nat.mul_zero, Nat.add_zero] at hfind
  simp only [hc, if_false] at h2
  have hmod : modify L (fun u : GpuLogicalIndexUse => { u with variability := v })
      ((List.range (s / 4)).foldl (logicalInsertStep L s v)
        ⟨t.map, st.mIntConstants.length, none⟩).map =
      ((List.range (s / 4)).foldl (logicalInsertStep L s v)
        ⟨t.map, st.mIntConstants.length, none⟩).map := by
    apply modify_of_fixed
    intro x hx
    rw [hfind] at hx
    cases hx
    rfl
  simp only [GpuProgramParameters._getIntConstantLogicalIndexUse, ht, hL, hs, ne_eq,
    not_false_eq_true, if_true, h2, hmod, hfind, List.length_append, List.length_replicate]

/-- Int side, re-resolution within the recorded size. -/
theorem intReuse_returned {F : Type} (st : GpuProgramParameters F)
    (t : GpuLogicalBufferStruct) (u : GpuLogicalIndexUse) (L r v : Nat)
    (ht : st.mIntLogicalToPhysical = some t)
    (hL : find L t.map = some u) (hle : r ≤ u.currentSize) :
    st._getIntConstantLogicalIndexUse L r v =
      Outcome.returned
        { st with
          mIntLogicalToPhysical := some
            { t with map := modify L (fun u => { u with variability := v }) t.map } }
        (some { u with variability := v }) := by
  have hlt : ¬ u.currentSize < r := by omega
  have hf : find L (modify L (fun u : GpuLogicalIndexUse => { u with variability := v }) t.map)
      = some { u with variability := v } := by
    rw [find_modify, hL]; simp
  simp only [GpuProgramParameters._getIntConstantLogicalIndexUse, ht, hL, hlt, if_false, hf]

/-- Int side, re-resolution beyond the recorded size, for an entry inside the
store. -/
theorem intRegrow_returned {F : Type} (st : GpuProgramParameters F)
    (t : GpuLogicalBufferStruct) (u : GpuLogicalIndexUse) (L r v : Nat)
    (ht : st.mIntLogicalToPhysical = some t)
    (hL : find L t.map = some u) (hlt : u.currentSize < r)
    (hp : u.physicalIndex ≤ st.mIntConstants.length) :
    st._getIntConstantLogicalIndexUse L r v =
      Outcome.returned
        { st with
          mIntConstants := st.mIntConstants.take u.physicalIndex ++
            List.replicate (r - u.currentSize) (0 : Int) ++
            st.mIntConstants.drop u.physicalIndex
          mIntLogicalToPhysical := some
            { map := modify L
                (fun w => { w with currentSize := w.currentSize + (r - u.currentSize),
                                   variability := v })
                (shiftLogicalIndexes u.physicalIndex (r - u.currentSize) t.map)
              bufferSize := t.bufferSize + (r - u.currentSize) }
          mNamedConstants := st.mNamedConstants.map
            (shiftIntDefinitions u.physicalIndex (r - u.currentSize)) }
        (some ⟨u.physicalIndex, r, v⟩) := by
  have hf : find L (modify L
      (fun w : GpuLogicalIndexUse =>
        { w with currentSize := w.currentSize + (r - u.currentSize), variability := v })
      (shiftLogicalIndexes u.physicalIndex (r - u.currentSize) t.map))
      = some ⟨u.physicalIndex, r, v⟩ := by
    rw [find_modify, shiftLogicalIndexes, find_forEach, hL]
    have : u.currentSize + (r - u.currentSize) = r := by omega
    simp [this]
  simp only [GpuProgramParameters._getIntConstantLogicalIndexUse, ht, hL, hlt, if_true, hp, hf]

/-- Float side, re-resolution beyond the recorded size of an entry past the end
of the store: the insertion position is not defined. -/
theorem regrow_undefined {F : Type} [Zero F] (st : GpuProgramParameters F)
    (t : GpuLogicalBufferStruct) (u : GpuLogicalIndexUse) (L r v : Nat)
    (ht : st.mFloatLogicalToPhysical = some t)
    (hL : find L t.map = some u) (hlt : u.currentSize < r)
    (hp : ¬ u.physicalIndex ≤ st.mFloatConstants.length) :
    st._getFloatConstantLogicalIndexUse L r v = Outcome.undefined := by
  simp only [GpuProgramParameters._getFloatConstantLogicalIndexUse, ht, hL, hlt, if_true, hp,
    if_false]

/-- Float side, zero-size miss. -/
theorem miss_returned {F : Type} [Zero F] (st : GpuProgramParameters F)
    (t : GpuLogicalBufferStruct) (L v : Nat)
    (ht : st.mFloatLogicalToPhysical = some t) (hL : find L t.map = none) :
    st._getFloatConstantLogicalIndexUse L 0 v = Outcome.returned st none := by
  simp [GpuProgramParameters._getFloatConstantLogicalIndexUse, ht, hL]

/-- Int side, zero-size miss. -/
theorem intMiss_returned {F : Type} (st : GpuProgramParameters F)
    (t : GpuLogicalBufferStruct) (L v : Nat)
    (ht : st.mIntLogicalToPhysical = some t) (hL : find L t.map = none) :
    st._getIntConstantLogicalIndexUse L 0 v = Outcome.returned st none := by
  simp [GpuProgramParameters._getIntConstantLogicalIndexUse, ht, hL]

/-! ## Lemmas about matrix arrays and exact writes -/

/-- Assigning a member its own value gives the object back. -/
theorem floats_self {F : Type} (st : GpuProgramParameters F) :
    { st with mFloatConstants := st.mFloatConstants } = st := by
  cases st; rfl

/-- The transposing loop of the matrix-array write, started at matrix `i` with
`n` matrices to go, inside the store: the range starting at `p` is overwritten
by the rows of the transposed matrices `i .. i+n-1`. -/
theorem writeTransposed_spec {F : Type} (pMatrix : List (Matrix4 F)) :
    ∀ (n i : Nat) (st : GpuProgramParameters F) (p : Nat),
      i + n ≤ pMatrix.length → p + 16 * n ≤ st.mFloatConstants.length →
      writeTransposedMatrices pMatrix n i st p =
        Outcome.returned
          { st with mFloatConstants :=
              st.mFloatConstants.take p ++
                ((pMatrix.drop i).take n).flatMap (fun m => m.transpose.row0) ++
                st.mFloatConstants.drop (p + 16 * n) } () := by
  intro n
  induction n with
  | zero =>
    intro i st p _ _
    simp [writeTransposedMatrices, floats_self]
  | succ n ih =>
    intro i st p hi hp
    have hlt : i < pMatrix.length := by omega
    have hrow : (pMatrix[i]).transpose.row0.length = 16 := Matrix4.row0_length _
    have hp16 : p + 16 ≤ st.mFloatConstants.length := by omega
    have hA : (st.mFloatConstants.take p).length = p := by
      rw [List.length_take]; omega
    have hwrite : st._writeRawConstants p (pMatrix[i]).transpose.row0 16 =
        Outcome.returned
          { st with mFloatConstants := st.mFloatConstants.take p ++
              (pMatrix[i]).transpose.row0 ++ st.mFloatConstants.drop (p + 16) } () := by
      have h16 : 16 ≤ (pMatrix[i]).transpose.row0.length := by omega
      simp only [GpuProgramParameters._writeRawConstants, wrapped_le _ _ hp16, hp16, h16,
        if_true]
      rw [List.take_of_length_le (le_of_eq hrow)]
    have hlen1 : (st.mFloatConstants.take p ++ (pMatrix[i]).transpose.row0 ++
        st.mFloatConstants.drop (p + 16)).length = st.mFloatConstants.length := by
      simp only [List.length_append, List.length_take, List.length_drop, hrow]
      omega
    have htake : (st.mFloatConstants.take p ++ (pMatrix[i]).transpose.row0 ++
        st.mFloatConstants.drop (p + 16)).take (p + 16) =
        st.mFloatConstants.take p ++ (pMatrix[i]).transpose.row0 := by
      apply List.take_left'
      simp [hA, hrow]
    have hdrop : (st.mFloatConstants.take p ++ (pMatrix[i]).transpose.row0 ++
        st.mFloatConstants.drop (p + 16)).drop (p + 16 + 16 * n) =
        st.mFloatConstants.drop (p + 16 * (n + 1)) := by
      have hl : (st.mFloatConstants.take p ++ (pMatrix[i]).transpose.row0).length = p + 16 := by
        simp [hA, hrow]
      rw [← hl, List.drop_append, List.drop_drop, hl]
      congr 1
      omega
    have hms : (pMatrix.drop i).take (n + 1) =
        pMatrix[i] :: (pMatrix.drop (i + 1)).take n := by
      rw [List.drop_eq_getElem_cons hlt, List.take_succ_cons]
    simp only [writeTransposedMatrices, List.getElem?_eq_getElem hlt, hwrite]
    rw [ih (i + 1) _ (p + 16) (by omega) (by rw [hlen1]; omega)]
    simp only [htake, hdrop, hms, List.flatMap_cons]
    simp only [List.append_assoc]

/-- Element `16 * i + k` of the rows of a list of matrices laid end to end. -/
theorem flatRows_getElem {F : Type} (f : Matrix4 F → List F)
    (hf : ∀ m, (f m).length = 16) :
    ∀ (ms : List (Matrix4 F)) (i k : Nat) (hi : i < ms.length), k < 16 →
      (ms.flatMap f)[16 * i + k]? = (f ms[i])[k]? := by
  intro ms
  induction ms with
  | nil => intro i k hi; simp at hi
  | cons m rest ih =>
    intro i k hi hk
    cases i with
    | zero =>
      simp only [List.flatMap_cons, Nat.mul_zero, Nat.zero_add, List.getElem_cons_zero]
      rw [List.getElem?_append_left (by rw [hf]; exact hk)]
    | succ i =>
      simp only [List.flatMap_cons, List.getElem_cons_succ]
      rw [List.getElem?_append_right (by rw [hf]; omega), hf]
      have : 16 * (i + 1) + k - 16 = 16 * i + k := by omega
      rw [this]
      exact ih i k (by simpa using hi) hk

/-- Length of the rows of a list of matrices laid end to end. -/
theorem flatRows_length {F : Type} (f : Matrix4 F → List F)
    (hf : ∀ m, (f m).length = 16) (ms : List (Matrix4 F)) :
    (ms.flatMap f).length = 16 * ms.length := by
  induction ms with
  | nil => rfl
  | cons m rest ih =>
    simp only [List.flatMap_cons, List.length_append, hf, ih, List.length_cons]
    omega

/-- The rows written for one matrix are 16 floats. -/
theorem matrix4Source_length {F : Type} (b : Bool) (m : Matrix4 F) :
    (matrix4Source b m).length = 16 := by
  cases b <;> simp [matrix4Source, Matrix4.row0_length]

/-- The matrix-array write inside the store, for either value of the transpose
flag. -/
theorem matrix4Array_returned {F : Type} (st : GpuProgramParameters F) (p : Nat)
    (pMatrix : List (Matrix4 F))
    (hp : p + 16 * pMatrix.length ≤ st.mFloatConstants.length) :
    st._writeRawConstant_Matrix4Array p pMatrix pMatrix.length =
      Outcome.returned
        { st with mFloatConstants :=
            st.mFloatConstants.take p ++
              pMatrix.flatMap (matrix4Source st.mTransposeMatrices) ++
              st.mFloatConstants.drop (p + 16 * pMatrix.length) } () := by
  cases hflag : st.mTransposeMatrices with
  | true =>
    have h := writeTransposed_spec pMatrix pMatrix.length 0 st p (by omega) hp
    simp only [List.drop_zero, List.take_length] at h
    have hrows : matrix4Source (F := F) true = fun m => m.transpose.row0 := by
      funext m; simp [matrix4Source]
    simp only [GpuProgramParameters._writeRawConstant_Matrix4Array, hflag, if_true, h, hrows]
  | false =>
    have hlen := flatRows_length (F := F) Matrix4.row0 Matrix4.row0_length pMatrix
    have h1 : 16 * pMatrix.length ≤ (pMatrix.flatMap Matrix4.row0).length := by omega
    simp only [GpuProgramParameters._writeRawConstant_Matrix4Array, hflag,
      GpuProgramParameters._writeRawConstants, wrapped_le _ _ hp, hp, h1, if_true,
      Bool.false_eq_true, if_false]
    rw [List.take_of_length_le (le_of_eq hlen)]
    have hrows : matrix4Source (F := F) false = Matrix4.row0 := by
      funext m; simp [matrix4Source]
    rw [hrows]

/-- The float raw write of `n` source values: inside the store it modifies
exactly the `n` elements at `p`; its assertion fails when the wrapped sum
exceeds the store length, and a sum that passes only by wrapping around leads
to a write outside the store. -/
theorem writeRaw_effect {F : Type} (st : GpuProgramParameters F) (p : Nat)
    (val : List F) (n : Nat) (hn : n ≤ val.length) :
    (p + n ≤ st.mFloatConstants.length →
      ∃ fl', st._writeRawConstants p val n =
          Outcome.returned { st with mFloatConstants := fl' } () ∧
        WritesExactly st.mFloatConstants fl' p n val) ∧
    (¬ (p + n) % 2 ^ 64 ≤ st.mFloatConstants.length →
      st._writeRawConstants p val n = Outcome.assertFailed st) ∧
    ((p + n) % 2 ^ 64 ≤ st.mFloatConstants.length → ¬ p + n ≤ st.mFloatConstants.length →
      st._writeRawConstants p val n = Outcome.undefined) := by
  constructor
  · intro hp
    have hlen : (val.take n).length = n := by rw [List.length_take]; omega
    have hp' : p + (val.take n).length ≤ st.mFloatConstants.length := by omega
    have key := splice_lookup st.mFloatConstants (val.take n) p hp'
    have klen := splice_length st.mFloatConstants (val.take n) p hp'
    rw [hlen] at key klen
    refine ⟨_, by simp only [GpuProgramParameters._writeRawConstants, wrapped_le _ _ hp, hp,
      hn, if_true], klen, ?_, ?_⟩
    · intro i hi
      have hr : p ≤ p + i ∧ p + i < p + n := by omega
      simp only [key, hr, and_self, if_true, Nat.add_sub_cancel_left, List.getElem?_take, hi]
    · intro j hj
      have hr : ¬ (p ≤ j ∧ j < p + n) := by omega
      simp only [key, hr, if_false]
  constructor
  · intro hp
    simp only [GpuProgramParameters._writeRawConstants, hp, if_false]
  · intro hw hp
    simp only [GpuProgramParameters._writeRawConstants, hw, hp, if_true, if_false]

/-- The int raw write of `n` source values: inside the store it modifies
exactly the `n` elements at `p`; its assertion fails when the wrapped sum
exceeds the store length, and a sum that passes only by wrapping around leads
to a write outside the store. -/
theorem writeRawInt_effect {F : Type} (st : GpuProgramParameters F) (p : Nat)
    (val : List Int) (n : Nat) (hn : n ≤ val.length) :
    (p + n ≤ st.mIntConstants.length →
      ∃ il', st._writeRawConstants_int p val n =
          Outcome.returned { st with mIntConstants := il' } () ∧
        WritesExactly st.mIntConstants il' p n val) ∧
    (¬ (p + n) % 2 ^ 64 ≤ st.mIntConstants.length →
      st._writeRawConstants_int p val n = Outcome.assertFailed st) ∧
    ((p + n) % 2 ^ 64 ≤ st.mIntConstants.length → ¬ p + n ≤ st.mIntConstants.length →
      st._writeRawConstants_int p val n = Outcome.undefined) := by
  constructor
  · intro hp
    have hlen : (val.take n).length = n := by rw [List.length_take]; omega
    have hp' : p + (val.take n).length ≤ st.mIntConstants.length := by omega
    have key := splice_lookup st.mIntConstants (val.take n) p hp'
    have klen := splice_length st.mIntConstants (val.take n) p hp'
    rw [hlen] at key klen
    refine ⟨_, by simp only [GpuProgramParameters._writeRawConstants_int, wrapped_le _ _ hp,
      hp, hn, if_true], klen, ?_, ?_⟩
    · intro i hi
      have hr : p ≤ p + i ∧ p + i < p + n := by omega
      simp only [key, hr, and_self, if_true, Nat.add_sub_cancel_left, List.getElem?_take, hi]
    · intro j hj
      have hr : ¬ (p ≤ j ∧ j < p + n) := by omega
      simp only [key, hr, if_false]
  constructor
  · intro hp
    simp only [GpuProgramParameters._writeRawConstants_int, hp, if_false]
  · intro hw hp
    simp only [GpuProgramParameters._writeRawConstants_int, hw, hp, if_true, if_false]

/-- The pointer `m[0]` of a 3x3 matrix addresses 9 floats. -/
theorem Matrix3.rows_length {F : Type} (a : Matrix3 F) : a.row0.length = 9 := by
  simp [Matrix3.row0]

/-- Extending a buffer appends the missing elements, none if it is long
enough. -/
theorem extendBuffer_eq {α : Type} (v : List α) (size : Nat) (fill : α) :
    extendBuffer v size fill = v ++ List.replicate (size - v.length) fill ∧
    (extendBuffer v size fill).length = max v.length size := by
  unfold extendBuffer
  split
  · refine ⟨rfl, ?_⟩
    simp only [List.length_append, List.length_replicate]
    omega
  · have h : size - v.length = 0 := by omega
    refine ⟨by simp [h], ?_⟩
    omega

/-! ## Lemmas about well-formed tables and the reverse lookup -/

namespace StdMap

/-- An ordered insertion adds the key to the keys of the map. -/
theorem keys_orderedInsert {K V : Type} (lt : K → K → Bool) (k : K) (v : V) (m : List (K × V)) :
    ((orderedInsert lt k v m).map Prod.fst).Perm (k :: m.map Prod.fst) := by
  induction m with
  | nil => simp [orderedInsert]
  | cons kv rest ih =>
    obtain ⟨k₁, v₁⟩ := kv
    by_cases hlt : lt k k₁ = true
    · simp [orderedInsert, hlt]
    · simp only [orderedInsert, hlt, Bool.false_eq_true, if_false, List.map_cons]
      exact (List.Perm.cons k₁ ih).trans (List.Perm.swap k k₁ _)

/-- A loop over all entries keeps the keys. -/
theorem keys_forEach {K V : Type} (f : V → V) (m : List (K × V)) :
    (forEach f m).map Prod.fst = m.map Prod.fst := by
  simp [forEach, List.map_map, Function.comp_def]

variable {K V : Type} [DecidableEq K]

/-- A key is not found exactly when it is not among the keys. -/
theorem find_eq_none_iff (k : K) (m : List (K × V)) :
    find k m = none ↔ k ∉ m.map Prod.fst := by
  induction m with
  | nil => simp [find]
  | cons kv rest ih =>
    obtain ⟨k₁, v₁⟩ := kv
    by_cases e : k₁ = k
    · simp [find, e]
    · have e' : ¬ k = k₁ := fun h => e h.symm
      simp only [find, e, if_false, List.map_cons, List.mem_cons, e', false_or]
      exact ih

/-- The `insert` call keeps the keys of the map free of duplicates. -/
theorem nodup_keys_insert (lt : K → K → Bool) (k : K) (v : V) (m : List (K × V))
    (h : (m.map Prod.fst).Nodup) : ((insert lt k v m).map Prod.fst).Nodup := by
  unfold insert
  cases hf : find k m with
  | some x => exact h
  | none =>
    simp only
    rw [(keys_orderedInsert lt k v m).nodup_iff]
    exact List.nodup_cons.mpr ⟨(find_eq_none_iff k m).mp hf, h⟩

/-- An assignment through an entry keeps the keys. -/
theorem keys_modify (k : K) (f : V → V) (m : List (K × V)) :
    (modify k f m).map Prod.fst = m.map Prod.fst := by
  induction m with
  | nil => rfl
  | cons kv rest ih =>
    obtain ⟨k₁, v₁⟩ := kv
    by_cases e : k₁ = k <;> simp [modify, e, ih]

/-- A value found under a key is an entry of the map. -/
theorem mem_of_find (k : K) (v : V) (m : List (K × V)) (h : find k m = some v) :
    (k, v) ∈ m := by
  induction m with
  | nil => cases h
  | cons kv rest ih =>
    obtain ⟨k₁, v₁⟩ := kv
    by_cases e : k₁ = k
    · simp only [find, e, if_true, Option.some.injEq] at h
      simp [e, h]
    · simp only [find, e, if_false] at h
      exact List.mem_cons_of_mem _ (ih h)

/-- In a map without duplicate keys every entry is found under its key. -/
theorem find_of_mem (k : K) (v : V) (m : List (K × V)) (h : (m.map Prod.fst).Nodup)
    (hm : (k, v) ∈ m) : find k m = some v := by
  induction m with
  | nil => cases hm
  | cons kv rest ih =>
    obtain ⟨k₁, v₁⟩ := kv
    simp only [List.map_cons, List.nodup_cons] at h
    rcases List.mem_cons.mp hm with e | hr
    · cases e
      simp [find]
    · have hk : k ∈ rest.map Prod.fst := List.mem_map.mpr ⟨(k, v), hr, rfl⟩
      have e : ¬ k₁ = k := by
        intro e; subst e; exact h.1 hk
      simp only [find, e, if_false]
      exact ih h.2 hr

end StdMap

/-- The mapping loop of the first-use branch keeps the keys free of duplicates. -/
theorem nodup_keys_loop (L s v : Nat) (n : Nat) :
    ∀ (base : Nat) (m : List (Nat × GpuLogicalIndexUse)), (m.map Prod.fst).Nodup →
    (((List.range n).foldl (logicalInsertStep L s v) ⟨m, base, none⟩).map.map Prod.fst).Nodup := by
  induction n with
  | zero => intro base m h; simpa using h
  | succ n ih =>
    intro base m h
    simp only [List.range_succ, List.foldl_append, List.foldl_cons, List.foldl_nil]
    simp only [logicalInsertStep]
    exact nodup_keys_insert _ _ _ _ (ih base m h)

/-- The table stays well formed when every entry after the call comes from an
entry before it with the physical index moved by an injective map that keeps
it inside the store. -/
theorem wellFormed_of_moved (m m' : List (Nat × GpuLogicalIndexUse)) (len len' : Nat)
    (g : Nat → Nat)
    (href : ∀ k u', find k m' = some u' →
      ∃ u, find k m = some u ∧ u'.physicalIndex = g u.physicalIndex)
    (hinj : ∀ a b, g a = g b → a = b) (hbound : ∀ a, a < len → g a < len')
    (hin : PhysicalIndicesInside m len) (hd : PhysicalIndicesDistinct m) :
    PhysicalIndicesInside m' len' ∧ PhysicalIndicesDistinct m' := by
  constructor
  · intro k u' hk
    obtain ⟨u, hu, e⟩ := href k u' hk
    rw [e]
    exact hbound _ (hin k u hu)
  · intro k₁ k₂ u₁ u₂ hne h₁ h₂ heq
    obtain ⟨w₁, hw₁, e₁⟩ := href k₁ u₁ h₁
    obtain ⟨w₂, hw₂, e₂⟩ := href k₂ u₂ h₂
    rw [e₁, e₂] at heq
    exact hd k₁ k₂ w₁ w₂ hne hw₁ hw₂ (hinj _ _ heq)

/-- A float resolve call on a well-formed table that is not a first use with
requestedSize 1, 2 or 3 returns, leaves the table well formed, and the entry
it returns is the entry of the logical index after the call; it returns the null
pointer only for a zero-size miss. -/
theorem resolve_step_wellFormed {F : Type} [Zero F] (st : GpuProgramParameters F)
    (L s v : Nat) (hwf : FloatTableWellFormed st)
    (hs : ∀ t, st.mFloatLogicalToPhysical = some t → find L t.map = none → s = 0 ∨ 4 ≤ s) :
    ∃ st' r t', st._getFloatConstantLogicalIndexUse L s v = Outcome.returned st' r ∧
      FloatTableWellFormed st' ∧ st'.mFloatLogicalToPhysical = some t' ∧
      r = find L t'.map ∧
      (r = none → s = 0 ∧ ∀ t, st.mFloatLogicalToPhysical = some t → find L t.map = none) := by
  obtain ⟨t, ht, hkeys, hin, hd⟩ := hwf
  cases hL : find L t.map with
  | none =>
    rcases hs t ht hL with h0 | h4
    · subst h0
      refine ⟨st, none, t, miss_returned st t L v ht hL, ⟨t, ht, hkeys, hin, hd⟩, ht, hL.symm,
        fun _ => ⟨rfl, ?_⟩⟩
      intro t₁ ht₁
      rw [ht] at ht₁
      cases ht₁
      exact hL
    · obtain ⟨-, -, h3⟩ := logicalInsertLoop_spec L s v st.mFloatConstants.length t.map (s / 4)
      have hLnew := h3 L
      rw [hL] at hLnew
      have hr : L ≤ L ∧ L < L + s / 4 := by omega
      simp only [hr, if_true, and_self, Nat.sub_self, Nat.mul_zero, Nat.add_zero] at hLnew
      refine ⟨_, _, _, firstUse_returned st t L s v ht hL h4, ⟨_, rfl, ?_, ?_, ?_⟩, rfl,
        hLnew.symm, fun h => by cases h⟩
      · exact nodup_keys_loop L s v (s / 4) _ _ hkeys
      · intro k u hk
        simp only [List.length_append, List.length_replicate]
        have hk' := h3 k
        rw [hk] at hk'
        cases hm : find k t.map with
        | some x =>
          rw [hm] at hk'
          cases hk'
          have := hin k u hm
          omega
        | none =>
          rw [hm] at hk'
          simp only at hk'
          by_cases hrk : L ≤ k ∧ k < L + s / 4
          · simp only [hrk, and_self, if_true] at hk'
            cases hk'
            simp only
            omega
          · simp only [hrk, if_false] at hk'
            cases hk'
      · intro k₁ k₂ u₁ u₂ hne h₁ h₂
        have e₁ := h3 k₁
        have e₂ := h3 k₂
        rw [h₁] at e₁
        rw [h₂] at e₂
        cases hm₁ : find k₁ t.map with
        | some x₁ =>
          rw [hm₁] at e₁
          cases e₁
          cases hm₂ : find k₂ t.map with
          | some x₂ =>
            rw [hm₂] at e₂
            cases e₂
            exact hd k₁ k₂ _ _ hne hm₁ hm₂
          | none =>
            rw [hm₂] at e₂
            simp only at e₂
            by_cases hrk : L ≤ k₂ ∧ k₂ < L + s / 4
            · simp only [hrk, and_self, if_true] at e₂
              cases e₂
              have := hin k₁ _ hm₁
              simp only
              omega
            · simp only [hrk, if_false] at e₂
              cases e₂
        | none =>
          rw [hm₁] at e₁
          simp only at e₁
          by_cases hrk₁ : L ≤ k₁ ∧ k₁ < L + s / 4
          · simp only [hrk₁, and_self, if_true] at e₁
            cases e₁
            cases hm₂ : find k₂ t.map with
            | some x₂ =>
              rw [hm₂] at e₂
              cases e₂
              have := hin k₂ _ hm₂
              simp only
              omega
            | none =>
              rw [hm₂] at e₂
              simp only at e₂
              by_cases hrk₂ : L ≤ k₂ ∧ k₂ < L + s / 4
              · simp only [hrk₂, and_self, if_true] at e₂
                cases e₂
                simp only
                omega
              · simp only [hrk₂, if_false] at e₂
                cases e₂
          · simp only [hrk₁, if_false] at e₁
            cases e₁
  | some u =>
    by_cases hlt : u.currentSize < s
    · have hp : u.physicalIndex ≤ st.mFloatConstants.length := Nat.le_of_lt (hin L u hL)
      have hfind : ∀ k, find k (modify L
          (fun w : GpuLogicalIndexUse =>
            { w with currentSize := w.currentSize + (s - u.currentSize), variability := v })
          (shiftLogicalIndexes u.physicalIndex (s - u.currentSize) t.map)) =
          (find k t.map).map (fun w =>
            let w' : GpuLogicalIndexUse :=
              if w.physicalIndex > u.physicalIndex
              then { w with physicalIndex := w.physicalIndex + (s - u.currentSize) } else w
            if L = k then
              { w' with currentSize := w'.currentSize + (s - u.currentSize), variability := v }
            else w') := by
        intro k
        simp only [find_modify, shiftLogicalIndexes, find_forEach]
        by_cases e : L = k
        · subst e
          cases find L t.map <;> simp
        · cases find k t.map <;> simp [e]
      have hmoved := wellFormed_of_moved t.map _
        st.mFloatConstants.length
        (st.mFloatConstants.length + (s - u.currentSize))
        (fun p => if p > u.physicalIndex then p + (s - u.currentSize) else p)
        (by
          intro k u' hk
          rw [hfind k] at hk
          cases hm : find k t.map with
          | none => rw [hm] at hk; cases hk
          | some w =>
            rw [hm] at hk
            simp only [Option.map_some', Option.some.injEq] at hk
            refine ⟨w, rfl, ?_⟩
            subst hk
            by_cases e : L = k <;> by_cases hgt : w.physicalIndex > u.physicalIndex <;>
              simp [e, hgt])
        (by
          intro a b hab
          simp only at hab
          split at hab <;> split at hab <;> omega)
        (by
          intro a ha
          simp only
          split <;> omega)
        hin hd
      refine ⟨_, _, _, regrow_returned st t u L s v ht hL hlt hp, ⟨_, rfl, ?_, ?_, hmoved.2⟩,
        rfl, ?_, fun h => by cases h⟩
      · simp only [keys_modify, shiftLogicalIndexes, keys_forEach]
        exact hkeys
      · have hlen : (st.mFloatConstants.take u.physicalIndex ++
            List.replicate (s - u.currentSize) (0 : F) ++
            st.mFloatConstants.drop u.physicalIndex).length =
            st.mFloatConstants.length + (s - u.currentSize) := by
          simp only [List.length_append, List.length_take, List.length_replicate,
            List.length_drop]
          omega
        simp only [hlen]
        exact hmoved.1
      · rw [hfind L, hL]
        have : u.currentSize + (s - u.currentSize) = s := by omega
        simp [this]
    · have hfind : ∀ k, find k (modify L
          (fun w : GpuLogicalIndexUse => { w with variability := v }) t.map) =
          (find k t.map).map (fun w => if L = k then { w with variability := v } else w) := by
        intro k
        rw [find_modify]
        by_cases e : L = k
        · subst e
          cases find L t.map <;> simp
        · cases find k t.map <;> simp [e]
      have hmoved := wellFormed_of_moved t.map
        (modify L (fun w : GpuLogicalIndexUse => { w with variability := v }) t.map)
        st.mFloatConstants.length st.mFloatConstants.length (fun p => p)
        (by
          intro k u' hk
          rw [hfind k] at hk
          cases hm : find k t.map with
          | none => rw [hm] at hk; cases hk
          | some w =>
            rw [hm] at hk
            simp only [Option.map_some', Option.some.injEq] at hk
            refine ⟨w, rfl, ?_⟩
            subst hk
            by_cases e : L = k <;> simp [e])
        (fun a b h => h) (fun a h => h) hin hd
      refine ⟨_, _, _, reuse_returned st t u L s v ht hL (by omega),
        ⟨_, rfl, ?_, hmoved.1, hmoved.2⟩, rfl, ?_, fun h => by cases h⟩
      · simp only [keys_modify]
        exact hkeys
      · rw [hfind L, hL]
        simp

/-- A sequence of float resolve calls with requestedSize 0 or at least 4, made
on a well-formed table, returns and leaves the table well formed. -/
theorem resolveSequence_wellFormed {F : Type} [Zero F] (calls : List (Nat × Nat × Nat)) :
    ∀ st : GpuProgramParameters F, FloatTableWellFormed st →
      (∀ c ∈ calls, c.2.1 = 0 ∨ 4 ≤ c.2.1) →
      ∃ st', st.resolveSequence calls = Outcome.returned st' () ∧ FloatTableWellFormed st' := by
  induction calls with
  | nil => intro st h _; exact ⟨st, rfl, h⟩
  | cons c rest ih =>
    intro st h hc
    obtain ⟨L, s, v⟩ := c
    obtain ⟨st₁, r, t₁, hcall, hwf₁, -, -, -⟩ := resolve_step_wellFormed st L s v h
      (fun _ _ _ => hc (L, s, v) (List.mem_cons_self _ _))
    obtain ⟨st', hseq, hwf'⟩ := ih st₁ hwf₁ (fun c hmem => hc c (List.mem_cons_of_mem _ hmem))
    refine ⟨st', ?_, hwf'⟩
    simp only [GpuProgramParameters.resolveSequence, hcall]
    exact hseq

/-- An empty table over an empty store is well formed. -/
theorem empty_wellFormed {F : Type} (st : GpuProgramParameters F) (b : Nat)
    (hempty : st.mFloatLogicalToPhysical = some ⟨[], b⟩) : FloatTableWellFormed st := by
  refine ⟨⟨[], b⟩, hempty, List.nodup_nil, ?_, ?_⟩
  · intro k u h
    cases h
  · intro k₁ k₂ u₁ u₂ _ h
    cases h

/-- Reverse lookup in a well-formed table returns the logical index of a
mapped entry's physical index. -/
theorem reverseLookup_of_mapped {F : Type} (st : GpuProgramParameters F)
    (t : GpuLogicalBufferStruct) (L : Nat) (u : GpuLogicalIndexUse)
    (ht : st.mFloatLogicalToPhysical = some t) (hkeys : (t.map.map Prod.fst).Nodup)
    (hd : PhysicalIndicesDistinct t.map) (hL : find L t.map = some u) :
    st.getFloatLogicalIndexForPhysicalIndex u.physicalIndex = Outcome.returned st L := by
  simp only [GpuProgramParameters.getFloatLogicalIndexForPhysicalIndex, ht]
  cases hf : t.map.find? (fun i => decide (i.2.physicalIndex = u.physicalIndex)) with
  | none =>
    have hmem := mem_of_find L u t.map hL
    have := List.find?_eq_none.mp hf (L, u) hmem
    simp at this
  | some i =>
    have hmem : i ∈ t.map := List.mem_of_find?_eq_some hf
    have hp : i.2.physicalIndex = u.physicalIndex := by
      have := List.find?_some hf
      simpa using this
    have hi : find i.1 t.map = some i.2 := find_of_mem i.1 i.2 t.map hkeys hmem
    have : i.1 = L := by
      by_contra hne
      exact hd i.1 L i.2 u hne hi hL hp
    simp only [this]

/-- Reverse lookup of a physical index that no entry has returns the maximum
`size_t` value. -/
theorem reverseLookup_of_unmapped {F : Type} (st : GpuProgramParameters F)
    (t : GpuLogicalBufferStruct) (q : Nat)
    (ht : st.mFloatLogicalToPhysical = some t)
    (hq : ∀ k u, find k t.map = some u → u.physicalIndex ≠ q) (hkeys : (t.map.map Prod.fst).Nodup) :
    st.getFloatLogicalIndexForPhysicalIndex q = Outcome.returned st SIZE_MAX := by
  simp only [GpuProgramParameters.getFloatLogicalIndexForPhysicalIndex, ht]
  cases hf : t.map.find? (fun i => decide (i.2.physicalIndex = q)) with
  | none => rfl
  | some i =>
    have hmem : i ∈ t.map := List.mem_of_find?_eq_some hf
    have hp : i.2.physicalIndex = q := by
      have := List.find?_some hf
      simpa using this
    exact absurd hp (hq i.1 i.2 (find_of_mem i.1 i.2 t.map hkeys hmem))

/-! ## Lemmas about registers and calls that return -/

/-- Registers stay inside the store and disjoint when every entry after the
call comes from an entry before it with the physical index moved by a map that
keeps gaps of 4 and keeps registers inside the store. -/
theorem registers_of_moved (m m' : List (Nat × GpuLogicalIndexUse)) (len len' : Nat)
    (g : Nat → Nat)
    (href : ∀ k u', find k m' = some u' →
      ∃ u, find k m = some u ∧ u'.physicalIndex = g u.physicalIndex)
    (hgap : ∀ a b, a + 4 ≤ b → g a + 4 ≤ g b) (hbound : ∀ a, a + 4 ≤ len → g a + 4 ≤ len')
    (hin : RegistersInside m len) (hd : RegistersDisjoint m) :
    RegistersInside m' len' ∧ RegistersDisjoint m' := by
  constructor
  · intro k u' hk
    obtain ⟨u, hu, e⟩ := href k u' hk
    rw [e]
    exact hbound _ (hin k u hu)
  · intro k₁ k₂ u₁ u₂ hne h₁ h₂
    obtain ⟨w₁, hw₁, e₁⟩ := href k₁ u₁ h₁
    obtain ⟨w₂, hw₂, e₂⟩ := href k₂ u₂ h₂
    rw [e₁, e₂]
    rcases hd k₁ k₂ w₁ w₂ hne hw₁ hw₂ with h | h
    · exact Or.inl (hgap _ _ h)
    · exact Or.inr (hgap _ _ h)

/-- A float resolve call that returns keeps the registers of the table inside
the store and disjoint. -/
theorem resolve_step_registers {F : Type} [Zero F] (st st' : GpuProgramParameters F)
    (t : GpuLogicalBufferStruct) (L s v : Nat) (r : Option GpuLogicalIndexUse)
    (ht : st.mFloatLogicalToPhysical = some t)
    (hin : RegistersInside t.map st.mFloatConstants.length) (hd : RegistersDisjoint t.map)
    (hcall : st._getFloatConstantLogicalIndexUse L s v = Outcome.returned st' r) :
    ∃ t', st'.mFloatLogicalToPhysical = some t' ∧
      RegistersInside t'.map st'.mFloatConstants.length ∧ RegistersDisjoint t'.map := by
  cases hL : find L t.map with
  | none =>
    rcases Nat.eq_zero_or_pos s with h0 | hpos
    · subst h0
      rw [miss_returned st t L v ht hL] at hcall
      cases hcall
      exact ⟨t, ht, hin, hd⟩
    · by_cases h4 : 4 ≤ s
      · rw [firstUse_returned st t L s v ht hL h4] at hcall
        cases hcall
        obtain ⟨-, -, h3⟩ :=
          logicalInsertLoop_spec L s v st.mFloatConstants.length t.map (s / 4)
        have hnew : ∀ k u, find k ((List.range (s / 4)).foldl (logicalInsertStep L s v)
            ⟨t.map, st.mFloatConstants.length, none⟩).map = some u →
            find k t.map = some u ∨
            (find k t.map = none ∧ L ≤ k ∧ k < L + s / 4 ∧
              u.physicalIndex = st.mFloatConstants.length + 4 * (k - L)) := by
          intro k u hk
          rw [h3 k] at hk
          cases hm : find k t.map with
          | some x =>
            rw [hm] at hk
            exact Or.inl hk
          | none =>
            rw [hm] at hk
            simp only at hk
            by_cases hrk : L ≤ k ∧ k < L + s / 4
            · simp only [hrk, and_self, if_true, Option.some.injEq] at hk
              subst hk
              exact Or.inr ⟨rfl, hrk.1, hrk.2, rfl⟩
            · simp only [hrk, if_false] at hk
              cases hk
        refine ⟨_, rfl, ?_, ?_⟩
        · intro k u hk
          simp only [List.length_append, List.length_replicate]
          rcases hnew k u hk with hold | ⟨-, h1, h2, hp⟩
          · have := hin k u hold
            omega
          · omega
        · intro k₁ k₂ u₁ u₂ hne h₁ h₂
          rcases hnew k₁ u₁ h₁ with hold₁ | ⟨-, ha₁, hb₁, hp₁⟩ <;>
            rcases hnew k₂ u₂ h₂ with hold₂ | ⟨-, ha₂, hb₂, hp₂⟩
          · exact hd k₁ k₂ u₁ u₂ hne hold₁ hold₂
          · have := hin k₁ u₁ hold₁
            omega
          · have := hin k₂ u₂ hold₂
            omega
          · omega
      · rw [firstUse_small st t L s v ht hL hpos (by omega)] at hcall
        cases hcall
  | some u =>
    by_cases hlt : u.currentSize < s
    · by_cases hp : u.physicalIndex ≤ st.mFloatConstants.length
      · rw [regrow_returned st t u L s v ht hL hlt hp] at hcall
        cases hcall
        have hmoved := registers_of_moved t.map
          (modify L
            (fun w : GpuLogicalIndexUse =>
              { w with currentSize := w.currentSize + (s - u.currentSize), variability := v })
            (shiftLogicalIndexes u.physicalIndex (s - u.currentSize) t.map))
          st.mFloatConstants.length
          (st.mFloatConstants.length + (s - u.currentSize))
          (fun p => if p > u.physicalIndex then p + (s - u.currentSize) else p)
          (by
            intro k u' hk
            simp only [find_modify, shiftLogicalIndexes, find_forEach] at hk
            cases hm : find k t.map with
            | none =>
              rw [hm] at hk
              by_cases e : L = k
              · subst e
                rw [hm] at hk
                simp at hk
              · simp [e] at hk
            | some w =>
              refine ⟨w, rfl, ?_⟩
              rw [hm] at hk
              by_cases e : L = k
              · subst e
                rw [hm] at hk
                simp only [if_true, Option.map_some', Option.some.injEq] at hk
                subst hk
                by_cases hgt : w.physicalIndex > u.physicalIndex <;> simp [hgt]
              · simp only [e, if_false, Option.map_some', Option.some.injEq] at hk
                subst hk
                by_cases hgt : w.physicalIndex > u.physicalIndex <;> simp [hgt])
          (by
            intro a b hab
            simp only
            split <;> split <;> omega)
          (by
            intro a ha
            simp only
            split <;> omega)
          hin hd
        refine ⟨_, rfl, ?_, hmoved.2⟩
        have hlen : (st.mFloatConstants.take u.physicalIndex ++
            List.replicate (s - u.currentSize) (0 : F) ++
            st.mFloatConstants.drop u.physicalIndex).length =
            st.mFloatConstants.length + (s - u.currentSize) := by
          simp only [List.length_append, List.length_take, List.length_replicate,
            List.length_drop]
          omega
        simp only [hlen]
        exact hmoved.1
      · rw [regrow_undefined st t u L s v ht hL hlt hp] at hcall
        cases hcall
    · rw [reuse_returned st t u L s v ht hL (by omega)] at hcall
      cases hcall
      have hmoved := registers_of_moved t.map
        (modify L (fun w : GpuLogicalIndexUse => { w with variability := v }) t.map)
        st.mFloatConstants.length st.mFloatConstants.length (fun p => p)
        (by
          intro k u' hk
          simp only [find_modify] at hk
          cases hm : find k t.map with
          | none =>
            rw [hm] at hk
            by_cases e : L = k
            · subst e
              rw [hm] at hk
              simp at hk
            · simp [e] at hk
          | some w =>
            refine ⟨w, rfl, ?_⟩
            rw [hm] at hk
            by_cases e : L = k
            · subst e
              rw [hm] at hk
              simp only [if_true, Option.map_some', Option.some.injEq] at hk
              subst hk
              rfl
            · simp only [e, if_false, Option.some.injEq] at hk
              subst hk
              rfl)
        (fun a b h => h) (fun a h => h) hin hd
      exact ⟨_, rfl, hmoved.1, hmoved.2⟩

/-- A sequence of float resolve calls that returns keeps the registers of the
table inside the store and disjoint. -/
theorem resolveSequence_registers {F : Type} [Zero F] (calls : List (Nat × Nat × Nat)) :
    ∀ (st st' : GpuProgramParameters F) (t : GpuLogicalBufferStruct),
      st.mFloatLogicalToPhysical = some t →
      RegistersInside t.map st.mFloatConstants.length → RegistersDisjoint t.map →
      st.resolveSequence calls = Outcome.returned st' () →
      ∃ t', st'.mFloatLogicalToPhysical = some t' ∧
        RegistersInside t'.map st'.mFloatConstants.length ∧ RegistersDisjoint t'.map := by
  induction calls with
  | nil =>
    intro st st' t ht hin hd hseq
    simp only [GpuProgramParameters.resolveSequence] at hseq
    cases hseq
    exact ⟨t, ht, hin, hd⟩
  | cons c rest ih =>
    intro st st' t ht hin hd hseq
    obtain ⟨L, s, v⟩ := c
    simp only [GpuProgramParameters.resolveSequence] at hseq
    cases hcall : st._getFloatConstantLogicalIndexUse L s v with
    | returned st₁ r =>
      rw [hcall] at hseq
      obtain ⟨t₁, ht₁, hin₁, hd₁⟩ := resolve_step_registers st st₁ t L s v r ht hin hd hcall
      exact ih st₁ st' t₁ ht₁ hin₁ hd₁ hseq
    | threw st₁ => rw [hcall] at hseq; cases hseq
    | assertFailed st₁ => rw [hcall] at hseq; cases hseq
    | undefined => rw [hcall] at hseq; cases hseq

/-- Int side, re-resolution beyond the recorded size of an entry that lies
past the end of the store: `std::advance` moves the iterator past the end. -/
theorem intRegrow_undefined {F : Type} (st : GpuProgramParameters F)
    (t : GpuLogicalBufferStruct) (u : GpuLogicalIndexUse) (L r v : Nat)
    (ht : st.mIntLogicalToPhysical = some t)
    (hL : find L t.map = some u) (hlt : u.currentSize < r)
    (hp : ¬ u.physicalIndex ≤ st.mIntConstants.length) :
    st._getIntConstantLogicalIndexUse L r v = Outcome.undefined := by
  simp only [GpuProgramParameters._getIntConstantLogicalIndexUse, ht, hL, hlt, if_true, hp,
    if_false]

/-! ## Claims -/

/-- Claim C1, at the failing input: on an empty float table and store, the
first resolution of logical index 0 with requestedSize 1 does not return an
entry.  The mapping loop runs `1 / 4 = 0` times, so `insertedIterator` is never
assigned, and the call uses it. -/
theorem firstUse_requestedSize_one_undefined :
    StdMap.find 0 ([] : List (Nat × GpuLogicalIndexUse)) = none ∧
    exampleEmpty._getFloatConstantLogicalIndexUse 0 1 0 = Outcome.undefined := by
  decide

/-- Claim C2 at the failing input: with requestedSize 1 on an empty table the
run of `1 / 4 = 0` logical indices is unmapped beforehand, and the claim has the
table afterwards map no additional logical index; the mapping loop of lines
433-444 does not run, `insertedIterator` is used without having been assigned,
and the call has no defined result, so there is no table afterwards. -/
theorem firstUse_mapsRun_fails_below_four :
    exampleEmpty.mFloatLogicalToPhysical = some ⟨[], 0⟩ ∧
    exampleEmpty._getFloatConstantLogicalIndexUse 0 1 0 = Outcome.undefined ∧
    ¬ FirstUseMapsRun exampleEmpty 0 1 0 := by
  refine ⟨rfl, by decide, ?_⟩
  intro h
  obtain ⟨st', r, t', hcall, -⟩ := h ⟨[], 0⟩ rfl rfl (by intro k hk; omega)
  rw [firstUse_small exampleEmpty ⟨[], 0⟩ 0 1 0 rfl rfl (by decide) (by decide)] at hcall
  cases hcall

/-- Where the mapping loop assigns the iterator the code maps the run: for
requestedSize 0 or at least 4, a first use of
logical index `L` whose run `L .. L + s/4 - 1` is unmapped returns, maps
logical `L + k` to physical `base + 4k` for every `k < s/4` (base the old store
length), and leaves the mapping of every other logical index as it was. -/
theorem firstUse_mapsRun {F : Type} [Zero F] (st : GpuProgramParameters F) (L s v : Nat)
    (hs : s = 0 ∨ 4 ≤ s) : FirstUseMapsRun st L s v := by
  intro t ht hL hfree
  rcases hs with h0 | h4
  · subst h0
    refine ⟨st, none, t, ?_, ht, ?_, ?_⟩
    · simp [GpuProgramParameters._getFloatConstantLogicalIndexUse, ht, hL]
    · intro k hk; omega
    · intro key _; rfl
  · obtain ⟨-, -, h3⟩ := logicalInsertLoop_spec L s v st.mFloatConstants.length t.map (s / 4)
    refine ⟨_, _, _, firstUse_returned st t L s v ht hL h4, rfl, ?_, ?_⟩
    · intro k hk
      have := h3 (L + k)
      rw [hfree k hk] at this
      have hr : L ≤ L + k ∧ L + k < L + s / 4 := by omega
      simpa [hr] using this
    · intro key hkey
      have := h3 key
      have hr : ¬ (L ≤ key ∧ key < L + s / 4) := by omega
      rw [this]
      cases find key t.map with
      | some x => rfl
      | none => simp [hr]

/-- The scenario of the spec: resolving logical index 5 with requestedSize 16 on an
empty table returns physical index 0, makes the store and the cached buffer size
16, and maps 5, 6, 7, 8 to 0, 4, 8, 12. -/
theorem firstUse_mapsRun_witness :
    (16 = 0 ∨ 4 ≤ 16) ∧
    find 5 ([] : List (Nat × GpuLogicalIndexUse)) = none ∧
    (∀ k, k < 16 / 4 → find (5 + k) ([] : List (Nat × GpuLogicalIndexUse)) = none) ∧
    (∃ st' r t',
      exampleEmpty._getFloatConstantLogicalIndexUse 5 16 1 = Outcome.returned st' r ∧
      st'.mFloatLogicalToPhysical = some t' ∧
      (∀ k, k < 16 / 4 →
        find (5 + k) t'.map = some ⟨exampleEmpty.mFloatConstants.length + 4 * k, 16, 1⟩) ∧
      (∀ key, (key < 5 ∨ 5 + 16 / 4 ≤ key) →
        find key t'.map = find key ([] : List (Nat × GpuLogicalIndexUse)))) ∧
    exampleEmpty._getFloatConstantLogicalIndexUse 5 16 1 =
      Outcome.returned
        { exampleEmpty with
          mFloatConstants := List.replicate 16 0
          mFloatLogicalToPhysical := some
            ⟨[(5, ⟨0, 16, 1⟩), (6, ⟨4, 16, 1⟩), (7, ⟨8, 16, 1⟩), (8, ⟨12, 16, 1⟩)], 16⟩ }
        (some ⟨0, 16, 1⟩) :=
  ⟨Or.inr (by decide), rfl, fun _ _ => rfl,
    firstUse_mapsRun exampleEmpty 5 16 1 (Or.inr (by decide)) ⟨[], 0⟩ rfl rfl (fun _ _ => rfl),
    by decide⟩

/-- Claim C3: re-resolving a mapped logical index with requestedSize at most
its recorded size returns the same physical index and leaves the float store,
the cached buffer size, every entry's physical index and size, and the registry
unchanged. -/
theorem reuse_within_size_keeps_layout {F : Type} [Zero F] (st : GpuProgramParameters F)
    (t : GpuLogicalBufferStruct) (u : GpuLogicalIndexUse) (L r v : Nat)
    (ht : st.mFloatLogicalToPhysical = some t)
    (hL : find L t.map = some u) (hle : r ≤ u.currentSize) :
    ∃ st' u' t',
      st._getFloatConstantLogicalIndexUse L r v = Outcome.returned st' (some u') ∧
      u'.physicalIndex = u.physicalIndex ∧
      st'.mFloatConstants = st.mFloatConstants ∧
      st'.mFloatLogicalToPhysical = some t' ∧
      t'.bufferSize = t.bufferSize ∧
      (∀ key, (find key t'.map).map (fun e => (e.physicalIndex, e.currentSize)) =
        (find key t.map).map (fun e => (e.physicalIndex, e.currentSize))) ∧
      st'.mNamedConstants = st.mNamedConstants := by
  refine ⟨_, _, _, reuse_returned st t u L r v ht hL hle, rfl, rfl, rfl, rfl, ?_, rfl⟩
  intro key
  simp only [find_modify]
  by_cases e : L = key
  · subst e
    simp [hL]
  · simp [e]

/-- Witness for C3: logical index 3 of `exampleMapped` (physical 4, size 4)
re-resolved with requestedSize 4. -/
theorem reuse_within_size_keeps_layout_witness :
    exampleMapped.mFloatLogicalToPhysical = some exampleTable ∧
    find 3 exampleTable.map = some ⟨4, 4, 1⟩ ∧
    ∃ st' u' t',
      exampleMapped._getFloatConstantLogicalIndexUse 3 4 9 = Outcome.returned st' (some u') ∧
      u'.physicalIndex = 4 ∧
      st'.mFloatConstants = exampleMapped.mFloatConstants ∧
      st'.mFloatLogicalToPhysical = some t' ∧
      t'.bufferSize = exampleTable.bufferSize ∧
      (∀ key, (find key t'.map).map (fun e => (e.physicalIndex, e.currentSize)) =
        (find key exampleTable.map).map (fun e => (e.physicalIndex, e.currentSize))) ∧
      st'.mNamedConstants = exampleMapped.mNamedConstants :=
  ⟨rfl, by decide,
    reuse_within_size_keeps_layout exampleMapped exampleTable ⟨4, 4, 1⟩ 3 4 9 rfl
      (by decide) (by decide)⟩

/-- Claim C4 at the failing input: a parameter object is assigned from another
one whose table maps logical 0 and 1 to physical 0 and 4 (the stores are copied,
the table is shared); the other object then grows logical index 0 to 12
elements, which moves logical 1 to physical 12 in the shared table; the copy,
whose own store still holds 8 floats, re-resolves logical index 1 (recorded
size 4) with requestedSize 8, and `std::advance(insertPos, 12)` of line 467
moves past the end of its store: the call has no defined result, where the claim
has it return physical index 12 and grow the store by 4. -/
theorem regrow_past_store_undefined :
    exampleEmpty.resolveSequence [(0, 4, 1), (1, 4, 1)] = Outcome.returned exampleSource () ∧
    (exampleFresh.assign exampleSource).mFloatConstants = exampleSource.mFloatConstants ∧
    (exampleFresh.assign exampleSource).mFloatLogicalToPhysical =
      exampleSource.mFloatLogicalToPhysical ∧
    exampleSource.resolveSequence [(0, 12, 1)] = Outcome.returned exampleSourceGrown () ∧
    exampleCopy.mFloatConstants.length = 8 ∧
    find 1 [(0, (⟨0, 12, 1⟩ : GpuLogicalIndexUse)), (1, ⟨12, 4, 1⟩)] = some ⟨12, 4, 1⟩ ∧
    exampleCopy._getFloatConstantLogicalIndexUse 1 8 1 = Outcome.undefined := by
  refine ⟨by decide, by decide, by decide, by decide, by decide, by decide, by decide⟩

/-- For an entry inside the store the code does what claim C4 says:
re-resolving a mapped logical index (physical index `p` inside
the store, recorded size `c`) with requestedSize `r > c` returns physical index
`p`, records size `r`, adds `r - c` to the physical index of every table entry
and every float definition that was beyond `p`, keeps every other physical
index, and adds `r - c` to the store length, to the cached buffer size and to
the registry's float buffer size. -/
theorem regrow_shifts_later_entries {F : Type} [Zero F] (st : GpuProgramParameters F)
    (t : GpuLogicalBufferStruct) (u : GpuLogicalIndexUse) (L r v : Nat)
    (ht : st.mFloatLogicalToPhysical = some t)
    (hL : find L t.map = some u) (hlt : u.currentSize < r)
    (hp : u.physicalIndex ≤ st.mFloatConstants.length) :
    ∃ st' u' t',
      st._getFloatConstantLogicalIndexUse L r v = Outcome.returned st' (some u') ∧
      st'.mFloatLogicalToPhysical = some t' ∧
      find L t'.map = some u' ∧
      u'.physicalIndex = u.physicalIndex ∧
      u'.currentSize = r ∧
      (∀ key e, find key t.map = some e →
        ∃ e', find key t'.map = some e' ∧
          e'.physicalIndex =
            if e.physicalIndex > u.physicalIndex
            then e.physicalIndex + (r - u.currentSize) else e.physicalIndex) ∧
      (∀ key, find key t.map = none → find key t'.map = none) ∧
      (∀ nc, st.mNamedConstants = some nc →
        ∃ nc', st'.mNamedConstants = some nc' ∧
          nc'.floatBufferSize = nc.floatBufferSize + (r - u.currentSize) ∧
          (∀ name d, find name nc.map = some d →
            ∃ d', find name nc'.map = some d' ∧
              d'.physicalIndex =
                if d.isFloat = true ∧ d.physicalIndex > u.physicalIndex
                then d.physicalIndex + (r - u.currentSize) else d.physicalIndex)) ∧
      st'.mFloatConstants.length = st.mFloatConstants.length + (r - u.currentSize) ∧
      t'.bufferSize = t.bufferSize + (r - u.currentSize) := by
  refine ⟨_, _, _, regrow_returned st t u L r v ht hL hlt hp, rfl, ?_, rfl, rfl, ?_, ?_, ?_, ?_, rfl⟩
  · rw [find_modify, shiftLogicalIndexes, find_forEach, hL]
    have : u.currentSize + (r - u.currentSize) = r := by omega
    simp [this]
  · intro key e he
    simp only [find_modify, shiftLogicalIndexes, find_forEach]
    by_cases hk : L = key
    · subst hk
      rw [hL] at he
      cases he
      simp [hL]
    · simp only [hk, if_false, he, Option.map_some']
      by_cases hg : e.physicalIndex > u.physicalIndex
      · exact ⟨_, rfl, by simp [hg]⟩
      · exact ⟨_, rfl, by simp [hg]⟩
  · intro key hkey
    simp only [find_modify, shiftLogicalIndexes, find_forEach]
    by_cases hk : L = key
    · subst hk; rw [hL] at hkey; cases hkey
    · simp [hk, hkey]
  · intro nc hnc
    refine ⟨shiftFloatDefinitions u.physicalIndex (r - u.currentSize) nc, by simp [hnc], rfl, ?_⟩
    intro name d hd
    simp only [shiftFloatDefinitions, find_forEach, hd, Option.map_some']
    by_cases hg : d.isFloat = true ∧ d.physicalIndex > u.physicalIndex
    · refine ⟨_, rfl, ?_⟩
      simp [hg.1, hg.2]
    · refine ⟨_, rfl, ?_⟩
      rw [if_neg hg]
      by_cases h1 : d.isFloat = true
      · have h2 : ¬ d.physicalIndex > u.physicalIndex := fun h => hg ⟨h1, h⟩
        simp [h1, h2]
      · simp [h1]
  · simp only [List.length_append, List.length_take, List.length_replicate, List.length_drop]
    omega

/-- Logical index 2 of `exampleMapped` (physical 0, size 4) re-resolved with
requestedSize 8. -/
theorem regrow_shifts_later_entries_witness :
    exampleMapped.mFloatLogicalToPhysical = some exampleTable ∧
    find 2 exampleTable.map = some ⟨0, 4, 1⟩ ∧
    ∃ st' u' t',
      exampleMapped._getFloatConstantLogicalIndexUse 2 8 5 = Outcome.returned st' (some u') ∧
      st'.mFloatLogicalToPhysical = some t' ∧
      find 2 t'.map = some u' ∧
      u'.physicalIndex = 0 ∧
      u'.currentSize = 8 ∧
      (∀ key e, find key exampleTable.map = some e →
        ∃ e', find key t'.map = some e' ∧
          e'.physicalIndex =
            if e.physicalIndex > 0 then e.physicalIndex + (8 - 4) else e.physicalIndex) ∧
      (∀ key, find key exampleTable.map = none → find key t'.map = none) ∧
      (∀ nc, exampleMapped.mNamedConstants = some nc →
        ∃ nc', st'.mNamedConstants = some nc' ∧
          nc'.floatBufferSize = nc.floatBufferSize + (8 - 4) ∧
          (∀ name d, find name nc.map = some d →
            ∃ d', find name nc'.map = some d' ∧
              d'.physicalIndex =
                if d.isFloat = true ∧ d.physicalIndex > 0
                then d.physicalIndex + (8 - 4) else d.physicalIndex)) ∧
      st'.mFloatConstants.length = exampleMapped.mFloatConstants.length + (8 - 4) ∧
      t'.bufferSize = exampleTable.bufferSize + (8 - 4) :=
  ⟨rfl, by decide,
    regrow_shifts_later_entries exampleMapped exampleTable ⟨0, 4, 1⟩ 2 8 5 rfl
      (by decide) (by decide) (by decide)⟩

/-- Claim C5: resolving an unmapped logical index with requestedSize 0 returns
the null entry without any error, `_getFloatConstantPhysicalIndex` returns 0,
and the parameter object (store, table, registry) is unchanged. -/
theorem unmapped_zero_size_no_binding {F : Type} [Zero F] (st : GpuProgramParameters F)
    (t : GpuLogicalBufferStruct) (L v : Nat)
    (ht : st.mFloatLogicalToPhysical = some t) (hL : find L t.map = none) :
    st._getFloatConstantLogicalIndexUse L 0 v = Outcome.returned st none ∧
    st._getFloatConstantPhysicalIndex L 0 v = Outcome.returned st 0 := by
  have h : st._getFloatConstantLogicalIndexUse L 0 v = Outcome.returned st none := by
    simp [GpuProgramParameters._getFloatConstantLogicalIndexUse, ht, hL]
  exact ⟨h, by simp [GpuProgramParameters._getFloatConstantPhysicalIndex, h]⟩

/-- Witness for C5: logical index 7 is unmapped in `exampleMapped`. -/
theorem unmapped_zero_size_no_binding_witness :
    find 7 exampleTable.map = none ∧
    exampleMapped._getFloatConstantLogicalIndexUse 7 0 3 =
      Outcome.returned exampleMapped none ∧
    exampleMapped._getFloatConstantPhysicalIndex 7 0 3 = Outcome.returned exampleMapped 0 :=
  ⟨by decide, unmapped_zero_size_no_binding exampleMapped exampleTable 7 3 rfl (by decide)⟩

/-- Claim C6 fails as stated: for array size 20 with the generate-all flag
disabled the call does not add min(20, 16) = 16 entries; it adds `p[0]` only,
and `p[1]` and `p[15]` are unknown afterwards. -/
theorem generate_capped_counterexample :
    (∀ i, i < exampleArray20.arraySize →
      find (arrayEntryName "p" i) exampleRegistry.map = none) ∧
    ¬ AddsArrayEntries exampleRegistry
      (GpuNamedConstants.generateConstantDefinitionArrayEntries false exampleRegistry "p"
        exampleArray20) "p" (min exampleArray20.arraySize 16) ∧
    find "p[1]"
      (GpuNamedConstants.generateConstantDefinitionArrayEntries false exampleRegistry "p"
        exampleArray20).map = none ∧
    find "p[15]"
      (GpuNamedConstants.generateConstantDefinitionArrayEntries false exampleRegistry "p"
        exampleArray20).map = none := by
  refine ⟨fun i _ => rfl, ?_, by decide, by decide⟩
  intro h
  have := h.1
  revert this
  decide

/-- Claim C6, amended: with the generate-all flag disabled and the per-index
names not yet in the registry, the call adds exactly the `A` entries
`p[0] .. p[A-1]` when `A <= 16`, and exactly the one entry `p[0]` when
`A > 16`. -/
theorem generate_capped (old : GpuNamedConstants) (p : String)
    (baseDef : GpuConstantDefinition)
    (hfree : ∀ i, i < baseDef.arraySize → find (arrayEntryName p i) old.map = none) :
    AddsArrayEntries old
      (GpuNamedConstants.generateConstantDefinitionArrayEntries false old p baseDef) p
      (if baseDef.arraySize ≤ 16 then baseDef.arraySize else 1) := by
  have hk : (if baseDef.arraySize ≤ 16 || false then baseDef.arraySize else 1) =
      (if baseDef.arraySize ≤ 16 then baseDef.arraySize else 1) := by simp
  have hfree' : ∀ i, i < (if baseDef.arraySize ≤ 16 then baseDef.arraySize else 1) →
      find (arrayEntryName p i) old.map = none := by
    intro i hi
    apply hfree
    split at hi <;> omega
  obtain ⟨h1, h2, h3⟩ := generate_spec false old p baseDef _ hk hfree'
  exact ⟨h1, fun i hi => by rw [h2 i hi]; rfl, h3⟩

/-- Witness for C6: for array size 20 exactly one entry, `p[0]`, is added, and
`p[16]` is unknown afterwards. -/
theorem generate_capped_witness :
    (∀ i, i < exampleArray20.arraySize →
      find (arrayEntryName "p" i) exampleRegistry.map = none) ∧
    AddsArrayEntries exampleRegistry
      (GpuNamedConstants.generateConstantDefinitionArrayEntries false exampleRegistry "p"
        exampleArray20) "p" 1 ∧
    (GpuNamedConstants.generateConstantDefinitionArrayEntries false exampleRegistry "p"
        exampleArray20).map = [("p[0]", { exampleArray20 with arraySize := 1 })] ∧
    find "p[16]"
      (GpuNamedConstants.generateConstantDefinitionArrayEntries false exampleRegistry "p"
        exampleArray20).map = none :=
  ⟨fun _ _ => rfl, generate_capped exampleRegistry "p" exampleArray20 (fun _ _ => rfl),
    by decide, by decide⟩

/-- Claim C8, at the failing input: for a base definition of array size 0 the
loop bound is set to 0, nothing is inserted, and `p[0]` is not in the registry
after the call. -/
theorem generate_empty_array_no_first_entry :
    find (arrayEntryName "p" 0)
      (GpuNamedConstants.generateConstantDefinitionArrayEntries false exampleRegistry "p"
        exampleArray0).map = none ∧
    (GpuNamedConstants.generateConstantDefinitionArrayEntries false exampleRegistry "p"
        exampleArray0).map = [] := by
  decide

/-- Claim C9: for a name that is not in the registry, `setNamedConstant(name,
float)` throws exactly when the ignore-missing flag is false, and otherwise
returns; in both cases the parameter object is the one before the call. -/
theorem setNamedConstant_float_unknown {F : Type} (st : GpuProgramParameters F) (nc : GpuNamedConstants)
    (name : String) (val : F)
    (hnc : st.mNamedConstants = some nc) (hname : find name nc.map = none) :
    ((∃ st', st.setNamedConstant_float name val = Outcome.threw st') ↔
      st.mIgnoreMissingParams = false) ∧
    (st.mIgnoreMissingParams = false →
      st.setNamedConstant_float name val = Outcome.threw st) ∧
    (st.mIgnoreMissingParams = true →
      st.setNamedConstant_float name val = Outcome.returned st ()) := by
  cases hflag : st.mIgnoreMissingParams with
  | false =>
    have h : st.setNamedConstant_float name val = Outcome.threw st := by
      simp [GpuProgramParameters.setNamedConstant_float,
        GpuProgramParameters._findNamedConstantDefinition, hnc, hname, hflag]
    exact ⟨⟨fun _ => rfl, fun _ => ⟨st, h⟩⟩, fun _ => h, fun h' => absurd h' (by decide)⟩
  | true =>
    have h : st.setNamedConstant_float name val = Outcome.returned st () := by
      simp [GpuProgramParameters.setNamedConstant_float,
        GpuProgramParameters._findNamedConstantDefinition, hnc, hname, hflag]
    refine ⟨⟨?_, fun h' => absurd h' (by decide)⟩, fun h' => absurd h' (by decide),
      fun _ => h⟩
    rintro ⟨st', h'⟩
    rw [h] at h'
    cases h'

/-- Witness for C9: ignore-missing enabled, `setNamedConstant("doesNotExist",
1.0f)`. -/
theorem setNamedConstant_float_unknown_witness :
    exampleMapped.mNamedConstants = some exampleNamed ∧
    find "doesNotExist" exampleNamed.map = none ∧
    ((∃ st', exampleMapped.setNamedConstant_float "doesNotExist" 1 = Outcome.threw st') ↔
      exampleMapped.mIgnoreMissingParams = false) ∧
    (exampleMapped.mIgnoreMissingParams = false →
      exampleMapped.setNamedConstant_float "doesNotExist" 1 = Outcome.threw exampleMapped) ∧
    (exampleMapped.mIgnoreMissingParams = true →
      exampleMapped.setNamedConstant_float "doesNotExist" 1 =
        Outcome.returned exampleMapped ()) :=
  ⟨rfl, by decide,
    setNamedConstant_float_unknown exampleMapped exampleNamed "doesNotExist" 1 rfl
      (by decide)⟩

/-- Claim C10: after `_writeRawConstant(p, m, 16)` with `p + 16` inside the
store, `_readRawConstants(p, 16)` returns 16 elements whose element `4 * i + j`
is `m[j][i]` when the transpose flag is enabled and `m[i][j]` when it is
disabled. -/
theorem matrix4_write_read_roundtrip {F : Type} (st : GpuProgramParameters F) (m : Matrix4 F) (p : Nat)
    (hp : p + 16 ≤ st.mFloatConstants.length) :
    ∃ st' l,
      st._writeRawConstant_Matrix4 p m 16 = Outcome.returned st' () ∧
      st'._readRawConstants p 16 = Outcome.returned st' l ∧
      l.length = 16 ∧
      ∀ i j : Fin 4,
        l[4 * i.val + j.val]? =
          some (if st.mTransposeMatrices = true then m.m j i else m.m i j) := by
  cases hflag : st.mTransposeMatrices with
  | true =>
    obtain ⟨st', h1, h2⟩ := write_then_read st p m.transpose.row0 16 hp
      (Matrix4.row0_length _).symm
    refine ⟨st', m.transpose.row0, ?_, h2, Matrix4.row0_length _, ?_⟩
    · simpa [GpuProgramParameters._writeRawConstant_Matrix4, hflag] using h1
    · intro i j
      rw [Matrix4.row0_getElem]
      rfl
  | false =>
    obtain ⟨st', h1, h2⟩ := write_then_read st p m.row0 16 hp (Matrix4.row0_length _).symm
    refine ⟨st', m.row0, ?_, h2, Matrix4.row0_length _, ?_⟩
    · simpa [GpuProgramParameters._writeRawConstant_Matrix4, hflag] using h1
    · intro i j
      rw [Matrix4.row0_getElem]
      rfl

/-- Witness for C10: `exampleMatrix` written at physical index 2 of a store of
20 floats with the transpose flag enabled. -/
theorem matrix4_write_read_roundtrip_witness :
    2 + 16 ≤ exampleTransposing.mFloatConstants.length ∧
    ∃ st' l,
      exampleTransposing._writeRawConstant_Matrix4 2 exampleMatrix 16 =
        Outcome.returned st' () ∧
      st'._readRawConstants 2 16 = Outcome.returned st' l ∧
      l.length = 16 ∧
      ∀ i j : Fin 4,
        l[4 * i.val + j.val]? =
          some (if exampleTransposing.mTransposeMatrices = true
            then exampleMatrix.m j i else exampleMatrix.m i j) :=
  ⟨by decide, matrix4_write_read_roundtrip exampleTransposing exampleMatrix 2 (by decide)⟩

/-- Claim C11: after the double overload of the raw write of `N` doubles at `p`,
with `p + N` inside the store, reading `N` floats back from `p` gives the
narrowed doubles in the same order, the store keeps its length, and every
element outside `[p, p + N)` is unchanged; `setNamedConstant` with a double
array of `count * multiple = N` elements on a name at physical index `p` gives
the same result. -/
theorem double_write_narrows {F D : Type} (narrow : D → F) (st : GpuProgramParameters F)
    (p : Nat) (val : List D) (hp : p + val.length ≤ st.mFloatConstants.length) :
    ∃ st' l,
      st._writeRawConstants_double narrow p val val.length = Outcome.returned st' () ∧
      st'._readRawConstants p val.length = Outcome.returned st' l ∧
      l = val.map narrow ∧
      st'.mFloatConstants.length = st.mFloatConstants.length ∧
      (∀ j, (j < p ∨ p + val.length ≤ j) →
        st'.mFloatConstants[j]? = st.mFloatConstants[j]?) ∧
      (∀ name nc d count multiple,
        st.mNamedConstants = some nc → find name nc.map = some d →
        d.physicalIndex = p → count * multiple = val.length →
        st.setNamedConstant_doubles narrow name val count multiple =
          Outcome.returned st' ()) := by
  obtain ⟨fl', h1, h2, h3⟩ := writeDouble_returned narrow st p val val.length (le_refl _) hp
  refine ⟨{ st with mFloatConstants := fl' }, (fl'.drop p).take val.length, h1, ?_, ?_, h2,
    ?_, ?_⟩
  · have hp2 : p + val.length ≤ fl'.length := by rw [h2]; exact hp
    simp only [GpuProgramParameters._readRawConstants, wrapped_le _ _ hp2, hp2, if_true]
  · apply List.ext_getElem?
    intro i
    by_cases hi : i < val.length
    · have hr : p ≤ p + i ∧ p + i < p + val.length := by omega
      simp [List.getElem?_take, hi, List.getElem?_drop, h3, hr]
    · have h4 : val.length ≤ i := by omega
      simp [List.getElem?_take, hi, List.getElem?_eq_none h4]
  · intro j hj
    have hr : ¬ (p ≤ j ∧ j < p + val.length) := by omega
    simp [h3, hr]
  · intro name nc d count multiple hnc hd hpd hcm
    simp only [GpuProgramParameters.setNamedConstant_doubles,
      withNamedConstant_of_mapped st nc name d _ hnc hd, hpd, hcm]
    exact h1

/-- Witness for C11: three doubles written at physical index 2 of
`exampleMapped`. -/
theorem double_write_narrows_witness :
    2 + [5, 6, 7].length ≤ exampleMapped.mFloatConstants.length ∧
    ∃ st' l,
      exampleMapped._writeRawConstants_double exampleNarrow 2 [5, 6, 7] [5, 6, 7].length =
        Outcome.returned st' () ∧
      st'._readRawConstants 2 [5, 6, 7].length = Outcome.returned st' l ∧
      l = [5, 6, 7].map exampleNarrow ∧
      st'.mFloatConstants.length = exampleMapped.mFloatConstants.length ∧
      (∀ j, (j < 2 ∨ 2 + [5, 6, 7].length ≤ j) →
        st'.mFloatConstants[j]? = exampleMapped.mFloatConstants[j]?) ∧
      (∀ name nc d count multiple,
        exampleMapped.mNamedConstants = some nc → find name nc.map = some d →
        d.physicalIndex = 2 → count * multiple = [5, 6, 7].length →
        exampleMapped.setNamedConstant_doubles exampleNarrow name [5, 6, 7] count multiple =
          Outcome.returned st' ()) :=
  ⟨by decide, double_write_narrows exampleNarrow exampleMapped 2 [5, 6, 7] (by decide)⟩

/-- Claim C12 fails on the code at `physicalIndex = 2^64 - 1`, `count = 1`, on a
store of 8 floats: the range is not inside the store, but the `size_t` sum in
the assertion of line 374 wraps around to 0, the assertion passes, and `memcpy`
writes outside the store; the claim has the call fail its precondition and
write nothing. -/
theorem float_write_wraps_past_assertion :
    exampleMapped.mFloatConstants.length = 8 ∧
    ¬ SIZE_MAX + 1 ≤ exampleMapped.mFloatConstants.length ∧
    (SIZE_MAX + 1) % 2 ^ 64 = 0 ∧
    exampleMapped._writeRawConstants SIZE_MAX [99] 1 = Outcome.undefined ∧
    exampleMapped._writeRawConstants SIZE_MAX [99] 1 ≠ Outcome.assertFailed exampleMapped := by
  refine ⟨by decide, by decide, by decide, by decide, by decide⟩

/-- What the float raw write of `n` source values at `p` does apart from the
wrap-around: it returns exactly when `p + n` is inside the store; when the
wrapped sum exceeds the store length the assertion fails with the store as it
was; when it returns, the store keeps its length, elements `p .. p+n-1` are the
source values and every other element is unchanged. -/
theorem float_write_bounds {F : Type} (st : GpuProgramParameters F) (p : Nat)
    (val : List F) (n : Nat) (hn : n ≤ val.length) :
    ((∃ st', st._writeRawConstants p val n = Outcome.returned st' ()) ↔
      p + n ≤ st.mFloatConstants.length) ∧
    (¬ (p + n) % 2 ^ 64 ≤ st.mFloatConstants.length →
      st._writeRawConstants p val n = Outcome.assertFailed st) ∧
    (∀ st', st._writeRawConstants p val n = Outcome.returned st' () →
      st'.mFloatConstants.length = st.mFloatConstants.length ∧
      (∀ i, i < n → st'.mFloatConstants[p + i]? = val[i]?) ∧
      (∀ j, (j < p ∨ p + n ≤ j) → st'.mFloatConstants[j]? = st.mFloatConstants[j]?)) := by
  by_cases hp : p + n ≤ st.mFloatConstants.length
  · have hlen : (val.take n).length = n := by rw [List.length_take]; omega
    have hp' : p + (val.take n).length ≤ st.mFloatConstants.length := by omega
    have hw : st._writeRawConstants p val n = Outcome.returned
        { st with mFloatConstants := st.mFloatConstants.take p ++ val.take n ++
            st.mFloatConstants.drop (p + n) } () := by
      simp only [GpuProgramParameters._writeRawConstants, wrapped_le _ _ hp, hp, hn, if_true]
    refine ⟨⟨fun _ => hp, fun _ => ⟨_, hw⟩⟩, fun h => absurd (wrapped_le _ _ hp) h, ?_⟩
    intro st' hst'
    rw [hw] at hst'
    cases hst'
    have key := splice_lookup st.mFloatConstants (val.take n) p hp'
    rw [hlen] at key
    refine ⟨?_, ?_, ?_⟩
    · have := splice_length st.mFloatConstants (val.take n) p hp'
      rw [hlen] at this
      exact this
    · intro i hi
      have hr : p ≤ p + i ∧ p + i < p + n := by omega
      simp only [key, hr, and_self, if_true, Nat.add_sub_cancel_left, List.getElem?_take, hi]
    · intro j hj
      have hr : ¬ (p ≤ j ∧ j < p + n) := by omega
      simp only [key, hr, if_false]
  · have hw : ∀ st', st._writeRawConstants p val n ≠ Outcome.returned st' () := by
      intro st' h
      simp only [GpuProgramParameters._writeRawConstants, hp, if_false] at h
      split at h <;> cases h
    refine ⟨⟨?_, fun h => absurd h hp⟩, ?_, ?_⟩
    · rintro ⟨st', h⟩
      exact absurd h (hw st')
    · intro hwrap
      simp only [GpuProgramParameters._writeRawConstants, hwrap, if_false]
    · intro st' h
      exact absurd h (hw st')

/-- Three values written at physical index 2 of `exampleMapped`. -/
theorem float_write_bounds_witness :
    3 ≤ [5, 6, 7].length ∧
    ((∃ st', exampleMapped._writeRawConstants 2 [5, 6, 7] 3 = Outcome.returned st' ()) ↔
      2 + 3 ≤ exampleMapped.mFloatConstants.length) ∧
    (¬ (2 + 3) % 2 ^ 64 ≤ exampleMapped.mFloatConstants.length →
      exampleMapped._writeRawConstants 2 [5, 6, 7] 3 = Outcome.assertFailed exampleMapped) ∧
    (∀ st', exampleMapped._writeRawConstants 2 [5, 6, 7] 3 = Outcome.returned st' () →
      st'.mFloatConstants.length = exampleMapped.mFloatConstants.length ∧
      (∀ i, i < 3 → st'.mFloatConstants[2 + i]? = [5, 6, 7][i]?) ∧
      (∀ j, (j < 2 ∨ 2 + 3 ≤ j) →
        st'.mFloatConstants[j]? = exampleMapped.mFloatConstants[j]?)) :=
  ⟨by decide, float_write_bounds exampleMapped 2 [5, 6, 7] 3 (by decide)⟩

/-- Claim C13: `setConstant(L, val, count)` on an unmapped logical index with
`count >= 1` and `4 * count` values resolves `L` with requestedSize
`4 * count`; afterwards `L` is mapped to a physical index from which
`_readRawConstants` returns exactly `val`, and the floats stored before the call
are unchanged (the new store is the old one followed by `val`). -/
theorem setConstant_first_use {F : Type} [Zero F] (GPV_GLOBAL : Nat)
    (st : GpuProgramParameters F) (t : GpuLogicalBufferStruct) (L : Nat) (val : List F)
    (count : Nat)
    (ht : st.mFloatLogicalToPhysical = some t) (hL : find L t.map = none)
    (hcount : 1 ≤ count) (hval : val.length = 4 * count) :
    ∃ st' t' u,
      st.setConstant GPV_GLOBAL L val count = Outcome.returned st' () ∧
      st'.mFloatLogicalToPhysical = some t' ∧
      find L t'.map = some u ∧
      u.currentSize = 4 * count ∧
      st'._readRawConstants u.physicalIndex (4 * count) = Outcome.returned st' val ∧
      st'.mFloatConstants = st.mFloatConstants ++ val ∧
      (∀ j, j < st.mFloatConstants.length →
        st'.mFloatConstants[j]? = st.mFloatConstants[j]?) := by
  have h4 : 4 ≤ count * 4 := by omega
  have hfirst := firstUse_returned st t L (count * 4) GPV_GLOBAL ht hL h4
  obtain ⟨-, -, h3⟩ :=
    logicalInsertLoop_spec L (count * 4) GPV_GLOBAL st.mFloatConstants.length t.map
      (count * 4 / 4)
  have hfind := h3 L
  rw [hL] at hfind
  have hr : L ≤ L ∧ L < L + count * 4 / 4 := by omega
  simp only [hr, if_true, and_self, Nat.sub_self, Nat.mul_zero, Nat.add_zero] at hfind
  have hlen : (st.mFloatConstants ++ List.replicate (count * 4) (0 : F)).length =
      st.mFloatConstants.length + count * 4 := by simp
  have hsplice : (st.mFloatConstants ++ List.replicate (count * 4) (0 : F)).take
        st.mFloatConstants.length ++ val.take (count * 4) ++
        (st.mFloatConstants ++ List.replicate (count * 4) (0 : F)).drop
          (st.mFloatConstants.length + count * 4) = st.mFloatConstants ++ val := by
    rw [List.take_left' rfl, List.drop_of_length_le (by rw [hlen]),
      List.take_of_length_le (by omega), List.append_nil]
  refine ⟨{ st with
      mFloatConstants := st.mFloatConstants ++ val
      mFloatLogicalToPhysical := some
        { map := ((List.range (count * 4 / 4)).foldl
            (logicalInsertStep L (count * 4) GPV_GLOBAL)
            ⟨t.map, st.mFloatConstants.length, none⟩).map
          bufferSize := st.mFloatConstants.length + count * 4 } },
    _, ⟨st.mFloatConstants.length, count * 4, GPV_GLOBAL⟩, ?_, rfl, hfind, by
    show count * 4 = 4 * count; omega, ?_, rfl, ?_⟩
  · simp only [GpuProgramParameters.setConstant, ht, Option.isSome_some, if_true,
      GpuProgramParameters._getFloatConstantPhysicalIndex, hfirst,
      GpuProgramParameters._writeRawConstants, hlen, le_refl, Nat.mod_le, hsplice]
    have : count * 4 ≤ val.length := by omega
    simp [this]
  · have hle : st.mFloatConstants.length + 4 * count ≤ (st.mFloatConstants ++ val).length := by
      simp; omega
    simp only [GpuProgramParameters._readRawConstants, wrapped_le _ _ hle, hle, if_true]
    rw [List.drop_left' rfl, List.take_of_length_le (by omega)]
  · intro j hj
    simp [List.getElem?_append_left hj]

/-- Witness for C13: the first call of `exampleSequence` on `exampleEmpty`. -/
theorem setConstant_first_use_witness :
    find 0 ([] : List (Nat × GpuLogicalIndexUse)) = none ∧
    [1, 2, 3, 4, 5, 6, 7, 8].length = 4 * 2 ∧
    ∃ st' t' u,
      exampleEmpty.setConstant 1 0 [1, 2, 3, 4, 5, 6, 7, 8] 2 = Outcome.returned st' () ∧
      st'.mFloatLogicalToPhysical = some t' ∧
      find 0 t'.map = some u ∧
      u.currentSize = 4 * 2 ∧
      st'._readRawConstants u.physicalIndex (4 * 2) =
        Outcome.returned st' [1, 2, 3, 4, 5, 6, 7, 8] ∧
      st'.mFloatConstants = exampleEmpty.mFloatConstants ++ [1, 2, 3, 4, 5, 6, 7, 8] ∧
      (∀ j, j < exampleEmpty.mFloatConstants.length →
        st'.mFloatConstants[j]? = exampleEmpty.mFloatConstants[j]?) :=
  ⟨rfl, by decide,
    setConstant_first_use 1 exampleEmpty ⟨[], 0⟩ 0 [1, 2, 3, 4, 5, 6, 7, 8] 2 rfl rfl
      (by decide) (by decide)⟩

/-- Claim C14, at the failing input: starting from an empty store and table,
`setConstant(0, val, 2)` maps logical 0 and 1 to physical 0 and 4, each with
recorded size 8, in a store of 8 floats; `setConstant(1, val, 2)` then resolves
to physical index 4 without growth, and the raw write of 8 floats at 4 fails
its bounds assertion. -/
theorem setConstant_sequence_fails_bounds :
    exampleEmpty.setConstant 1 0 [1, 2, 3, 4, 5, 6, 7, 8] 2 =
      Outcome.returned exampleAfterFirstCall () ∧
    exampleAfterFirstCall._getFloatConstantPhysicalIndex 1 (2 * 4) 1 =
      Outcome.returned exampleAfterFirstCall 4 ∧
    ¬ (4 + 2 * 4 ≤ exampleAfterFirstCall.mFloatConstants.length) ∧
    exampleAfterFirstCall.setConstant 1 1 [11, 12, 13, 14, 15, 16, 17, 18] 2 =
      Outcome.assertFailed exampleAfterFirstCall ∧
    exampleEmpty.setConstantSequence 1 exampleSequence =
      Outcome.assertFailed exampleAfterFirstCall := by
  decide

/-- Claim C15: `_getIntConstantLogicalIndexUse` throws exactly when the object
has no int Logical Index Table, and the state at the throw is the state before
the call. -/
theorem int_resolve_throws_iff_no_table {F : Type} (st : GpuProgramParameters F)
    (L s v : Nat) :
    ((∃ st', st._getIntConstantLogicalIndexUse L s v = Outcome.threw st') ↔
      st.mIntLogicalToPhysical = none) ∧
    (∀ st', st._getIntConstantLogicalIndexUse L s v = Outcome.threw st' → st' = st) := by
  cases ht : st.mIntLogicalToPhysical with
  | none =>
    have h : st._getIntConstantLogicalIndexUse L s v = Outcome.threw st := by
      simp [GpuProgramParameters._getIntConstantLogicalIndexUse, ht]
    refine ⟨⟨fun _ => rfl, fun _ => ⟨st, h⟩⟩, ?_⟩
    intro st' h'
    rw [h] at h'
    cases h'
    rfl
  | some t =>
    have h : ∀ st', st._getIntConstantLogicalIndexUse L s v ≠ Outcome.threw st' := by
      intro st'
      simp only [GpuProgramParameters._getIntConstantLogicalIndexUse, ht]
      repeat' split
      all_goals simp
    refine ⟨⟨?_, fun h' => by cases h'⟩, ?_⟩
    · rintro ⟨st', h'⟩
      exact absurd h' (h st')
    · intro st' h'
      exact absurd h' (h st')

/-- Witness for C15: `exampleMapped` has no int table. -/
theorem int_resolve_throws_iff_no_table_witness :
    exampleMapped.mIntLogicalToPhysical = none ∧
    exampleMapped._getIntConstantLogicalIndexUse 0 4 1 = Outcome.threw exampleMapped ∧
    ((∃ st', exampleMapped._getIntConstantLogicalIndexUse 0 4 1 = Outcome.threw st') ↔
      exampleMapped.mIntLogicalToPhysical = none) ∧
    (∀ st', exampleMapped._getIntConstantLogicalIndexUse 0 4 1 = Outcome.threw st' →
      st' = exampleMapped) :=
  ⟨rfl, by decide, int_resolve_throws_iff_no_table exampleMapped 0 4 1⟩

/-- Claim C16 fails as stated: a freshly constructed parameter object has no
float table, and the float resolve calls return the null entry and physical
index 0 instead of failing. -/
theorem float_resolve_without_table_counterexample :
    exampleFresh.mFloatLogicalToPhysical = none ∧
    exampleFresh._getFloatConstantLogicalIndexUse 3 4 1 = Outcome.returned exampleFresh none ∧
    exampleFresh._getFloatConstantPhysicalIndex 3 4 1 = Outcome.returned exampleFresh 0 ∧
    ¬ (∃ st', exampleFresh._getFloatConstantLogicalIndexUse 3 4 1 = Outcome.threw st') ∧
    ¬ (∃ st', exampleFresh._getFloatConstantPhysicalIndex 3 4 1 = Outcome.threw st') := by
  refine ⟨rfl, by decide, by decide, ?_, ?_⟩
  · rintro ⟨st', h⟩
    have h' : exampleFresh._getFloatConstantLogicalIndexUse 3 4 1 =
        Outcome.returned exampleFresh none := by decide
    rw [h'] at h
    cases h
  · rintro ⟨st', h⟩
    have h' : exampleFresh._getFloatConstantPhysicalIndex 3 4 1 =
        Outcome.returned exampleFresh 0 := by decide
    rw [h'] at h
    cases h

/-- Claim C16, amended: on a parameter object without float Logical Index
Table, `_getFloatConstantLogicalIndexUse` returns the null entry and
`_getFloatConstantPhysicalIndex` returns 0, for every logical index,
requestedSize and variability, and the object is unchanged. -/
theorem float_resolve_without_table {F : Type} [Zero F] (st : GpuProgramParameters F)
    (L s v : Nat) (ht : st.mFloatLogicalToPhysical = none) :
    st._getFloatConstantLogicalIndexUse L s v = Outcome.returned st none ∧
    st._getFloatConstantPhysicalIndex L s v = Outcome.returned st 0 := by
  have h : st._getFloatConstantLogicalIndexUse L s v = Outcome.returned st none := by
    simp [GpuProgramParameters._getFloatConstantLogicalIndexUse, ht]
  exact ⟨h, by simp [GpuProgramParameters._getFloatConstantPhysicalIndex, h]⟩

/-- Witness for C16: the freshly constructed `exampleFresh`. -/
theorem float_resolve_without_table_witness :
    exampleFresh.mFloatLogicalToPhysical = none ∧
    exampleFresh._getFloatConstantLogicalIndexUse 3 4 1 = Outcome.returned exampleFresh none ∧
    exampleFresh._getFloatConstantPhysicalIndex 3 4 1 = Outcome.returned exampleFresh 0 :=
  ⟨rfl, float_resolve_without_table exampleFresh 3 4 1 rfl⟩

/-- Claim C17 fails as stated: on an object without registry and with the
ignore-missing flag set, `setNamedConstant(name, float)` returns without error
(and `hasNamedConstant`, with a lookup that does not throw by default, returns
false). -/
theorem named_api_without_registry_counterexample :
    exampleFreshIgnoring.mNamedConstants = none ∧
    exampleFreshIgnoring.setNamedConstant_float "doesNotExist" 1 =
      Outcome.returned exampleFreshIgnoring () ∧
    exampleFreshIgnoring.hasNamedConstant false "doesNotExist" =
      Outcome.returned exampleFreshIgnoring false ∧
    ¬ (∃ st', exampleFreshIgnoring.setNamedConstant_float "doesNotExist" 1 =
      Outcome.threw st') := by
  refine ⟨rfl, by decide, by decide, ?_⟩
  rintro ⟨st', h⟩
  have h' : exampleFreshIgnoring.setNamedConstant_float "doesNotExist" 1 =
      Outcome.returned exampleFreshIgnoring () := by decide
  rw [h'] at h
  cases h

/-- Claim C17, amended: on an object without registry, `getConstantDefinition`,
`getConstantDefinitions` and `getConstantDefinitionIterator` throw; every
`setNamedConstant` overload throws when the ignore-missing flag is false and
returns without any change when it is set; `hasNamedConstant` throws only if
the lookup throws by default, and otherwise returns false. -/
theorem named_api_without_registry {F D : Type} (newEntry : GpuTextureEntry)
    (narrow : D → F) (st : GpuProgramParameters F) (name : String)
    (hnc : st.mNamedConstants = none) :
    st.getConstantDefinition name = Outcome.threw st ∧
    st.getConstantDefinitions = Outcome.threw st ∧
    st.getConstantDefinitionIterator = Outcome.threw st ∧
    (∀ value : NamedConstantValue F D,
      st.setNamedConstant newEntry narrow name value =
        if st.mIgnoreMissingParams then Outcome.returned st () else Outcome.threw st) ∧
    (∀ defaultThrow,
      st.hasNamedConstant defaultThrow name =
        if defaultThrow then Outcome.threw st else Outcome.returned st false) := by
  refine ⟨?_, ?_, ?_, ?_, ?_⟩
  · simp [GpuProgramParameters.getConstantDefinition, hnc]
  · simp [GpuProgramParameters.getConstantDefinitions, hnc]
  · simp [GpuProgramParameters.getConstantDefinitionIterator, hnc]
  · intro value
    cases value <;>
      simp only [GpuProgramParameters.setNamedConstant,
        GpuProgramParameters.setNamedConstant_texture,
        GpuProgramParameters.setNamedConstant_samplerState,
        GpuProgramParameters.setNamedConstant_int,
        GpuProgramParameters.setNamedConstant_Vector4,
        GpuProgramParameters.setNamedConstant_Vector3,
        GpuProgramParameters.setNamedConstant_Vector2,
        GpuProgramParameters.setNamedConstant_Matrix4,
        GpuProgramParameters.setNamedConstant_Matrix4Array,
        GpuProgramParameters.setNamedConstant_Matrix3,
        GpuProgramParameters.setNamedConstant_floats,
        GpuProgramParameters.setNamedConstant_doubles,
        GpuProgramParameters.setNamedConstant_Color,
        GpuProgramParameters.setNamedConstant_ints,
        withNamedConstant_of_no_registry st name _ hnc]
    -- the float overload is written out in full
    cases hflag : st.mIgnoreMissingParams <;>
      simp [GpuProgramParameters.setNamedConstant_float,
        GpuProgramParameters._findNamedConstantDefinition, hnc, hflag]
  · intro defaultThrow
    cases defaultThrow <;>
      simp [GpuProgramParameters.hasNamedConstant,
        GpuProgramParameters._findNamedConstantDefinition, hnc]

/-- Witness for C17: `exampleFreshIgnoring` has no registry. -/
theorem named_api_without_registry_witness :
    exampleFreshIgnoring.mNamedConstants = none ∧
    exampleFreshIgnoring.getConstantDefinition "doesNotExist" =
      Outcome.threw exampleFreshIgnoring ∧
    exampleFreshIgnoring.getConstantDefinitions = Outcome.threw exampleFreshIgnoring ∧
    exampleFreshIgnoring.getConstantDefinitionIterator = Outcome.threw exampleFreshIgnoring ∧
    (∀ value : NamedConstantValue Int Nat,
      exampleFreshIgnoring.setNamedConstant ⟨none, 0⟩ exampleNarrow "doesNotExist" value =
        if exampleFreshIgnoring.mIgnoreMissingParams
        then Outcome.returned exampleFreshIgnoring ()
        else Outcome.threw exampleFreshIgnoring) ∧
    (∀ defaultThrow,
      exampleFreshIgnoring.hasNamedConstant defaultThrow "doesNotExist" =
        if defaultThrow then Outcome.threw exampleFreshIgnoring
        else Outcome.returned exampleFreshIgnoring false) :=
  ⟨rfl, named_api_without_registry ⟨none, 0⟩ exampleNarrow exampleFreshIgnoring
    "doesNotExist" rfl⟩

/-- Claim C18: for a name that resolves to a slot `p` inside the binding array,
`setNamedConstant(name, texture)` makes `getTexture(p)` return the texture and
keeps the sampler state of an entry already in the slot; `setNamedConstant(name,
samplerState)` makes `getSamplerState(p)` return the state and keeps the texture
of an entry already in the slot; an existing entry is assigned through, a new
entry is created only for a null slot; every other slot, the number of slots,
the float store and the int store are unchanged. -/
theorem texture_and_sampler_independent {F : Type} (newEntry : GpuTextureEntry)
    (EMPTY : SamplerState) (st : GpuProgramParameters F) (nc : GpuNamedConstants)
    (name : String) (d : GpuConstantDefinition)
    (hnc : st.mNamedConstants = some nc) (hd : find name nc.map = some d)
    (hp : d.physicalIndex < st.mTextures.length) :
    (∀ tex : TextureRef, ∃ st',
      st.setNamedConstant_texture newEntry name tex = Outcome.returned st' () ∧
      st'.getTexture d.physicalIndex = Outcome.returned st' tex ∧
      (∀ e, st.mTextures[d.physicalIndex]? = some (some e) →
        st'.getSamplerState EMPTY d.physicalIndex = Outcome.returned st' e.samplerState ∧
        st'.mTextures[d.physicalIndex]? = some (some { e with texture := tex })) ∧
      (st.mTextures[d.physicalIndex]? = some none →
        st'.mTextures[d.physicalIndex]? = some (some { newEntry with texture := tex })) ∧
      (∀ q, q ≠ d.physicalIndex → st'.mTextures[q]? = st.mTextures[q]?) ∧
      st'.mTextures.length = st.mTextures.length ∧
      st'.mFloatConstants = st.mFloatConstants ∧
      st'.mIntConstants = st.mIntConstants) ∧
    (∀ smp : SamplerState, ∃ st',
      st.setNamedConstant_samplerState newEntry name smp = Outcome.returned st' () ∧
      st'.getSamplerState EMPTY d.physicalIndex = Outcome.returned st' smp ∧
      (∀ e, st.mTextures[d.physicalIndex]? = some (some e) →
        st'.getTexture d.physicalIndex = Outcome.returned st' e.texture ∧
        st'.mTextures[d.physicalIndex]? = some (some { e with samplerState := smp })) ∧
      (st.mTextures[d.physicalIndex]? = some none →
        st'.mTextures[d.physicalIndex]? =
          some (some { newEntry with samplerState := smp })) ∧
      (∀ q, q ≠ d.physicalIndex → st'.mTextures[q]? = st.mTextures[q]?) ∧
      st'.mTextures.length = st.mTextures.length ∧
      st'.mFloatConstants = st.mFloatConstants ∧
      st'.mIntConstants = st.mIntConstants) := by
  have hget := List.getElem?_eq_getElem hp
  constructor
  · intro tex
    refine ⟨{ st with mTextures := (st.mTextures.set d.physicalIndex
        (some { (Option.join st.mTextures[d.physicalIndex]?).getD newEntry with
          texture := tex })) }, ?_, ?_, ?_, ?_, ?_, ?_, rfl, rfl⟩
    · simp only [GpuProgramParameters.setNamedConstant_texture,
        withNamedConstant_of_mapped st nc name d _ hnc hd]
      exact assignTextureEntry_returned newEntry st d.physicalIndex _ hp
    · simp [GpuProgramParameters.getTexture, hp]
    · intro e he
      simp [GpuProgramParameters.getSamplerState, hp, he]
    · intro he
      simp [hp, he]
    · intro q hq
      simp [List.getElem?_set_ne (Ne.symm hq)]
    · simp
  · intro smp
    refine ⟨{ st with mTextures := (st.mTextures.set d.physicalIndex
        (some { (Option.join st.mTextures[d.physicalIndex]?).getD newEntry with
          samplerState := smp })) }, ?_, ?_, ?_, ?_, ?_, ?_, rfl, rfl⟩
    · simp only [GpuProgramParameters.setNamedConstant_samplerState,
        withNamedConstant_of_mapped st nc name d _ hnc hd]
      exact assignTextureEntry_returned newEntry st d.physicalIndex _ hp
    · simp [GpuProgramParameters.getSamplerState, hp]
    · intro e he
      simp [GpuProgramParameters.getTexture, hp, he]
    · intro he
      simp [hp, he]
    · intro q hq
      simp [List.getElem?_set_ne (Ne.symm hq)]
    · simp

/-- Witness for C18: the name "tex" of `exampleTextured` resolves to slot 1,
which holds texture 5 with sampler state 9. -/
theorem texture_and_sampler_independent_witness :
    find "tex" exampleTextureNames.map = some ⟨GpuConstantType.int, 1, 1, 1⟩ ∧
    1 < exampleTextured.mTextures.length ∧
    (∃ st',
      exampleTextured.setNamedConstant_texture ⟨none, 0⟩ "tex" (some 6) =
        Outcome.returned st' () ∧
      st'.getTexture 1 = Outcome.returned st' (some 6) ∧
      st'.getSamplerState 0 1 = Outcome.returned st' 9) ∧
    (∃ st',
      exampleTextured.setNamedConstant_samplerState ⟨none, 0⟩ "tex" 4 =
        Outcome.returned st' () ∧
      st'.getSamplerState 0 1 = Outcome.returned st' 4 ∧
      st'.getTexture 1 = Outcome.returned st' (some 5)) := by
  have h := texture_and_sampler_independent ⟨none, 0⟩ 0 exampleTextured exampleTextureNames
    "tex" ⟨GpuConstantType.int, 1, 1, 1⟩ rfl (by decide) (by decide)
  refine ⟨by decide, by decide, ?_, ?_⟩
  · obtain ⟨st', h1, h2, h3, -⟩ := h.1 (some 6)
    exact ⟨st', h1, h2, (h3 ⟨some 5, 9⟩ (by decide)).1⟩
  · obtain ⟨st', h1, h2, h3, -⟩ := h.2 4
    exact ⟨st', h1, h2, (h3 ⟨some 5, 9⟩ (by decide)).1⟩

/-- Claim C19: after `a.copyConstantsFrom(src)` the float store, the int store
and the combined variability of `a` are those of `src`, and the three table
references, the registry reference, the bindings, the two flags and the active
pass iteration index of `a` are unchanged. -/
theorem copyConstantsFrom_frame {F : Type} (a src : GpuProgramParameters F) :
    (a.copyConstantsFrom src).mFloatConstants = src.mFloatConstants ∧
    (a.copyConstantsFrom src).mIntConstants = src.mIntConstants ∧
    (a.copyConstantsFrom src).mCombinedVariability = src.mCombinedVariability ∧
    (a.copyConstantsFrom src).mFloatLogicalToPhysical = a.mFloatLogicalToPhysical ∧
    (a.copyConstantsFrom src).mIntLogicalToPhysical = a.mIntLogicalToPhysical ∧
    (a.copyConstantsFrom src).mSamplerLogicalToPhysical = a.mSamplerLogicalToPhysical ∧
    (a.copyConstantsFrom src).mNamedConstants = a.mNamedConstants ∧
    (a.copyConstantsFrom src).mTextures = a.mTextures ∧
    (a.copyConstantsFrom src).mTransposeMatrices = a.mTransposeMatrices ∧
    (a.copyConstantsFrom src).mIgnoreMissingParams = a.mIgnoreMissingParams ∧
    (a.copyConstantsFrom src).mActivePassIterationIndex = a.mActivePassIterationIndex :=
  ⟨rfl, rfl, rfl, rfl, rfl, rfl, rfl, rfl, rfl, rfl, rfl⟩

/-- Claim C20: `incPassIterationNumber` leaves the object unchanged when the
active pass iteration index is the sentinel, as it is after default
construction; when it is an index `k` of the float store (not the sentinel),
element `k` becomes its old value plus one and nothing else changes. -/
theorem incPassIterationNumber_effect {F : Type} [Add F] [One F]
    (st : GpuProgramParameters F) :
    (st.mActivePassIterationIndex = SIZE_MAX →
      st.incPassIterationNumber = Outcome.returned st ()) ∧
    (∀ g, (GpuProgramParameters.construct g : GpuProgramParameters F).incPassIterationNumber =
      Outcome.returned (GpuProgramParameters.construct g) ()) ∧
    (∀ k x, st.mActivePassIterationIndex = k → k ≠ SIZE_MAX →
      st.mFloatConstants[k]? = some x →
      ∃ st', st.incPassIterationNumber = Outcome.returned st' () ∧
        st' = { st with mFloatConstants := st.mFloatConstants.set k (x + 1) } ∧
        st'.mFloatConstants[k]? = some (x + 1) ∧
        (∀ j, j ≠ k → st'.mFloatConstants[j]? = st.mFloatConstants[j]?) ∧
        st'.mFloatConstants.length = st.mFloatConstants.length) := by
  refine ⟨?_, ?_, ?_⟩
  · intro h
    simp [GpuProgramParameters.incPassIterationNumber, h]
  · intro g
    simp [GpuProgramParameters.incPassIterationNumber, GpuProgramParameters.construct]
  · intro k x hk hne hx
    subst hk
    have hlt : st.mActivePassIterationIndex < st.mFloatConstants.length := by
      by_contra hcon
      rw [List.getElem?_eq_none (by omega)] at hx
      cases hx
    refine ⟨_, ?_, rfl, ?_, ?_, ?_⟩
    · simp only [GpuProgramParameters.incPassIterationNumber, hne, ne_eq, not_false_eq_true,
        if_true, hx]
    · simp [hlt]
    · intro j hj
      simp [List.getElem?_set_ne (Ne.symm hj)]
    · simp

/-- Witness for C20: `exampleCounting` counts in float element 1, which holds
11. -/
theorem incPassIterationNumber_effect_witness :
    exampleCounting.mActivePassIterationIndex ≠ SIZE_MAX ∧
    exampleCounting.mFloatConstants[1]? = some 11 ∧
    (∃ st', exampleCounting.incPassIterationNumber = Outcome.returned st' () ∧
      st' = { exampleCounting with mFloatConstants := [10, 12, 12] }) ∧
    exampleFresh.incPassIterationNumber = Outcome.returned exampleFresh () := by
  have h := incPassIterationNumber_effect exampleCounting
  refine ⟨by decide, by decide, ?_, by decide⟩
  obtain ⟨st', h1, h2, -⟩ := h.2.2 1 11 rfl (by decide) (by decide)
  exact ⟨st', h1, h2⟩

/-- Claim C21: when a float resolve call returns a binding for logical index
`L`, the entry of `L` in the table afterwards is the returned one and records
the variability argument of the call, and every other entry that existed before
keeps its variability. -/
theorem resolve_records_variability {F : Type} [Zero F] (st st' : GpuProgramParameters F)
    (t : GpuLogicalBufferStruct) (u : GpuLogicalIndexUse) (L s v : Nat)
    (ht : st.mFloatLogicalToPhysical = some t)
    (hcall : st._getFloatConstantLogicalIndexUse L s v = Outcome.returned st' (some u)) :
    ∃ t', st'.mFloatLogicalToPhysical = some t' ∧
      find L t'.map = some u ∧
      u.variability = v ∧
      (∀ key e, key ≠ L → find key t.map = some e →
        ∃ e', find key t'.map = some e' ∧ e'.variability = e.variability) := by
  cases hL : find L t.map with
  | none =>
    by_cases h4 : 4 ≤ s
    · rw [firstUse_returned st t L s v ht hL h4] at hcall
      cases hcall
      obtain ⟨-, -, h3⟩ := logicalInsertLoop_spec L s v st.mFloatConstants.length t.map (s / 4)
      refine ⟨_, rfl, ?_, rfl, ?_⟩
      · have := h3 L
        rw [hL] at this
        have hr : L ≤ L ∧ L < L + s / 4 := by omega
        simpa [hr] using this
      · intro key e _ he
        refine ⟨e, ?_, rfl⟩
        have := h3 key
        rw [he] at this
        exact this
    · by_cases h0 : s = 0
      · subst h0
        rw [miss_returned st t L v ht hL] at hcall
        cases hcall
      · rw [firstUse_small st t L s v ht hL (by omega) (by omega)] at hcall
        cases hcall
  | some u₀ =>
    by_cases hlt : u₀.currentSize < s
    · by_cases hp : u₀.physicalIndex ≤ st.mFloatConstants.length
      · rw [regrow_returned st t u₀ L s v ht hL hlt hp] at hcall
        cases hcall
        refine ⟨_, rfl, ?_, rfl, ?_⟩
        · rw [find_modify, shiftLogicalIndexes, find_forEach, hL]
          have : u₀.currentSize + (s - u₀.currentSize) = s := by omega
          simp [this]
        · intro key e hkey he
          have hk : ¬ L = key := fun h => hkey h.symm
          simp only [find_modify, shiftLogicalIndexes, find_forEach, hk, if_false, he,
            Option.map_some']
          by_cases hg : e.physicalIndex > u₀.physicalIndex
          · exact ⟨_, rfl, by simp [hg]⟩
          · exact ⟨_, rfl, by simp [hg]⟩
      · rw [regrow_undefined st t u₀ L s v ht hL hlt hp] at hcall
        cases hcall
    · rw [reuse_returned st t u₀ L s v ht hL (by omega)] at hcall
      cases hcall
      refine ⟨_, rfl, ?_, rfl, ?_⟩
      · rw [find_modify, hL]; simp
      · intro key e hkey he
        have hk : ¬ L = key := fun h => hkey h.symm
        exact ⟨e, by simp [find_modify, hk, he], rfl⟩

/-- Witness for C21: logical index 3 of `exampleMapped`, recorded with
variability 1, is resolved again with variability 9. -/
theorem resolve_records_variability_witness :
    exampleMapped._getFloatConstantLogicalIndexUse 3 4 9 =
      Outcome.returned
        { exampleMapped with
          mFloatLogicalToPhysical := some ⟨[(2, ⟨0, 4, 1⟩), (3, ⟨4, 4, 9⟩)], 8⟩ }
        (some ⟨4, 4, 9⟩) ∧
    ∃ t', ({ exampleMapped with
          mFloatLogicalToPhysical := some ⟨[(2, ⟨0, 4, 1⟩), (3, ⟨4, 4, 9⟩)], 8⟩ } :
          GpuProgramParameters Int).mFloatLogicalToPhysical = some t' ∧
      find 3 t'.map = some ⟨4, 4, 9⟩ ∧
      (⟨4, 4, 9⟩ : GpuLogicalIndexUse).variability = 9 ∧
      (∀ key e, key ≠ 3 → find key exampleTable.map = some e →
        ∃ e', find key t'.map = some e' ∧ e'.variability = e.variability) :=
  ⟨by decide,
    resolve_records_variability exampleMapped _ exampleTable ⟨4, 4, 9⟩ 3 4 9 rfl (by decide)⟩

/-- Claim C22 fails as stated: one float resolve call on an empty table and
store, logical index 5 with requestedSize 16, maps 5 to `[0, 16)` and 6 to
`[4, 20)`: the entry of 5 records the requested size, the run's further logical
indices are mapped inside its range, and the ranges of distinct logical indices
overlap. -/
theorem firstUse_ranges_overlap :
    exampleEmpty.resolveSequence [(5, 16, 1)] = Outcome.returned exampleAfterResolve () ∧
    find 5 [(5, (⟨0, 16, 1⟩ : GpuLogicalIndexUse)), (6, ⟨4, 16, 1⟩), (7, ⟨8, 16, 1⟩),
      (8, ⟨12, 16, 1⟩)] = some ⟨0, 16, 1⟩ ∧
    find 6 [(5, (⟨0, 16, 1⟩ : GpuLogicalIndexUse)), (6, ⟨4, 16, 1⟩), (7, ⟨8, 16, 1⟩),
      (8, ⟨12, 16, 1⟩)] = some ⟨4, 16, 1⟩ ∧
    ¬ RangesDisjoint [(5, ⟨0, 16, 1⟩), (6, ⟨4, 16, 1⟩), (7, ⟨8, 16, 1⟩), (8, ⟨12, 16, 1⟩)] := by
  refine ⟨by decide, by decide, by decide, ?_⟩
  intro h
  have := h 5 6 ⟨0, 16, 1⟩ ⟨4, 16, 1⟩ (by decide) (by decide) (by decide)
  revert this
  decide

/-- Claim C22, amended: in every state reached from an empty float table by a
sequence of float resolve calls made through one parameter object, any two
distinct mapped logical indices occupy disjoint registers
`[physicalIndex, physicalIndex + 4)`, and every register lies inside the float
store. -/
theorem reachable_registers_disjoint {F : Type} [Zero F]
    (st₀ st : GpuProgramParameters F) (b : Nat) (calls : List (Nat × Nat × Nat))
    (htable : st₀.mFloatLogicalToPhysical = some ⟨[], b⟩)
    (hreach : st₀.resolveSequence calls = Outcome.returned st ()) :
    ∃ t, st.mFloatLogicalToPhysical = some t ∧
      (∀ k u, find k t.map = some u → u.physicalIndex + 4 ≤ st.mFloatConstants.length) ∧
      (∀ k₁ k₂ u₁ u₂, k₁ ≠ k₂ → find k₁ t.map = some u₁ → find k₂ t.map = some u₂ →
        u₁.physicalIndex + 4 ≤ u₂.physicalIndex ∨ u₂.physicalIndex + 4 ≤ u₁.physicalIndex) :=
  resolveSequence_registers calls st₀ st ⟨[], b⟩ htable
    (fun k u h => by cases h) (fun k₁ k₂ u₁ u₂ _ h => by cases h) hreach

/-- Witness for C22: a first use of logical index 5 with requestedSize 16, a
re-resolution of 7, a growth of 5 to 24 and a zero-size miss of 9, made on the
empty parameter object, reach `exampleAfterGrowth`. -/
theorem reachable_registers_disjoint_witness :
    exampleEmpty.resolveSequence [(5, 16, 1), (7, 4, 2), (5, 24, 1), (9, 0, 3)] =
      Outcome.returned exampleAfterGrowth () ∧
    ∃ t, exampleAfterGrowth.mFloatLogicalToPhysical = some t ∧
      (∀ k u, find k t.map = some u →
        u.physicalIndex + 4 ≤ exampleAfterGrowth.mFloatConstants.length) ∧
      (∀ k₁ k₂ u₁ u₂, k₁ ≠ k₂ → find k₁ t.map = some u₁ → find k₂ t.map = some u₂ →
        u₁.physicalIndex + 4 ≤ u₂.physicalIndex ∨ u₂.physicalIndex + 4 ≤ u₁.physicalIndex) :=
  ⟨by decide,
    reachable_registers_disjoint exampleEmpty exampleAfterGrowth 0
      [(5, 16, 1), (7, 4, 2), (5, 24, 1), (9, 0, 3)] rfl (by decide)⟩

/-- Claim C23: after `a = b`, with the shared pointers given by their
addresses, the two stores of `a` are the lists of `b` (the stores are members by
value, so a later write to `a` gives a new value of `a` only), the three table
pointers and the registry pointer of `a` hold the addresses held by `b` (the
same objects, in every program state), and the combined variability, the two
flags and the active pass iteration index of `a` are those of `b`. -/
theorem assign_copies_stores_shares_tables {F : Type} (a b : GpuProgramParametersPtrs F) :
    (a.assign b).mFloatConstants = b.mFloatConstants ∧
    (a.assign b).mIntConstants = b.mIntConstants ∧
    (a.assign b).mFloatLogicalToPhysical = b.mFloatLogicalToPhysical ∧
    (a.assign b).mIntLogicalToPhysical = b.mIntLogicalToPhysical ∧
    (a.assign b).mSamplerLogicalToPhysical = b.mSamplerLogicalToPhysical ∧
    (a.assign b).mNamedConstants = b.mNamedConstants ∧
    (a.assign b).mCombinedVariability = b.mCombinedVariability ∧
    (a.assign b).mTransposeMatrices = b.mTransposeMatrices ∧
    (a.assign b).mIgnoreMissingParams = b.mIgnoreMissingParams ∧
    (a.assign b).mActivePassIterationIndex = b.mActivePassIterationIndex ∧
    (∀ heap : SharedObjects,
      ((a.assign b).view heap) = ((a.view heap).assign (b.view heap)) ∧
      ((a.assign b).view heap).mFloatLogicalToPhysical = (b.view heap).mFloatLogicalToPhysical ∧
      ((a.assign b).view heap).mIntLogicalToPhysical = (b.view heap).mIntLogicalToPhysical ∧
      ((a.assign b).view heap).mSamplerLogicalToPhysical =
        (b.view heap).mSamplerLogicalToPhysical ∧
      ((a.assign b).view heap).mNamedConstants = (b.view heap).mNamedConstants) :=
  ⟨rfl, rfl, rfl, rfl, rfl, rfl, rfl, rfl, rfl, rfl,
    fun _ => ⟨rfl, rfl, rfl, rfl, rfl⟩⟩

/-- Claim C24 fails on the code at `physicalIndex = 2^64 - 16` with a 4x4
matrix and `elementCount = 16`, and at `physicalIndex = 2^64 - 9` with a 3x3
matrix and `elementCount = 9`, on a store of 20 floats: the range is not inside
the store, so the precondition the claim names does not hold, but the `size_t`
sum in the assertion of line 374 wraps around to 0, the assertion passes, and
the write goes outside the store. -/
theorem matrix_write_wraps_past_assertion :
    exampleTransposing.mFloatConstants.length = 20 ∧
    ¬ (SIZE_MAX - 15) + min 16 16 ≤ exampleTransposing.mFloatConstants.length ∧
    ((SIZE_MAX - 15) + min 16 16) % 2 ^ 64 = 0 ∧
    exampleTransposing._writeRawConstant_Matrix4 (SIZE_MAX - 15) exampleMatrix 16 =
      Outcome.undefined ∧
    ¬ (SIZE_MAX - 8) + min 9 9 ≤ exampleTransposing.mFloatConstants.length ∧
    exampleTransposing._writeRawConstant_Matrix3 (SIZE_MAX - 8) ⟨fun _ _ => 0⟩ 9 =
      Outcome.undefined := by
  refine ⟨by decide, by decide, by decide, by decide, by decide, by decide⟩

/-- What the matrix writes do apart from the wrap-around:
`_writeRawConstant(p, Matrix4, e)` is the raw write of `min(e, 16)` elements at
`p`; with `p + min(e, 16)` inside the store it modifies exactly those elements,
with the first `min(e, 16)` row-major elements of the matrix, transposed when
the flag is set, and when the wrapped sum exceeds the store length its
assertion fails; `_writeRawConstant(p, Matrix3, e)` does the same with 9. -/
theorem matrix_write_clamps {F : Type} (st : GpuProgramParameters F) (p e : Nat)
    (m4 : Matrix4 F) (m3 : Matrix3 F) :
    (p + min e 16 ≤ st.mFloatConstants.length →
      ∃ fl', st._writeRawConstant_Matrix4 p m4 e =
          Outcome.returned { st with mFloatConstants := fl' } () ∧
        WritesExactly st.mFloatConstants fl' p (min e 16)
          (matrix4Source st.mTransposeMatrices m4)) ∧
    (¬ (p + min e 16) % 2 ^ 64 ≤ st.mFloatConstants.length →
      st._writeRawConstant_Matrix4 p m4 e = Outcome.assertFailed st) ∧
    (p + min e 9 ≤ st.mFloatConstants.length →
      ∃ fl', st._writeRawConstant_Matrix3 p m3 e =
          Outcome.returned { st with mFloatConstants := fl' } () ∧
        WritesExactly st.mFloatConstants fl' p (min e 9)
          (matrix3Source st.mTransposeMatrices m3)) ∧
    (¬ (p + min e 9) % 2 ^ 64 ≤ st.mFloatConstants.length →
      st._writeRawConstant_Matrix3 p m3 e = Outcome.assertFailed st) := by
  have h16 : (if e > 16 then 16 else e) = min e 16 := by
    split <;> omega
  have h9 : (if e > 9 then 9 else e) = min e 9 := by
    split <;> omega
  have hw4 : st._writeRawConstant_Matrix4 p m4 e =
      st._writeRawConstants p (matrix4Source st.mTransposeMatrices m4) (min e 16) := by
    cases hflag : st.mTransposeMatrices <;>
      simp [GpuProgramParameters._writeRawConstant_Matrix4, matrix4Source, hflag, h16]
  have hw3 : st._writeRawConstant_Matrix3 p m3 e =
      st._writeRawConstants p (matrix3Source st.mTransposeMatrices m3) (min e 9) := by
    cases hflag : st.mTransposeMatrices <;>
      simp [GpuProgramParameters._writeRawConstant_Matrix3, matrix3Source, hflag, h9]
  have hl4 : min e 16 ≤ (matrix4Source st.mTransposeMatrices m4).length := by
    have : (matrix4Source st.mTransposeMatrices m4).length = 16 := by
      cases st.mTransposeMatrices <;> simp [matrix4Source, Matrix4.row0_length]
    omega
  have hl3 : min e 9 ≤ (matrix3Source st.mTransposeMatrices m3).length := by
    have : (matrix3Source st.mTransposeMatrices m3).length = 9 := by
      cases st.mTransposeMatrices <;> simp [matrix3Source, Matrix3.rows_length]
    omega
  rw [hw4, hw3]
  exact ⟨(writeRaw_effect st p _ _ hl4).1, (writeRaw_effect st p _ _ hl4).2.1,
    (writeRaw_effect st p _ _ hl3).1, (writeRaw_effect st p _ _ hl3).2.1⟩

/-- A 4x4 matrix written with elementCount 20 at physical index 2 of a store of
20 floats. -/
theorem matrix_write_clamps_witness :
    2 + min 20 16 ≤ exampleTransposing.mFloatConstants.length ∧
    ∃ fl', exampleTransposing._writeRawConstant_Matrix4 2 exampleMatrix 20 =
        Outcome.returned { exampleTransposing with mFloatConstants := fl' } () ∧
      WritesExactly exampleTransposing.mFloatConstants fl' 2 (min 20 16)
        (matrix4Source exampleTransposing.mTransposeMatrices exampleMatrix) :=
  ⟨by decide,
    (matrix_write_clamps exampleTransposing 2 20 exampleMatrix ⟨fun _ _ => 0⟩).1 (by decide)⟩

/-- Claim C25: the write of an array of `N` 4x4 matrices at `p`, with
`p + 16 N` inside the store, leaves at `p + 16 i + 4 r + c` the element
`m[c][r]` of matrix `i` when the transpose flag is set and `m[r][c]` when it is
not, keeps the store length and every element outside the range; and writing
the array with the flag set gives the same store as writing the array of
transposed matrices with the flag cleared. -/
theorem matrix4_array_write {F : Type} (st : GpuProgramParameters F) (p : Nat)
    (pMatrix : List (Matrix4 F))
    (hp : p + 16 * pMatrix.length ≤ st.mFloatConstants.length) :
    (∃ st', st._writeRawConstant_Matrix4Array p pMatrix pMatrix.length =
        Outcome.returned st' () ∧
      st'.mFloatConstants.length = st.mFloatConstants.length ∧
      (∀ i (hi : i < pMatrix.length) (r c : Fin 4),
        st'.mFloatConstants[p + 16 * i + (4 * r.val + c.val)]? =
          some (if st.mTransposeMatrices = true then pMatrix[i].m c r else pMatrix[i].m r c)) ∧
      (∀ j, (j < p ∨ p + 16 * pMatrix.length ≤ j) →
        st'.mFloatConstants[j]? = st.mFloatConstants[j]?)) ∧
    (∃ s₁ s₂,
      ({ st with mTransposeMatrices := true } : GpuProgramParameters F)._writeRawConstant_Matrix4Array
        p pMatrix pMatrix.length = Outcome.returned s₁ () ∧
      ({ st with mTransposeMatrices := false } : GpuProgramParameters F)._writeRawConstant_Matrix4Array
        p (pMatrix.map Matrix4.transpose) pMatrix.length = Outcome.returned s₂ () ∧
      s₁.mFloatConstants = s₂.mFloatConstants) := by
  constructor
  · have hlen := flatRows_length (matrix4Source st.mTransposeMatrices)
      (matrix4Source_length st.mTransposeMatrices) pMatrix
    have key := splice_lookup st.mFloatConstants
      (pMatrix.flatMap (matrix4Source st.mTransposeMatrices)) p (by rw [hlen]; exact hp)
    rw [hlen] at key
    refine ⟨_, matrix4Array_returned st p pMatrix hp, ?_, ?_, ?_⟩
    · have := splice_length st.mFloatConstants
        (pMatrix.flatMap (matrix4Source st.mTransposeMatrices)) p (by rw [hlen]; exact hp)
      rw [hlen] at this
      exact this
    · intro i hi r c
      have hk : 4 * r.val + c.val < 16 := by omega
      have hr : p ≤ p + 16 * i + (4 * r.val + c.val) ∧
          p + 16 * i + (4 * r.val + c.val) < p + 16 * pMatrix.length := by omega
      have hsub : p + 16 * i + (4 * r.val + c.val) - p = 16 * i + (4 * r.val + c.val) := by
        omega
      show (st.mFloatConstants.take p ++
        pMatrix.flatMap (matrix4Source st.mTransposeMatrices) ++
        st.mFloatConstants.drop (p + 16 * pMatrix.length))[_]? = _
      rw [key, if_pos hr, hsub,
        flatRows_getElem _ (matrix4Source_length st.mTransposeMatrices) pMatrix i _ hi hk]
      cases hflag : st.mTransposeMatrices with
      | true =>
        simp only [matrix4Source, if_true]
        rw [Matrix4.row0_getElem]
        rfl
      | false =>
        simp only [matrix4Source, Bool.false_eq_true, if_false]
        rw [Matrix4.row0_getElem]
    · intro j hj
      have hr : ¬ (p ≤ j ∧ j < p + 16 * pMatrix.length) := by omega
      show (st.mFloatConstants.take p ++
        pMatrix.flatMap (matrix4Source st.mTransposeMatrices) ++
        st.mFloatConstants.drop (p + 16 * pMatrix.length))[j]? = _
      rw [key, if_neg hr]
  · have h1 := matrix4Array_returned
      ({ st with mTransposeMatrices := true } : GpuProgramParameters F) p pMatrix hp
    have h2 := matrix4Array_returned
      ({ st with mTransposeMatrices := false } : GpuProgramParameters F) p
      (pMatrix.map Matrix4.transpose) (by simpa using hp)
    rw [List.length_map] at h2
    refine ⟨_, _, h1, h2, ?_⟩
    simp only [List.flatMap_map]
    congr 2

/-- Witness for C25: the one-element array of `exampleMatrix` written at
physical index 2 of a store of 20 floats with the transpose flag set. -/
theorem matrix4_array_write_witness :
    2 + 16 * [exampleMatrix].length ≤ exampleTransposing.mFloatConstants.length ∧
    (∃ st', exampleTransposing._writeRawConstant_Matrix4Array 2 [exampleMatrix]
        [exampleMatrix].length = Outcome.returned st' () ∧
      st'.mFloatConstants.length = exampleTransposing.mFloatConstants.length ∧
      (∀ i (hi : i < [exampleMatrix].length) (r c : Fin 4),
        st'.mFloatConstants[2 + 16 * i + (4 * r.val + c.val)]? =
          some (if exampleTransposing.mTransposeMatrices = true
            then ([exampleMatrix][i]).m c r else ([exampleMatrix][i]).m r c)) ∧
      (∀ j, (j < 2 ∨ 2 + 16 * [exampleMatrix].length ≤ j) →
        st'.mFloatConstants[j]? = exampleTransposing.mFloatConstants[j]?)) :=
  ⟨by decide, (matrix4_array_write exampleTransposing 2 [exampleMatrix] (by decide)).1⟩

/-- Claim C26: a growing float re-resolution of an entry at physical index `p`
inside a store of length `n` gives a store of length `n + delta` that agrees
with the old one below `p`, holds zeros at `p .. p + delta - 1`, and holds old
element `j` at `j + delta` for every `p <= j < n`. -/
theorem regrow_inserts_zeros {F : Type} [Zero F] (st : GpuProgramParameters F)
    (t : GpuLogicalBufferStruct) (u : GpuLogicalIndexUse) (L r v : Nat)
    (ht : st.mFloatLogicalToPhysical = some t)
    (hL : find L t.map = some u) (hlt : u.currentSize < r)
    (hp : u.physicalIndex ≤ st.mFloatConstants.length) :
    ∃ st' u',
      st._getFloatConstantLogicalIndexUse L r v = Outcome.returned st' (some u') ∧
      st'.mFloatConstants = st.mFloatConstants.take u.physicalIndex ++
        List.replicate (r - u.currentSize) (0 : F) ++
        st.mFloatConstants.drop u.physicalIndex ∧
      st'.mFloatConstants.length = st.mFloatConstants.length + (r - u.currentSize) ∧
      (∀ j, j < u.physicalIndex → st'.mFloatConstants[j]? = st.mFloatConstants[j]?) ∧
      (∀ j, u.physicalIndex ≤ j → j < u.physicalIndex + (r - u.currentSize) →
        st'.mFloatConstants[j]? = some 0) ∧
      (∀ j, u.physicalIndex ≤ j → j < st.mFloatConstants.length →
        st'.mFloatConstants[j + (r - u.currentSize)]? = st.mFloatConstants[j]?) := by
  have h1 : (st.mFloatConstants.take u.physicalIndex).length = u.physicalIndex := by
    rw [List.length_take]; omega
  refine ⟨_, _, regrow_returned st t u L r v ht hL hlt hp, rfl, ?_, ?_, ?_, ?_⟩
  · simp only [List.length_append, List.length_take, List.length_replicate, List.length_drop]
    omega
  · intro j hj
    show (st.mFloatConstants.take u.physicalIndex ++
        List.replicate (r - u.currentSize) (0 : F) ++
        st.mFloatConstants.drop u.physicalIndex)[j]? = _
    rw [List.append_assoc, List.getElem?_append_left (by omega), List.getElem?_take]
    simp [hj]
  · intro j hj1 hj2
    show (st.mFloatConstants.take u.physicalIndex ++
        List.replicate (r - u.currentSize) (0 : F) ++
        st.mFloatConstants.drop u.physicalIndex)[j]? = _
    rw [List.append_assoc, List.getElem?_append_right (by omega), h1,
      List.getElem?_append_left (by simp; omega)]
    simp [List.getElem?_replicate]
    omega
  · intro j hj1 hj2
    show (st.mFloatConstants.take u.physicalIndex ++
        List.replicate (r - u.currentSize) (0 : F) ++
        st.mFloatConstants.drop u.physicalIndex)[j + (r - u.currentSize)]? = _
    rw [List.append_assoc, List.getElem?_append_right (by omega), h1,
      List.getElem?_append_right (by simp; omega), List.getElem?_drop]
    congr 1
    simp only [List.length_replicate]
    omega

/-- Witness for C26: logical index 3 of `exampleMapped` (physical 4, size 4)
re-resolved with requestedSize 6 in a store of 8 floats. -/
theorem regrow_inserts_zeros_witness :
    find 3 exampleTable.map = some ⟨4, 4, 1⟩ ∧
    ∃ st' u',
      exampleMapped._getFloatConstantLogicalIndexUse 3 6 5 = Outcome.returned st' (some u') ∧
      st'.mFloatConstants = exampleMapped.mFloatConstants.take 4 ++
        List.replicate (6 - 4) (0 : Int) ++ exampleMapped.mFloatConstants.drop 4 ∧
      st'.mFloatConstants.length = exampleMapped.mFloatConstants.length + (6 - 4) ∧
      (∀ j, j < 4 → st'.mFloatConstants[j]? = exampleMapped.mFloatConstants[j]?) ∧
      (∀ j, 4 ≤ j → j < 4 + (6 - 4) → st'.mFloatConstants[j]? = some 0) ∧
      (∀ j, 4 ≤ j → j < exampleMapped.mFloatConstants.length →
        st'.mFloatConstants[j + (6 - 4)]? = exampleMapped.mFloatConstants[j]?) :=
  ⟨by decide,
    regrow_inserts_zeros exampleMapped exampleTable ⟨4, 4, 1⟩ 3 6 5 rfl (by decide)
      (by decide) (by decide)⟩

/-- Claim C27: a growing float re-resolution leaves the int store, the int
table, the registry's int buffer size and every int-typed definition unchanged,
and a growing int re-resolution leaves the float store, the float table, the
registry's float buffer size and every float-typed definition unchanged. -/
theorem regrow_leaves_other_side {F : Type} [Zero F] (st : GpuProgramParameters F)
    (L r v : Nat) :
    (∀ t u, st.mFloatLogicalToPhysical = some t → find L t.map = some u →
      u.currentSize < r → u.physicalIndex ≤ st.mFloatConstants.length →
      ∃ st' u', st._getFloatConstantLogicalIndexUse L r v = Outcome.returned st' (some u') ∧
        st'.mIntConstants = st.mIntConstants ∧
        st'.mIntLogicalToPhysical = st.mIntLogicalToPhysical ∧
        (∀ nc, st.mNamedConstants = some nc →
          ∃ nc', st'.mNamedConstants = some nc' ∧
            nc'.intBufferSize = nc.intBufferSize ∧
            (∀ name d, find name nc.map = some d → d.isFloat = false →
              find name nc'.map = some d))) ∧
    (∀ t u, st.mIntLogicalToPhysical = some t → find L t.map = some u →
      u.currentSize < r → u.physicalIndex ≤ st.mIntConstants.length →
      ∃ st' u', st._getIntConstantLogicalIndexUse L r v = Outcome.returned st' (some u') ∧
        st'.mFloatConstants = st.mFloatConstants ∧
        st'.mFloatLogicalToPhysical = st.mFloatLogicalToPhysical ∧
        (∀ nc, st.mNamedConstants = some nc →
          ∃ nc', st'.mNamedConstants = some nc' ∧
            nc'.floatBufferSize = nc.floatBufferSize ∧
            (∀ name d, find name nc.map = some d → d.isFloat = true →
              find name nc'.map = some d))) := by
  constructor
  · intro t u ht hL hlt hp
    refine ⟨_, _, regrow_returned st t u L r v ht hL hlt hp, rfl, rfl, ?_⟩
    intro nc hnc
    refine ⟨shiftFloatDefinitions u.physicalIndex (r - u.currentSize) nc, by simp [hnc], rfl, ?_⟩
    intro name d hd hf
    simp [shiftFloatDefinitions, find_forEach, hd, hf]
  · intro t u ht hL hlt hp
    refine ⟨_, _, intRegrow_returned st t u L r v ht hL hlt hp, rfl, rfl, ?_⟩
    intro nc hnc
    refine ⟨shiftIntDefinitions u.physicalIndex (r - u.currentSize) nc, by simp [hnc], rfl, ?_⟩
    intro name d hd hf
    simp [shiftIntDefinitions, find_forEach, hd, hf]

/-- Witness for C27: on `exampleIntMapped`, float logical index 2 and int
logical index 0 (both at physical 0, size 4) are re-resolved with requestedSize
8. -/
theorem regrow_leaves_other_side_witness :
    (∃ st' u',
      exampleIntMapped._getFloatConstantLogicalIndexUse 2 8 5 =
        Outcome.returned st' (some u') ∧
      st'.mIntConstants = exampleIntMapped.mIntConstants ∧
      st'.mIntLogicalToPhysical = exampleIntMapped.mIntLogicalToPhysical) ∧
    (∃ st' u',
      exampleIntMapped._getIntConstantLogicalIndexUse 0 8 5 =
        Outcome.returned st' (some u') ∧
      st'.mFloatConstants = exampleIntMapped.mFloatConstants ∧
      st'.mFloatLogicalToPhysical = exampleIntMapped.mFloatLogicalToPhysical) := by
  have h := regrow_leaves_other_side exampleIntMapped
  constructor
  · obtain ⟨st', u', h1, h2, h3, -⟩ := (h 2 8 5).1 exampleTable ⟨0, 4, 1⟩ rfl (by decide)
      (by decide) (by decide)
    exact ⟨st', u', h1, h2, h3⟩
  · obtain ⟨st', u', h1, h2, h3, -⟩ := (h 0 8 5).2 exampleIntTable ⟨0, 4, 1⟩ rfl (by decide)
      (by decide) (by decide)
    exact ⟨st', u', h1, h2, h3⟩

/-- Claim C28: `_setNamedConstants` with a registry, and `_setLogicalIndexes`
with a float or int table, leave the float (int) store equal to the old store
followed by zeros up to the given buffer size, so of length the maximum of the
old length and that size; an absent table leaves the store unchanged. -/
theorem setup_extends_stores {F : Type} [Zero F] (st : GpuProgramParameters F) :
    (∀ nc : GpuNamedConstants, ∃ st',
      st._setNamedConstants (some nc) = Outcome.returned st' () ∧
      st'.mFloatConstants =
        st.mFloatConstants ++ List.replicate (nc.floatBufferSize - st.mFloatConstants.length) 0 ∧
      st'.mFloatConstants.length = max st.mFloatConstants.length nc.floatBufferSize ∧
      st'.mIntConstants =
        st.mIntConstants ++ List.replicate (nc.intBufferSize - st.mIntConstants.length) 0 ∧
      st'.mIntConstants.length = max st.mIntConstants.length nc.intBufferSize) ∧
    (∀ floatIndexMap intIndexMap samplerIndexMap : Option GpuLogicalBufferStruct,
      (∀ t, floatIndexMap = some t →
        (st._setLogicalIndexes floatIndexMap intIndexMap samplerIndexMap).mFloatConstants =
          st.mFloatConstants ++
            List.replicate (t.bufferSize - st.mFloatConstants.length) 0 ∧
        (st._setLogicalIndexes floatIndexMap intIndexMap samplerIndexMap).mFloatConstants.length
          = max st.mFloatConstants.length t.bufferSize) ∧
      (floatIndexMap = none →
        (st._setLogicalIndexes floatIndexMap intIndexMap samplerIndexMap).mFloatConstants =
          st.mFloatConstants) ∧
      (∀ t, intIndexMap = some t →
        (st._setLogicalIndexes floatIndexMap intIndexMap samplerIndexMap).mIntConstants =
          st.mIntConstants ++ List.replicate (t.bufferSize - st.mIntConstants.length) 0 ∧
        (st._setLogicalIndexes floatIndexMap intIndexMap samplerIndexMap).mIntConstants.length
          = max st.mIntConstants.length t.bufferSize) ∧
      (intIndexMap = none →
        (st._setLogicalIndexes floatIndexMap intIndexMap samplerIndexMap).mIntConstants =
          st.mIntConstants)) := by
  constructor
  · intro nc
    exact ⟨_, rfl, (extendBuffer_eq _ _ _).1, (extendBuffer_eq _ _ _).2,
      (extendBuffer_eq _ _ _).1, (extendBuffer_eq _ _ _).2⟩
  · intro f i smp
    refine ⟨?_, ?_, ?_, ?_⟩
    · intro t ht
      subst ht
      exact ⟨(extendBuffer_eq _ _ _).1, (extendBuffer_eq _ _ _).2⟩
    · intro hf
      subst hf
      rfl
    · intro t ht
      subst ht
      exact ⟨(extendBuffer_eq _ _ _).1, (extendBuffer_eq _ _ _).2⟩
    · intro hi
      subst hi
      rfl

/-- Witness for C28: `exampleMapped` holds 8 floats and 2 ints; a registry of
sizes 80 and 0 and a float table of buffer size 16 are set. -/
theorem setup_extends_stores_witness :
    (∃ st', exampleMapped._setNamedConstants (some exampleRegistry) =
        Outcome.returned st' () ∧
      st'.mFloatConstants.length = 80 ∧ st'.mIntConstants = exampleMapped.mIntConstants) ∧
    (exampleMapped._setLogicalIndexes (some ⟨[], 16⟩) none none).mFloatConstants =
      exampleMapped.mFloatConstants ++ List.replicate 8 0 ∧
    (exampleMapped._setLogicalIndexes (some ⟨[], 16⟩) none none).mIntConstants =
      exampleMapped.mIntConstants := by
  have h := setup_extends_stores exampleMapped
  refine ⟨?_, ?_, ?_⟩
  · obtain ⟨st', h1, -, h3, h4, -⟩ := h.1 exampleRegistry
    exact ⟨st', h1, h3, h4⟩
  · exact ((h.2 (some ⟨[], 16⟩) none none).1 ⟨[], 16⟩ rfl).1
  · exact (h.2 (some ⟨[], 16⟩) none none).2.2.2 rfl

/-- Claim C29: inside the store, `_writeRawConstant(p, float)` and
`_writeRawConstant(p, int)` modify exactly 1 element at `p`, the `Vector2`
overload exactly 2, the `Vector3` overload exactly 3, and the `Vector4` and
`Color` overloads exactly `min(count, 4)`; every other element, and every other
member of the object, is unchanged. -/
theorem scalar_vector_writes_exact {F : Type} (st : GpuProgramParameters F) (p : Nat) :
    (∀ x : F, p + 1 ≤ st.mFloatConstants.length →
      ∃ fl', st._writeRawConstant_float p x =
          Outcome.returned { st with mFloatConstants := fl' } () ∧
        WritesExactly st.mFloatConstants fl' p 1 [x]) ∧
    (∀ x : Int, p + 1 ≤ st.mIntConstants.length →
      ∃ il', st._writeRawConstant_int p x =
          Outcome.returned { st with mIntConstants := il' } () ∧
        WritesExactly st.mIntConstants il' p 1 [x]) ∧
    (∀ vec : Vector2 F, p + 2 ≤ st.mFloatConstants.length →
      ∃ fl', st._writeRawConstant_Vector2 p vec =
          Outcome.returned { st with mFloatConstants := fl' } () ∧
        WritesExactly st.mFloatConstants fl' p 2 [vec.x, vec.y]) ∧
    (∀ vec : Vector3 F, p + 3 ≤ st.mFloatConstants.length →
      ∃ fl', st._writeRawConstant_Vector3 p vec =
          Outcome.returned { st with mFloatConstants := fl' } () ∧
        WritesExactly st.mFloatConstants fl' p 3 [vec.x, vec.y, vec.z]) ∧
    (∀ (vec : Vector4 F) (count : Nat), p + min count 4 ≤ st.mFloatConstants.length →
      ∃ fl', st._writeRawConstant_Vector4 p vec count =
          Outcome.returned { st with mFloatConstants := fl' } () ∧
        WritesExactly st.mFloatConstants fl' p (min count 4) [vec.x, vec.y, vec.z, vec.w]) ∧
    (∀ (colour : Color F) (count : Nat), p + min count 4 ≤ st.mFloatConstants.length →
      ∃ fl', st._writeRawConstant_Color p colour count =
          Outcome.returned { st with mFloatConstants := fl' } () ∧
        WritesExactly st.mFloatConstants fl' p (min count 4)
          [colour.r, colour.g, colour.b, colour.a]) := by
  refine ⟨?_, ?_, ?_, ?_, ?_, ?_⟩
  · intro x hp
    exact (writeRaw_effect st p [x] 1 (by simp)).1 hp
  · intro x hp
    exact (writeRawInt_effect st p [x] 1 (by simp)).1 hp
  · intro vec hp
    exact (writeRaw_effect st p vec.ptr 2 (by simp [Vector2.ptr])).1 hp
  · intro vec hp
    exact (writeRaw_effect st p vec.ptr 3 (by simp [Vector3.ptr])).1 hp
  · intro vec count hp
    exact (writeRaw_effect st p vec.ptr (min count 4) (by simp [Vector4.ptr])).1 hp
  · intro colour count hp
    exact (writeRaw_effect st p colour.ptr (min count 4) (by simp [Color.ptr])).1 hp

/-- Witness for C29: a float and a `Vector3` written at physical index 2 of
`exampleMapped`. -/
theorem scalar_vector_writes_exact_witness :
    2 + 3 ≤ exampleMapped.mFloatConstants.length ∧
    (∃ fl', exampleMapped._writeRawConstant_float 2 99 =
        Outcome.returned { exampleMapped with mFloatConstants := fl' } () ∧
      WritesExactly exampleMapped.mFloatConstants fl' 2 1 [99]) ∧
    (∃ fl', exampleMapped._writeRawConstant_Vector3 2 ⟨7, 8, 9⟩ =
        Outcome.returned { exampleMapped with mFloatConstants := fl' } () ∧
      WritesExactly exampleMapped.mFloatConstants fl' 2 3 [7, 8, 9]) :=
  ⟨by decide, (scalar_vector_writes_exact exampleMapped 2).1 99 (by decide),
    (scalar_vector_writes_exact exampleMapped 2).2.2.2.1 ⟨7, 8, 9⟩ (by decide)⟩

/-- Claim C30: when the float store length equals the cached buffer size of the
float table before a float resolve call, whatever the logical index, the
requested size and the branch the call takes, the two are equal in the state
after the call whenever the call returns; the same holds for the int store and
the int table. -/
theorem bufferSize_tracked_after_return {F : Type} [Zero F] (st st' : GpuProgramParameters F)
    (L s v : Nat) (r : Option GpuLogicalIndexUse) :
    (∀ t, st.mFloatLogicalToPhysical = some t → st.mFloatConstants.length = t.bufferSize →
      st._getFloatConstantLogicalIndexUse L s v = Outcome.returned st' r →
      ∃ t', st'.mFloatLogicalToPhysical = some t' ∧
        st'.mFloatConstants.length = t'.bufferSize) ∧
    (∀ t, st.mIntLogicalToPhysical = some t → st.mIntConstants.length = t.bufferSize →
      st._getIntConstantLogicalIndexUse L s v = Outcome.returned st' r →
      ∃ t', st'.mIntLogicalToPhysical = some t' ∧
        st'.mIntConstants.length = t'.bufferSize) := by
  constructor
  · intro t ht hinv hcall
    cases hL : find L t.map with
    | none =>
      rcases Nat.eq_zero_or_pos s with h0 | hpos
      · subst h0
        rw [miss_returned st t L v ht hL] at hcall
        cases hcall
        exact ⟨t, ht, hinv⟩
      · by_cases h4 : 4 ≤ s
        · rw [firstUse_returned st t L s v ht hL h4] at hcall
          cases hcall
          refine ⟨_, rfl, ?_⟩
          simp
        · rw [firstUse_small st t L s v ht hL hpos (by omega)] at hcall
          cases hcall
    | some u =>
      by_cases hlt : u.currentSize < s
      · by_cases hp : u.physicalIndex ≤ st.mFloatConstants.length
        · rw [regrow_returned st t u L s v ht hL hlt hp] at hcall
          cases hcall
          refine ⟨_, rfl, ?_⟩
          simp only [List.length_append, List.length_take, List.length_replicate,
            List.length_drop]
          omega
        · rw [regrow_undefined st t u L s v ht hL hlt hp] at hcall
          cases hcall
      · rw [reuse_returned st t u L s v ht hL (by omega)] at hcall
        cases hcall
        exact ⟨_, rfl, hinv⟩
  · intro t ht hinv hcall
    cases hL : find L t.map with
    | none =>
      rcases Nat.eq_zero_or_pos s with h0 | hpos
      · subst h0
        rw [intMiss_returned st t L v ht hL] at hcall
        cases hcall
        exact ⟨t, ht, hinv⟩
      · by_cases h4 : 4 ≤ s
        · rw [intFirstUse_returned st t L s v ht hL h4] at hcall
          cases hcall
          refine ⟨_, rfl, ?_⟩
          simp
        · rw [intFirstUse_small st t L s v ht hL hpos (by omega)] at hcall
          cases hcall
    | some u =>
      by_cases hlt : u.currentSize < s
      · by_cases hp : u.physicalIndex ≤ st.mIntConstants.length
        · rw [intRegrow_returned st t u L s v ht hL hlt hp] at hcall
          cases hcall
          refine ⟨_, rfl, ?_⟩
          simp only [List.length_append, List.length_take, List.length_replicate,
            List.length_drop]
          omega
        · rw [intRegrow_undefined st t u L s v ht hL hlt hp] at hcall
          cases hcall
      · rw [intReuse_returned st t u L s v ht hL (by omega)] at hcall
        cases hcall
        exact ⟨_, rfl, hinv⟩

/-- Witness for C30: on `exampleIntMapped` both stores hold 8 elements and
both tables cache 8; float logical index 9 is first used with requestedSize 4
and int logical index 0 is grown to 8. -/
theorem bufferSize_tracked_after_return_witness :
    exampleIntMapped.mFloatConstants.length = exampleTable.bufferSize ∧
    exampleIntMapped.mIntConstants.length = exampleIntTable.bufferSize ∧
    (∃ st' r, exampleIntMapped._getFloatConstantLogicalIndexUse 9 4 1 =
        Outcome.returned st' r ∧
      ∃ t', st'.mFloatLogicalToPhysical = some t' ∧
        st'.mFloatConstants.length = t'.bufferSize) ∧
    (∃ st' r, exampleIntMapped._getIntConstantLogicalIndexUse 0 8 1 =
        Outcome.returned st' r ∧
      ∃ t', st'.mIntLogicalToPhysical = some t' ∧
        st'.mIntConstants.length = t'.bufferSize) := by
  have hfloat := firstUse_returned exampleIntMapped exampleTable 9 4 1 rfl (by decide)
    (by decide)
  have hint := intRegrow_returned exampleIntMapped exampleIntTable ⟨0, 4, 1⟩ 0 8 1 rfl
    (by decide) (by decide) (by decide)
  exact ⟨by decide, by decide,
    ⟨_, _, hfloat,
      (bufferSize_tracked_after_return exampleIntMapped _ 9 4 1 _).1 exampleTable rfl
        (by decide) hfloat⟩,
    ⟨_, _, hint,
      (bufferSize_tracked_after_return exampleIntMapped _ 0 8 1 _).2 exampleIntTable rfl
        (by decide) hint⟩⟩

/-- The calls that do return: when the float store length equals the cached buffer
size of the float table before a float resolve call that is a first use with
requestedSize at least 4, a zero-size miss, a re-resolution within the recorded
size, or a growing re-resolution of an entry inside the store, the call returns
and the two are equal after it; the same holds for the int store and table. -/
theorem bufferSize_tracks_store {F : Type} [Zero F] (st : GpuProgramParameters F)
    (L s v : Nat) :
    ((∀ t, st.mFloatLogicalToPhysical = some t →
        (find L t.map = none → s = 0 ∨ 4 ≤ s) ∧
        (∀ u, find L t.map = some u → u.currentSize < s →
          u.physicalIndex ≤ st.mFloatConstants.length)) →
      FloatSizeTracked st L s v) ∧
    ((∀ t, st.mIntLogicalToPhysical = some t →
        (find L t.map = none → s = 0 ∨ 4 ≤ s) ∧
        (∀ u, find L t.map = some u → u.currentSize < s →
          u.physicalIndex ≤ st.mIntConstants.length)) →
      IntSizeTracked st L s v) := by
  constructor
  · intro hdom t ht hinv
    obtain ⟨hnew, hold⟩ := hdom t ht
    cases hL : find L t.map with
    | none =>
      rcases hnew hL with h0 | h4
      · subst h0
        exact ⟨st, none, t, miss_returned st t L v ht hL, ht, hinv⟩
      · refine ⟨_, _, _, firstUse_returned st t L s v ht hL h4, rfl, ?_⟩
        simp
    | some u =>
      by_cases hlt : u.currentSize < s
      · refine ⟨_, _, _, regrow_returned st t u L s v ht hL hlt (hold u hL hlt), rfl, ?_⟩
        simp only [List.length_append, List.length_take, List.length_replicate,
          List.length_drop]
        have := hold u hL hlt
        omega
      · exact ⟨_, _, _, reuse_returned st t u L s v ht hL (by omega), rfl, hinv⟩
  · intro hdom t ht hinv
    obtain ⟨hnew, hold⟩ := hdom t ht
    cases hL : find L t.map with
    | none =>
      rcases hnew hL with h0 | h4
      · subst h0
        exact ⟨st, none, t, intMiss_returned st t L v ht hL, ht, hinv⟩
      · refine ⟨_, _, _, intFirstUse_returned st t L s v ht hL h4, rfl, ?_⟩
        simp
    | some u =>
      by_cases hlt : u.currentSize < s
      · refine ⟨_, _, _, intRegrow_returned st t u L s v ht hL hlt (hold u hL hlt), rfl, ?_⟩
        simp only [List.length_append, List.length_take, List.length_replicate,
          List.length_drop]
        have := hold u hL hlt
        omega
      · exact ⟨_, _, _, intReuse_returned st t u L s v ht hL (by omega), rfl, hinv⟩

/-- On `exampleIntMapped` both stores hold 8 elements and both tables cache 8;
float logical index 9 is first used with requestedSize 4 and int logical index
0 is grown to 8, and both calls return. -/
theorem bufferSize_tracks_store_witness :
    exampleIntMapped.mFloatConstants.length = exampleTable.bufferSize ∧
    exampleIntMapped.mIntConstants.length = exampleIntTable.bufferSize ∧
    FloatSizeTracked exampleIntMapped 9 4 1 ∧
    IntSizeTracked exampleIntMapped 0 8 1 := by
  refine ⟨by decide, by decide, ?_, ?_⟩
  · apply (bufferSize_tracks_store exampleIntMapped 9 4 1).1
    intro t ht
    cases ht
    refine ⟨fun _ => Or.inr (by decide), fun u hu => ?_⟩
    have h' : find 9 exampleTable.map = none := by decide
    rw [h'] at hu
    cases hu
  · apply (bufferSize_tracks_store exampleIntMapped 0 8 1).2
    intro t ht
    cases ht
    refine ⟨fun h => by revert h; decide, fun u hu _ => ?_⟩
    have : u = ⟨0, 4, 1⟩ := by
      have h' : find 0 exampleIntTable.map = some ⟨0, 4, 1⟩ := by decide
      rw [h'] at hu
      cases hu
      rfl
    subst this
    decide

/-- Claim C31: from an empty float table, every sequence of float resolve calls
with requestedSize 0 or at least 4 made through one parameter object returns,
and in the state it reaches every mapped entry has its physical index strictly
below the float store length and distinct logical indices have distinct
physical indices.  The store at the start may hold anything. -/
theorem reachable_indices_inside_and_distinct {F : Type} [Zero F]
    (st₀ : GpuProgramParameters F) (b : Nat) (calls : List (Nat × Nat × Nat))
    (htable : st₀.mFloatLogicalToPhysical = some ⟨[], b⟩)
    (hcalls : ∀ c ∈ calls, c.2.1 = 0 ∨ 4 ≤ c.2.1) :
    ∃ st t, st₀.resolveSequence calls = Outcome.returned st () ∧
      st.mFloatLogicalToPhysical = some t ∧
      (∀ k u, find k t.map = some u → u.physicalIndex < st.mFloatConstants.length) ∧
      (∀ k₁ k₂ u₁ u₂, k₁ ≠ k₂ → find k₁ t.map = some u₁ → find k₂ t.map = some u₂ →
        u₁.physicalIndex ≠ u₂.physicalIndex) := by
  obtain ⟨st, hseq, t, ht, -, hin, hd⟩ :=
    resolveSequence_wellFormed calls st₀ (empty_wellFormed st₀ b htable) hcalls
  exact ⟨st, t, hseq, ht, hin, hd⟩

/-- Witness for C31: a first use of logical index 5 with requestedSize 16, a
re-resolution of 7, a growth of 5 to 24 and a zero-size miss of 9, made on the
empty parameter object. -/
theorem reachable_indices_inside_and_distinct_witness :
    ∃ st t, exampleEmpty.resolveSequence [(5, 16, 1), (7, 4, 2), (5, 24, 1), (9, 0, 3)] =
        Outcome.returned st () ∧
      st.mFloatLogicalToPhysical = some t ∧
      (∀ k u, find k t.map = some u → u.physicalIndex < st.mFloatConstants.length) ∧
      (∀ k₁ k₂ u₁ u₂, k₁ ≠ k₂ → find k₁ t.map = some u₁ → find k₂ t.map = some u₂ →
        u₁.physicalIndex ≠ u₂.physicalIndex) :=
  reachable_indices_inside_and_distinct exampleEmpty 0
    [(5, 16, 1), (7, 4, 2), (5, 24, 1), (9, 0, 3)] rfl (by decide)

/-- Claim C32: in a state reached from an empty float table by float resolve
calls with requestedSize 0 or at least 4, a call of
`_getFloatConstantPhysicalIndex` for a logical index that is mapped, or that is
first used with requestedSize at least 4, returns the physical index of the
entry the logical index has after the call, and
`getFloatLogicalIndexForPhysicalIndex` of that physical index then returns the
logical index; in the reached state the reverse lookup of a physical index that
no entry has returns the maximum `size_t` value. -/
theorem reverse_lookup_undoes_resolve {F : Type} [Zero F]
    (st₀ : GpuProgramParameters F) (b : Nat) (calls : List (Nat × Nat × Nat))
    (htable : st₀.mFloatLogicalToPhysical = some ⟨[], b⟩)
    (hcalls : ∀ c ∈ calls, c.2.1 = 0 ∨ 4 ≤ c.2.1)
    (st : GpuProgramParameters F)
    (hreach : st₀.resolveSequence calls = Outcome.returned st ())
    (L s v : Nat)
    (hs : 4 ≤ s ∨ ∃ t u, st.mFloatLogicalToPhysical = some t ∧ find L t.map = some u) :
    (∃ st' t' u,
      st._getFloatConstantPhysicalIndex L s v = Outcome.returned st' u.physicalIndex ∧
      st'.mFloatLogicalToPhysical = some t' ∧ find L t'.map = some u ∧
      st'.getFloatLogicalIndexForPhysicalIndex u.physicalIndex = Outcome.returned st' L) ∧
    (∃ t, st.mFloatLogicalToPhysical = some t ∧
      ∀ q, (∀ k u, find k t.map = some u → u.physicalIndex ≠ q) →
        st.getFloatLogicalIndexForPhysicalIndex q = Outcome.returned st SIZE_MAX) := by
  obtain ⟨st₁, hseq, hwf⟩ :=
    resolveSequence_wellFormed calls st₀ (empty_wellFormed st₀ b htable) hcalls
  rw [hreach] at hseq
  cases hseq
  have hmapped : ∀ t, st.mFloatLogicalToPhysical = some t → find L t.map = none → 4 ≤ s := by
    intro t ht hL
    rcases hs with h4 | ⟨t₁, u₁, ht₁, hu₁⟩
    · exact h4
    · rw [ht] at ht₁
      cases ht₁
      rw [hL] at hu₁
      cases hu₁
  constructor
  · obtain ⟨st', r, t', hcall, hwf', ht', hr, hnull⟩ :=
      resolve_step_wellFormed st L s v hwf (fun t ht hL => Or.inr (hmapped t ht hL))
    obtain ⟨t'', ht'', hkeys', -, hd'⟩ := hwf'
    rw [ht'] at ht''
    cases ht''
    cases r with
    | none =>
      -- a null result is a zero-size miss, which `hs` excludes
      obtain ⟨h0, hmiss⟩ := hnull rfl
      obtain ⟨t, ht, -⟩ := hwf
      have := hmapped t ht (hmiss t ht)
      omega
    | some u =>
      refine ⟨st', t', u, ?_, ht', hr.symm,
        reverseLookup_of_mapped st' t' L u ht' hkeys' hd' hr.symm⟩
      simp only [GpuProgramParameters._getFloatConstantPhysicalIndex, hcall]
  · obtain ⟨t, ht, hkeys, -, -⟩ := hwf
    exact ⟨t, ht, fun q hq => reverseLookup_of_unmapped st t q ht hq hkeys⟩

/-- Witness for C32: after the first use of logical index 5 with requestedSize
16 on the empty parameter object, logical index 6 is resolved again. -/
theorem reverse_lookup_undoes_resolve_witness :
    exampleEmpty.resolveSequence [(5, 16, 1)] = Outcome.returned exampleAfterResolve () ∧
    (∃ st' t' u,
      exampleAfterResolve._getFloatConstantPhysicalIndex 6 4 2 =
        Outcome.returned st' u.physicalIndex ∧
      st'.mFloatLogicalToPhysical = some t' ∧ find 6 t'.map = some u ∧
      st'.getFloatLogicalIndexForPhysicalIndex u.physicalIndex = Outcome.returned st' 6) ∧
    (∃ t, exampleAfterResolve.mFloatLogicalToPhysical = some t ∧
      ∀ q, (∀ k u, find k t.map = some u → u.physicalIndex ≠ q) →
        exampleAfterResolve.getFloatLogicalIndexForPhysicalIndex q =
          Outcome.returned exampleAfterResolve SIZE_MAX) :=
  ⟨by decide,
    reverse_lookup_undoes_resolve exampleEmpty 0 [(5, 16, 1)] rfl (by decide)
      exampleAfterResolve (by decide) 6 4 2
      (Or.inr ⟨_, ⟨4, 16, 1⟩, rfl, by decide⟩)⟩

/-- Claim C33: when logical index L is unmapped and is resolved with
requestedSize s while logical index L+k, with k < s/4, is already mapped (so
that k is at least 1 and s at least 8), the call returns the entry of L at the
old store length, the store is the old store followed by s zeros, and the entry
of L+k is the one it was before the call: physical index, currentSize and
variability are unchanged. -/
theorem firstUse_keeps_existing_mapping {F : Type} [Zero F] (st : GpuProgramParameters F)
    (t : GpuLogicalBufferStruct) (L s v k : Nat) (u : GpuLogicalIndexUse)
    (ht : st.mFloatLogicalToPhysical = some t) (hL : find L t.map = none)
    (hk : k < s / 4) (hu : find (L + k) t.map = some u) :
    1 ≤ k ∧ 8 ≤ s ∧
    ∃ st' t', st._getFloatConstantLogicalIndexUse L s v =
        Outcome.returned st' (some ⟨st.mFloatConstants.length, s, v⟩) ∧
      st'.mFloatLogicalToPhysical = some t' ∧
      find (L + k) t'.map = some u ∧
      find L t'.map = some ⟨st.mFloatConstants.length, s, v⟩ ∧
      st'.mFloatConstants = st.mFloatConstants ++ List.replicate s (0 : F) ∧
      st'.mFloatConstants.length = st.mFloatConstants.length + s := by
  have hk1 : 1 ≤ k := by
    rcases Nat.eq_zero_or_pos k with h0 | hpos
    · subst h0
      rw [Nat.add_zero, hL] at hu
      cases hu
    · exact hpos
  have h8 : 8 ≤ s := by omega
  obtain ⟨-, -, h3⟩ := logicalInsertLoop_spec L s v st.mFloatConstants.length t.map (s / 4)
  refine ⟨hk1, h8, _, _, firstUse_returned st t L s v ht hL (by omega), rfl, ?_, ?_, rfl, ?_⟩
  · simp only
    rw [h3 (L + k), hu]
  · simp only
    rw [h3 L, hL]
    have hr : L ≤ L ∧ L < L + s / 4 := by omega
    simp [hr]
  · simp

/-- Witness for C33: on `exampleMapped`, where logical indices 2 and 3 are
mapped and 1 is not, logical index 1 is first used with requestedSize 12. -/
theorem firstUse_keeps_existing_mapping_witness :
    find 1 exampleTable.map = none ∧ find (1 + 1) exampleTable.map = some ⟨0, 4, 1⟩ ∧
    1 ≤ 1 ∧ 8 ≤ 12 ∧
    ∃ st' t', exampleMapped._getFloatConstantLogicalIndexUse 1 12 7 =
        Outcome.returned st' (some ⟨exampleMapped.mFloatConstants.length, 12, 7⟩) ∧
      st'.mFloatLogicalToPhysical = some t' ∧
      find (1 + 1) t'.map = some ⟨0, 4, 1⟩ ∧
      find 1 t'.map = some ⟨exampleMapped.mFloatConstants.length, 12, 7⟩ ∧
      st'.mFloatConstants = exampleMapped.mFloatConstants ++ List.replicate 12 (0 : Int) ∧
      st'.mFloatConstants.length = exampleMapped.mFloatConstants.length + 12 :=
  ⟨by decide, by decide,
    firstUse_keeps_existing_mapping exampleMapped exampleTable 1 12 7 1 ⟨0, 4, 1⟩ rfl
      (by decide) (by decide) (by decide)⟩

end CamelotEngine

namespace BansheeEngine

/-! ## Lemmas about alignment offsets -/

/-- The first loop computes the sum of the y-advances when it is below 2^32. -/
theorem curHeight_eq (lines : List TextLine) :
    ∀ c : Nat, c + totalYOffset lines < 2 ^ 32 →
      lines.foldl (fun cur line => addUINT32 cur line.getYOffset) c = c + totalYOffset lines := by
  induction lines with
  | nil => intro c _; simp [totalYOffset]
  | cons l ls ih =>
    intro c hc
    simp only [totalYOffset, List.map_cons, List.sum_cons, List.foldl_cons] at hc ⊢
    have hadd : addUINT32 c l.getYOffset = c + l.getYOffset := by
      unfold addUINT32
      have : 0 ≤ (ls.map TextLine.getYOffset).sum := Nat.zero_le _
      omega
    rw [hadd, ih (c + l.getYOffset) (by simp only [totalYOffset]; omega)]
    simp only [totalYOffset]
    omega

/-- The clamped difference computed through `UINT32` subtraction and the
`INT32` cast is the mathematical one for operands below 2^31. -/
theorem clamped_difference (a b : Nat) (ha : a < 2 ^ 31) (hb : b < 2 ^ 31) :
    max 0 (toINT32 (subUINT32 a b)) = max 0 ((a : Int) - (b : Int)) := by
  unfold toINT32 subUINT32
  by_cases h : b ≤ a
  · have e : (a % 2 ^ 32 + (2 ^ 32 - b % 2 ^ 32)) % 2 ^ 32 = a - b := by omega
    rw [e]
    have e2 : (a - b) % 2 ^ 32 = a - b := by omega
    rw [e2]
    have : a - b < 2 ^ 31 := by omega
    simp only [this, if_true]
    omega
  · have e : (a % 2 ^ 32 + (2 ^ 32 - b % 2 ^ 32)) % 2 ^ 32 = 2 ^ 32 - (b - a) := by omega
    rw [e]
    have e2 : (2 ^ 32 - (b - a)) % 2 ^ 32 = 2 ^ 32 - (b - a) := by omega
    rw [e2]
    have : ¬ (2 ^ 32 - (b - a) < 2 ^ 31) := by omega
    simp only [this, if_false]
    omega

/-- One iteration of the second loop, for a line and a width below 2^31: the
element written has the horizontal offset named in the claim. -/
theorem alignmentStep_eq (width vo : Nat) (ha : TextHorzAlign) (st : AlignmentLoop)
    (line : TextLine) (hw : width < 2 ^ 31) (hl : line.getWidth < 2 ^ 31) :
    alignmentStep width vo ha st line =
      { curY := addUINT32 st.curY line.getYOffset
        output := st.output ++
          [Vector2I.mk (horizontalOffset width line.getWidth ha)
            (toINT32 (addUINT32 vo st.curY))] } := by
  have hc := clamped_difference width line.getWidth hw hl
  cases ha with
  | THA_Left => simp [alignmentStep, horizontalOffset, toINT32]
  | THA_Right =>
    simp only [alignmentStep, horizontalOffset, hc]
    have e : toINT32 (toUINT32 (max 0 ((width : Int) - (line.getWidth : Int)))) =
        max 0 ((width : Int) - (line.getWidth : Int)) := by
      unfold toINT32 toUINT32
      omega
    rw [e]
  | THA_Center =>
    simp only [alignmentStep, horizontalOffset, hc]
    rw [Int.tdiv_eq_ediv (le_max_left _ _) (by decide)]
    have e : toINT32 (toUINT32 (max 0 ((width : Int) - (line.getWidth : Int)) / 2)) =
        max 0 ((width : Int) - (line.getWidth : Int)) / 2 := by
      unfold toINT32 toUINT32
      omega
    rw [e]

/-- The vertical offset named in the claim is not negative and leaves room for
the text below 2^31. -/
theorem verticalOffset_bound (height total : Nat) (va : TextVertAlign) (hh : height < 2 ^ 31)
    (ht : total < 2 ^ 31) :
    0 ≤ verticalOffset height total va ∧ verticalOffset height total va + total < 2 ^ 31 := by
  cases va <;> simp only [verticalOffset] <;> omega

/-- The function runs its second loop with the vertical offset named in the
claim, when the height and the sum of the y-advances are below 2^31. -/
theorem getAlignmentOffsets_eq (lines : List TextLine) (width height : Nat)
    (ha : TextHorzAlign) (va : TextVertAlign) (hh : height < 2 ^ 31)
    (htot : totalYOffset lines < 2 ^ 31) :
    TextSprite.getAlignmentOffsets lines width height ha va =
      (lines.foldl
        (alignmentStep width (verticalOffset height (totalYOffset lines) va).toNat ha)
        ⟨0, []⟩).output := by
  have hcur := curHeight_eq lines 0 (by omega)
  simp only [Nat.zero_add] at hcur
  have hm : max 0 (subUINT32 height (totalYOffset lines)) =
      subUINT32 height (totalYOffset lines) := Nat.max_eq_right (Nat.zero_le _)
  have hc := clamped_difference height (totalYOffset lines) hh htot
  cases va with
  | TVA_Top => simp [TextSprite.getAlignmentOffsets, verticalOffset]
  | TVA_Bottom =>
    simp only [TextSprite.getAlignmentOffsets, verticalOffset, hcur, hm, hc]
    have e : toUINT32 (max 0 ((height : Int) - (totalYOffset lines : Int))) =
        (max 0 ((height : Int) - (totalYOffset lines : Int))).toNat := by
      unfold toUINT32
      omega
    rw [e]
  | TVA_Center =>
    simp only [TextSprite.getAlignmentOffsets, verticalOffset, hcur, hm, hc]
    rw [Int.tdiv_eq_ediv (le_max_left _ _) (by decide)]
    have e : toUINT32 (max 0 ((height : Int) - (totalYOffset lines : Int)) / 2) =
        (max 0 ((height : Int) - (totalYOffset lines : Int)) / 2).toNat := by
      unfold toUINT32
      omega
    rw [e]

/-- State of the second loop after all lines. -/
theorem alignmentLoop_spec (width vo : Nat) (ha : TextHorzAlign) (hw : width < 2 ^ 31)
    (lines : List TextLine) :
    (∀ l ∈ lines, l.getWidth < 2 ^ 31) → vo + totalYOffset lines < 2 ^ 31 →
    (lines.foldl (alignmentStep width vo ha) ⟨0, []⟩).curY = totalYOffset lines ∧
    (lines.foldl (alignmentStep width vo ha) ⟨0, []⟩).output.length = lines.length ∧
    ∀ (i : Nat) (l : TextLine), lines[i]? = some l →
      (lines.foldl (alignmentStep width vo ha) ⟨0, []⟩).output[i]? =
        some (Vector2I.mk (horizontalOffset width l.getWidth ha)
          ((vo : Int) + (totalYOffset (lines.take i) : Int))) := by
  induction lines using List.reverseRecOn with
  | nil =>
    intro _ _
    refine ⟨rfl, rfl, ?_⟩
    intro i l h
    simp at h
  | append_singleton ls x ih =>
    intro hwid hsum
    have htot : totalYOffset (ls ++ [x]) = totalYOffset ls + x.getYOffset := by
      simp [totalYOffset]
    rw [htot] at hsum
    obtain ⟨h1, h2, h3⟩ := ih (fun l hl => hwid l (List.mem_append_left _ hl)) (by omega)
    simp only [List.foldl_append, List.foldl_cons, List.foldl_nil]
    rw [alignmentStep_eq width vo ha _ x hw
      (hwid x (List.mem_append_right _ (List.mem_singleton_self x)))]
    refine ⟨?_, ?_, ?_⟩
    · simp only [h1, htot, addUINT32]
      omega
    · simp only [List.length_append, h2, List.length_singleton]
    · intro i l hl
      by_cases hi : i < ls.length
      · rw [List.getElem?_append_left hi] at hl
        rw [List.getElem?_append_left (by rw [h2]; exact hi), h3 i l hl,
          List.take_append_of_le_length (Nat.le_of_lt hi)]
      · have hlen : (ls ++ [x]).length = ls.length + 1 := by simp
        have hi' : i = ls.length := by
          have : i < (ls ++ [x]).length := by
            by_contra hge
            rw [List.getElem?_eq_none (by omega)] at hl
            cases hl
          omega
        subst hi'
        have hx : l = x := by
          rw [List.getElem?_append_right (le_refl _)] at hl
          simpa using hl.symm
        subst hx
        rw [List.getElem?_append_right (by rw [h2]), h2, Nat.sub_self]
        simp only [List.getElem?_cons_zero, Option.some.injEq]
        rw [List.take_append_of_le_length (le_refl _), List.take_length, h1]
        congr 1
        unfold toINT32 addUINT32
        omega

/-- The offsets written for `exampleText` in a box 100 wide and 20 high,
aligned right and bottom. -/
theorem exampleText_offsets :
    TextSprite.getAlignmentOffsets exampleText 100 20 TextHorzAlign.THA_Right
      TextVertAlign.TVA_Bottom = [⟨70, 0⟩, ⟨0, 10⟩] := by decide


/-! ## Claims about alignment offsets -/

/-- Claim C34 fails as stated, at two texts whose y-advances and line widths
are below 2^31, as are `width` and `height`.  The four lines of
`exampleWrappedText` advance 2^30 each: their sum 2^32 is 0 in the `UINT32`
variable `curHeight`, so in a box of height 100 the text, which is taller than
the box, gets the bottom-aligned vertical offset 100 where the claim has 0.  The
two lines of `exampleTallText` advance 2^30 + 1 each: their sum 2^31 + 2 fits
`curHeight`, but in a box of height 0 the wrapped difference
`height - curHeight` is 2^31 - 2, which the `INT32` cast leaves positive, and
the function writes (0, 2^31 - 2) and (0, -(2^30 + 1)) where the claim has
(0, 0) and (0, 2^30 + 1). -/
theorem alignment_sum_counterexample :
    (∀ l ∈ exampleWrappedText, l.getYOffset < 2 ^ 31 ∧ l.getWidth < 2 ^ 31) ∧
    (100 : Nat) < 2 ^ 31 ∧
    totalYOffset exampleWrappedText = 2 ^ 32 ∧
    verticalOffset 100 (totalYOffset exampleWrappedText) TextVertAlign.TVA_Bottom = 0 ∧
    (TextSprite.getAlignmentOffsets exampleWrappedText 0 100 TextHorzAlign.THA_Left
      TextVertAlign.TVA_Bottom)[0]? = some ⟨0, 100⟩ ∧
    (∀ l ∈ exampleTallText, l.getYOffset < 2 ^ 31 ∧ l.getWidth < 2 ^ 31) ∧
    totalYOffset exampleTallText = 2 ^ 31 + 2 ∧
    verticalOffset 0 (totalYOffset exampleTallText) TextVertAlign.TVA_Bottom = 0 ∧
    TextSprite.getAlignmentOffsets exampleTallText 0 0 TextHorzAlign.THA_Left
      TextVertAlign.TVA_Bottom = [⟨0, 2147483646⟩, ⟨0, -1073741825⟩] ∧
    (TextSprite.getAlignmentOffsets exampleTallText 0 0 TextHorzAlign.THA_Left
      TextVertAlign.TVA_Bottom)[0]? ≠
        some (Vector2I.mk (horizontalOffset 0 0 TextHorzAlign.THA_Left)
          (verticalOffset 0 (totalYOffset exampleTallText) TextVertAlign.TVA_Bottom +
            (totalYOffset (exampleTallText.take 0) : Int))) := by
  refine ⟨by decide, by decide, by decide, by decide, by decide, by decide, by decide,
    by decide, by decide, by decide⟩

/-- Claim C34, amended: for a text whose line widths, `width`, `height` and sum of
y-advances (the value `curHeight` and `curY` run up to) are below 2^31,
`getAlignmentOffsets` writes one offset per line, and the offset of line i is
(h_i, v + y_0 + ... + y_(i-1)), with v 0 for top alignment, max(0, height - sum
of all y-advances) for bottom alignment and half of that for centre alignment,
and h_i 0 for left alignment, max(0, width - w_i) for right alignment and half
of that for centre alignment; when the text is at least as tall as `height` v
is 0, and for a line at least as wide as `width` h_i is 0. -/
theorem alignment_offsets_clamped (lines : List TextLine) (width height : Nat)
    (ha : TextHorzAlign) (va : TextVertAlign)
    (hw : width < 2 ^ 31) (hh : height < 2 ^ 31)
    (hwid : ∀ l ∈ lines, l.getWidth < 2 ^ 31)
    (htot : totalYOffset lines < 2 ^ 31) :
    (TextSprite.getAlignmentOffsets lines width height ha va).length = lines.length ∧
    (∀ (i : Nat) (l : TextLine), lines[i]? = some l →
      (TextSprite.getAlignmentOffsets lines width height ha va)[i]? =
        some (Vector2I.mk (horizontalOffset width l.getWidth ha)
          (verticalOffset height (totalYOffset lines) va +
            (totalYOffset (lines.take i) : Int)))) ∧
    (height ≤ totalYOffset lines → verticalOffset height (totalYOffset lines) va = 0) ∧
    (∀ l ∈ lines, width ≤ l.getWidth → horizontalOffset width l.getWidth ha = 0) := by
  have hb := verticalOffset_bound height (totalYOffset lines) va hh htot
  rw [getAlignmentOffsets_eq lines width height ha va hh htot]
  obtain ⟨-, h2, h3⟩ := alignmentLoop_spec width
    (verticalOffset height (totalYOffset lines) va).toNat ha hw lines hwid (by omega)
  refine ⟨h2, ?_, ?_, ?_⟩
  · intro i l hl
    rw [h3 i l hl, Int.toNat_of_nonneg hb.1]
  · intro hle
    cases va <;> simp only [verticalOffset] <;> omega
  · intro l _ hle
    cases ha <;> simp only [horizontalOffset] <;> omega

/-- Witness for C34: the two lines of `exampleText` in a box 100 wide and 20
high, aligned right and bottom; the text is taller than the box and the second
line is wider. -/
theorem alignment_offsets_clamped_witness :
    (100 : Nat) < 2 ^ 31 ∧ (20 : Nat) < 2 ^ 31 ∧
    (∀ l ∈ exampleText, l.getWidth < 2 ^ 31) ∧ totalYOffset exampleText < 2 ^ 31 ∧
    (TextSprite.getAlignmentOffsets exampleText 100 20 TextHorzAlign.THA_Right
      TextVertAlign.TVA_Bottom).length = exampleText.length ∧
    (∀ (i : Nat) (l : TextLine), exampleText[i]? = some l →
      (TextSprite.getAlignmentOffsets exampleText 100 20 TextHorzAlign.THA_Right
          TextVertAlign.TVA_Bottom)[i]? =
        some (Vector2I.mk (horizontalOffset 100 l.getWidth TextHorzAlign.THA_Right)
          (verticalOffset 20 (totalYOffset exampleText) TextVertAlign.TVA_Bottom +
            (totalYOffset (exampleText.take i) : Int)))) ∧
    (20 ≤ totalYOffset exampleText →
      verticalOffset 20 (totalYOffset exampleText) TextVertAlign.TVA_Bottom = 0) ∧
    (∀ l ∈ exampleText, 100 ≤ l.getWidth →
      horizontalOffset 100 l.getWidth TextHorzAlign.THA_Right = 0) :=
  ⟨by decide, by decide, by decide, by decide,
    alignment_offsets_clamped exampleText 100 20 TextHorzAlign.THA_Right
      TextVertAlign.TVA_Bottom (by decide) (by decide) (by decide) (by decide)⟩

end BansheeEngine
